import Mathlib

/-!
# GP FIFO decoder and FIFO recorder/player of gekko-gc-emu

Shallow embedding of `video_core/src/fifo.cpp` and `video_core/src/fifo_player.cpp`, and of
`KeyboardInput::SetControllerStatus` of `input_common/src/keyboard_input/keyboard_input.cpp`.

Conventions
* machine integers are `Nat` (unsigned, reduced with `%` where the C type truncates) or `Int`
  (the signed `last_required_size`);
* `g_fifo_read_ptr` is kept as its offset `g_fifo_read_ptr - g_fifo_buffer`;
* calls into collaborators that are not part of these two files (register sinks, vertex loader) are
  recorded in an event log;
* a result of type `Option` is `none` when the C++ has no defined outcome (null dereference,
  store into a vector without storage, `back()` of an empty vector) or when the loop fuel is
  exhausted;
* a store into a vector's storage beyond `size()` leaves the elements of the vector as they are.
-/

set_option maxRecDepth 100000

/-! ## fifo_player.cpp : data model -/

namespace fifo_player

/-- Constants of `fifo_player.h` (the header is not among the sources): they are parameters. -/
structure Defs where
  FIFO_PLAYER_MAGIC_NUM : Nat
  FIFO_PLAYER_VERSION : Nat
  sizeof_FPFileHeader : Nat
  sizeof_FPFrameInfo : Nat
  sizeof_FPElementInfo : Nat
  sizeof_FPMemUpdateInfo : Nat
deriving DecidableEq, Repr

/-- Tag of a recorded element (`FPElementInfo::type`). -/
inductive ElementType where
  | REGISTER_WRITE
  | MEMORY_UPDATE
deriving DecidableEq, Repr

/-- One recorded element: a byte range of the raw log. -/
structure FPElementInfo where
  type : ElementType
  offset : Nat
  size : Nat
deriving DecidableEq, Repr

/-- One recorded frame: a range of elements. -/
structure FPFrameInfo where
  base_element : Nat
  num_elements : Nat
deriving DecidableEq, Repr

/-- File header of a recording. -/
structure FPFileHeader where
  magic_num : Nat
  version : Nat
  num_frames : Nat
  num_elements : Nat
  num_raw_data_bytes : Nat
  frame_info_offset : Nat
  element_info_offset : Nat
  raw_data_offset : Nat
deriving DecidableEq, Repr

/-- The globals of fifo_player.cpp. `current_frame_info` is the index of the frame the C++ pointer
refers to (`none` is `NULL`); an index at or beyond the length of `frame_info` is a pointer at a
frame that `pop_back` has removed, whose slot is still part of the storage of the vector. -/
structure Recorder where
  is_recording : Bool
  file_header : FPFileHeader
  frame_info : List FPFrameInfo
  element_info : List FPElementInfo
  raw_data : List Nat
  current_frame_info : Option Nat
deriving DecidableEq, Repr

/-- The all-zero header left by `memset(&file_header, 0, sizeof(file_header))`. -/
def zero_header : FPFileHeader :=
  { magic_num := 0, version := 0, num_frames := 0, num_elements := 0, num_raw_data_bytes := 0,
    frame_info_offset := 0, element_info_offset := 0, raw_data_offset := 0 }

/-- State of the globals at program start (static initialisation). -/
def Recorder.startup : Recorder :=
  { is_recording := false, file_header := zero_header, frame_info := [], element_info := [],
    raw_data := [], current_frame_info := none }

/-- The function `IsRecording`. -/
def IsRecording (r : Recorder) : Bool := r.is_recording

/-- The function `StartRecording`: clears the header, the frame list and the element list, stamps
magic and version, opens one value-initialised frame and points `current_frame_info` at it.
The source has no statement touching `raw_data`. -/
def StartRecording (d : Defs) (r : Recorder) : Recorder :=
  { is_recording := true
    file_header := { zero_header with magic_num := d.FIFO_PLAYER_MAGIC_NUM,
                                      version := d.FIFO_PLAYER_VERSION }
    frame_info := [{ base_element := 0, num_elements := 0 }]
    element_info := []
    raw_data := r.raw_data
    current_frame_info := some 0 }

/-- The function `Write(data, size)`: `bytes` are the `size` bytes at `data`. -/
def Write (r : Recorder) (bytes : List Nat) : Recorder :=
  let element : FPElementInfo :=
    { type := ElementType.REGISTER_WRITE, size := bytes.length, offset := r.raw_data.length }
  { r with element_info := r.element_info ++ [element], raw_data := r.raw_data ++ bytes }

/-- Store through `std::vector<u8>::operator[]`, which performs no bounds check and writes to
`data() + i`. A store below `size()` replaces the element. The raw log is never cleared or
reserved in fifo_player.cpp, so a vector without elements has no storage: `data()` is null and the
store faults (`none`). A store at or beyond `size()` of a vector that has storage is outside the
elements (undefined behaviour in C++) and leaves the elements and the size as they are. -/
def vec_store (v : List Nat) (i : Nat) (x : Nat) : Option (List Nat) :=
  if i < v.length then some (v.set i (x % 256))
  else if v = [] then none
  else some v

/-- The function `MemUpdate(address, data, size)`: `data` are the `size` payload bytes. The result
is `none` when one of the two header stores faults. -/
def MemUpdate (d : Defs) (r : Recorder) (address : Nat) (data : List Nat) : Option Recorder :=
  let size := data.length
  let element : FPElementInfo :=
    { type := ElementType.MEMORY_UPDATE, size := (d.sizeof_FPMemUpdateInfo + size) % 2 ^ 32,
      offset := r.raw_data.length }
  let element_info := r.element_info ++ [element]
  match vec_store r.raw_data element.offset address with
  | none => none
  | some raw0 =>
    match vec_store raw0 (element.offset + 1) size with
    | none => none
    | some raw1 => some { r with element_info := element_info, raw_data := raw1 ++ data }

/-- The function `FrameFinished`. It dereferences `current_frame_info`; the result is `none` when
that pointer is `NULL`. A pointer at an index at or beyond `size()` refers to a frame that the
`pop_back` of `EndRecording` removed: `pop_back` keeps the storage, so the slot lies in the spare
capacity of the vector, the store to `num_elements` leaves the elements as they are, and the
`resize` that follows does not reallocate. The frame appended by `resize` is value-initialised,
then receives its `base_element`, and becomes the current frame. -/
def FrameFinished (r : Recorder) : Option Recorder :=
  match r.current_frame_info with
  | none => none
  | some i =>
    let stored : List FPFrameInfo :=
      match r.frame_info.get? i with
      | none => r.frame_info
      | some cur =>
        r.frame_info.set i
          { cur with num_elements :=
              (r.element_info.length + 2 ^ 32 - cur.base_element % 2 ^ 32) % 2 ^ 32 }
    let opened : FPFrameInfo := { base_element := r.element_info.length, num_elements := 0 }
    some { r with frame_info := stored ++ [opened],
                  current_frame_info := some r.frame_info.length }

/-- The trimming loop of `EndRecording`:
`while (frame_info.back().base_element == element_info.size() && !frame_info.empty()) pop_back()`.
The frame list is passed reversed (last frame first). `back()` is evaluated before `empty()`, so
reaching the empty list has no defined outcome: the read is in front of the storage of the
vector. -/
def trim_frames (nelems : Nat) : List FPFrameInfo → Option (List FPFrameInfo)
  | [] => none
  | f :: rest => if f.base_element = nelems then trim_frames nelems rest else some (f :: rest)

/-- The function `EndRecording`. -/
def EndRecording (d : Defs) (r : Recorder) : Option Recorder :=
  match FrameFinished r with
  | none => none
  | some r1 =>
    match trim_frames r1.element_info.length r1.frame_info.reverse with
    | none => none
    | some rev =>
      let frames := rev.reverse
      let h0 := r1.file_header
      let h1 := { h0 with num_frames := frames.length, num_elements := r1.element_info.length,
                          num_raw_data_bytes := r1.raw_data.length,
                          frame_info_offset := d.sizeof_FPFileHeader }
      let h2 := { h1 with element_info_offset :=
                    h1.frame_info_offset + h1.num_frames * d.sizeof_FPFrameInfo }
      let h3 := { h2 with raw_data_offset :=
                    h2.element_info_offset + h2.num_elements * d.sizeof_FPElementInfo }
      some { r1 with frame_info := frames, file_header := h3, is_recording := false }

/-- The aggregate `FPFile` handed to `Save`, `Load` and `PlayFile`. -/
structure FPFile where
  file_header : FPFileHeader
  frame_info : List FPFrameInfo
  element_info : List FPElementInfo
  raw_data : List Nat
deriving DecidableEq, Repr

/-- The session held by the recorder globals, as an `FPFile`. -/
def Recorder.toFile (r : Recorder) : FPFile :=
  { file_header := r.file_header, frame_info := r.frame_info, element_info := r.element_info,
    raw_data := r.raw_data }

/-- Inner loop of `PlayFile`: the bytes `raw_data[offset .. offset + size)` of one element, in
order; `none` when the range leaves the vector. -/
def element_bytes (raw : List Nat) (e : FPElementInfo) : Option (List Nat) :=
  if e.offset + e.size ≤ raw.length then some ((raw.drop e.offset).take e.size) else none

/-- Middle loop of `PlayFile`: the elements `base_element .. base_element + num_elements` of one
frame, in order; `none` when the range leaves the vector. -/
def frame_elements (elems : List FPElementInfo) (f : FPFrameInfo) : Option (List FPElementInfo) :=
  if f.base_element + f.num_elements ≤ elems.length then
    some ((elems.drop f.base_element).take f.num_elements)
  else none

/-- Sequence of a list of optional results, `none` as soon as one of them is. -/
def all_some {α : Type} : List (Option α) → Option (List α)
  | [] => some []
  | none :: _ => none
  | some a :: rest =>
    match all_some rest with
    | none => none
    | some as => some (a :: as)

/-- The function `PlayFile`: the sequence of arguments of the `gp::FifoPush8` calls it makes, frame
by frame, element by element, byte by byte. -/
def PlayFile (f : FPFile) : Option (List Nat) :=
  match all_some (f.frame_info.map (frame_elements f.element_info)) with
  | none => none
  | some ess =>
    match all_some (ess.flatten.map (element_bytes f.raw_data)) with
    | none => none
    | some bss => some bss.flatten

/-- The elements `Write` appends for the commands `cmds`, one per command, when the raw log holds
`off` bytes before the first of them. -/
def elements_of (off : Nat) : List (List Nat) → List FPElementInfo
  | [] => []
  | c :: cs =>
    { type := ElementType.REGISTER_WRITE, offset := off, size := c.length } ::
      elements_of (off + c.length) cs

end fifo_player

/-! ## fifo.cpp : state -/

namespace gp

/-- Constants and collaborators that fifo.cpp takes from headers and modules which are not among
the sources: `FIFO_SIZE` and `FIFO_TAIL_END` (fifo.h), `RAM_MASK` and the emulated memory `Mem_RAM`
(memory.h), the width of `uintptr_t`, and `VertexLoader_GetVertexSize`, which the vertex loader
answers for the current vertex attribute table. -/
structure Env where
  FIFO_SIZE : Nat
  FIFO_TAIL_END : Nat
  RAM_MASK : Nat
  UINTPTR_BITS : Nat
  Mem_RAM : Nat → Nat
  VertexLoader_GetVertexSize : Nat → Nat

/-- Which set of pop routines the pointers `Fifo_Pop8/16/24/32` refer to. -/
inductive ReadMode where
  | normal
  | displaylists
deriving DecidableEq, Repr

/-- Primitive kinds handed to `VertexLoader_DecodePrimitive`. -/
inductive Primitive where
  | GX_QUADS | GX_TRIANGLES | GX_TRIANGLESTRIP | GX_TRIANGLEFAN | GX_LINES | GX_LINESTRIP | GX_POINTS
deriving DecidableEq, Repr

/-- Index registers handed to `XF_LoadIndexed`. -/
inductive IdxReg where
  | GX_IDX_A | GX_IDX_B | GX_IDX_C | GX_IDX_D
deriving DecidableEq, Repr

/-- Calls that leave fifo.cpp (register sinks, vertex loader) and failed assertions, in the order
they happen. -/
inductive Event where
  | NOP
  | CP_RegisterWrite (addr data : Nat)
  | XF_Load (length addr : Nat) (regs : List Nat)
  | XF_LoadIndexed (reg : IdxReg) (index length addr : Nat)
  | CALL_DISPLAYLIST (addr size : Nat)
  | CALL_DISPLAYLIST_finished
  | INVALIDATE_VERTEX_CACHE
  | BP_RegisterWrite (addr data : Nat)
  | VertexLoader_DecodePrimitive (kind : Primitive) (count : Nat)
  | assert_fifo_corrupted
  | assert_xf_length (length : Nat)
  | assert_read_passed_write
deriving DecidableEq, Repr

/-- The handlers `GPOPCODE_*` an entry of `g_exec_op` can point to. -/
inductive GPFunc where
  | UNKNOWN | NOP | LOAD_CP_REG | LOAD_XF_REG
  | LOAD_IDX_A | LOAD_IDX_B | LOAD_IDX_C | LOAD_IDX_D
  | CALL_DISPLAYLIST | INVALIDATE_VERTEX_CACHE | LOAD_BP_REG
  | DRAW_QUADS | DRAW_TRIANGLES | DRAW_TRIANGLESTRIP | DRAW_TRIANGLEFAN
  | DRAW_LINES | DRAW_LINESTRIP | DRAW_POINTS
deriving DecidableEq, Repr

/-- The mutable globals of fifo.cpp, the static `last_required_size` of `Fifo_NextCommandReady`,
the recorder globals of fifo_player.cpp, and the event log. -/
structure State where
  g_cur_cmd : Nat
  g_cur_vat : Nat
  g_fifo_write_ptr : Nat
  g_fifo_read_ptr : Nat
  g_fifo_buffer : List Nat
  g_reset_fifo : Nat
  g_dl_read_addr : Nat
  g_dl_read_offset : Nat
  Fifo_Pop : ReadMode
  last_required_size : Int
  recorder : fifo_player.Recorder
  events : List Event
deriving DecidableEq, Repr

/-- Modelled from the spec: the macro `GP_OPMASK` of fifo.h (not among the sources) extracts the
5-bit opcode class that indexes the 0x20-entry table; the low three bits are the vertex attribute
table (`g_cur_cmd & 0x7`). -/
def GP_OPMASK (n : Nat) : Nat := (n >>> 3) &&& 0x1f

/-- Conversion to `s32`. -/
def to_s32 (x : Int) : Int :=
  let m := x % 2 ^ 32
  if m < 2 ^ 31 then m else m - 2 ^ 32

/-- Byte `i` of `g_fifo_buffer`. -/
def buffer_at (s : State) (i : Nat) : Nat := s.g_fifo_buffer.getD i 0 % 256

/-- Macro `FIFO_GET8(x)`: the byte at `g_fifo_read_ptr[x]` (same shape as `GET8` in
`Fifo_GetCommandLength`). -/
def FIFO_GET8 (s : State) (x : Nat) : Nat := buffer_at s (s.g_fifo_read_ptr + x)

/-- Macro `FIFO_GET16(x)`: byte-swapped 16-bit load (host little-endian). -/
def FIFO_GET16 (s : State) (x : Nat) : Nat := (FIFO_GET8 s x <<< 8) ||| FIFO_GET8 s (x + 1)

/-- Macro `FIFO_GET32(x)`: byte-swapped 32-bit load (host little-endian). -/
def FIFO_GET32 (s : State) (x : Nat) : Nat :=
  (FIFO_GET8 s x <<< 24) ||| (FIFO_GET8 s (x + 1) <<< 16) ||| (FIFO_GET8 s (x + 2) <<< 8)
    ||| FIFO_GET8 s (x + 3)

/-! ## FIFO read routines -/

/-- Routine `__fifo_pop_8`. -/
def __fifo_pop_8 (s : State) : Nat × State :=
  (FIFO_GET8 s 0, { s with g_fifo_read_ptr := s.g_fifo_read_ptr + 1 })

/-- Routine `__fifo_pop_16`. -/
def __fifo_pop_16 (s : State) : Nat × State :=
  (FIFO_GET16 s 0, { s with g_fifo_read_ptr := s.g_fifo_read_ptr + 2 })

/-- Routine `__fifo_pop_24`: three 8-bit pops, the first one most significant. -/
def __fifo_pop_24 (s : State) : Nat × State :=
  let (a, s1) := __fifo_pop_8 s
  let (b, s2) := __fifo_pop_8 s1
  let (c, s3) := __fifo_pop_8 s2
  ((a <<< 16) ||| (b <<< 8) ||| c, s3)

/-- Routine `__fifo_pop_32`. -/
def __fifo_pop_32 (s : State) : Nat × State :=
  (FIFO_GET32 s 0, { s with g_fifo_read_ptr := s.g_fifo_read_ptr + 4 })

/-- Byte of emulated memory at display-list position `g_dl_read_addr + g_dl_read_offset + k`
(32-bit address arithmetic, index XOR 3). -/
def dl_byte (env : Env) (s : State) (k : Nat) : Nat :=
  env.Mem_RAM ((((s.g_dl_read_addr + s.g_dl_read_offset) % 2 ^ 32 + k) % 2 ^ 32) ^^^ 3) % 256

/-- Routine `__displaylist_pop_8`. -/
def __displaylist_pop_8 (env : Env) (s : State) : Nat × State :=
  (dl_byte env s 0, { s with g_dl_read_offset := (s.g_dl_read_offset + 1) % 2 ^ 32 })

/-- Routine `__displaylist_pop_16`. -/
def __displaylist_pop_16 (env : Env) (s : State) : Nat × State :=
  ((dl_byte env s 0 <<< 8) ||| dl_byte env s 1,
   { s with g_dl_read_offset := (s.g_dl_read_offset + 2) % 2 ^ 32 })

/-- Routine `__displaylist_pop_24`: three 8-bit pops, the first one most significant. -/
def __displaylist_pop_24 (env : Env) (s : State) : Nat × State :=
  let (a, s1) := __displaylist_pop_8 env s
  let (b, s2) := __displaylist_pop_8 env s1
  let (c, s3) := __displaylist_pop_8 env s2
  ((a <<< 16) ||| (b <<< 8) ||| c, s3)

/-- Routine `__displaylist_pop_32`. -/
def __displaylist_pop_32 (env : Env) (s : State) : Nat × State :=
  ((dl_byte env s 0 <<< 24) ||| (dl_byte env s 1 <<< 16) ||| (dl_byte env s 2 <<< 8)
     ||| dl_byte env s 3,
   { s with g_dl_read_offset := (s.g_dl_read_offset + 4) % 2 ^ 32 })

/-- Routine `_set_fifo_read_normal`. -/
def _set_fifo_read_normal (s : State) : State := { s with Fifo_Pop := ReadMode.normal }

/-- Routine `_set_fifo_read_displaylists`. -/
def _set_fifo_read_displaylists (s : State) : State := { s with Fifo_Pop := ReadMode.displaylists }

/-- Call through the pointer `Fifo_Pop8`. -/
def Fifo_Pop8 (env : Env) (s : State) : Nat × State :=
  match s.Fifo_Pop with
  | ReadMode.normal => __fifo_pop_8 s
  | ReadMode.displaylists => __displaylist_pop_8 env s

/-- Call through the pointer `Fifo_Pop16`. -/
def Fifo_Pop16 (env : Env) (s : State) : Nat × State :=
  match s.Fifo_Pop with
  | ReadMode.normal => __fifo_pop_16 s
  | ReadMode.displaylists => __displaylist_pop_16 env s

/-- Call through the pointer `Fifo_Pop24`. -/
def Fifo_Pop24 (env : Env) (s : State) : Nat × State :=
  match s.Fifo_Pop with
  | ReadMode.normal => __fifo_pop_24 s
  | ReadMode.displaylists => __displaylist_pop_24 env s

/-- Call through the pointer `Fifo_Pop32`. -/
def Fifo_Pop32 (env : Env) (s : State) : Nat × State :=
  match s.Fifo_Pop with
  | ReadMode.normal => __fifo_pop_32 s
  | ReadMode.displaylists => __displaylist_pop_32 env s

/-- Append an event to the log. -/
def emit (s : State) (e : Event) : State := { s with events := s.events ++ [e] }

/-! ## Graphics processor instructions -/

/-- Modelled from the spec: the opcode constants `GP_NOP` .. `GP_DRAW_POINTS` are declared in
fifo.h (not among the sources). The classes of the register and display-list commands are the case
labels of `Fifo_NextCommandReady` (0 NOP, 1 LOAD_CP, 2 LOAD XF, 4-7 LOAD IDX A-D, 8 CALL_DL,
9 INVALID_VTX_CACHE, 0xC LOAD BP); draw opcodes have the high bit set. -/
def GP_NOP : Nat := 0x00

/-- Modelled from the spec: opcode of class 1, see `GP_NOP`. -/
def GP_LOAD_CP_REG : Nat := 0x08

/-- Modelled from the spec: opcode of class 2, see `GP_NOP`. -/
def GP_LOAD_XF_REG : Nat := 0x10

/-- Modelled from the spec: opcode of class 4, see `GP_NOP`. -/
def GP_LOAD_IDX_A : Nat := 0x20

/-- Modelled from the spec: opcode of class 5, see `GP_NOP`. -/
def GP_LOAD_IDX_B : Nat := 0x28

/-- Modelled from the spec: opcode of class 6, see `GP_NOP`. -/
def GP_LOAD_IDX_C : Nat := 0x30

/-- Modelled from the spec: opcode of class 7, see `GP_NOP`. -/
def GP_LOAD_IDX_D : Nat := 0x38

/-- Modelled from the spec: opcode of class 8, see `GP_NOP`. -/
def GP_CALL_DISPLAYLIST : Nat := 0x40

/-- Modelled from the spec: opcode of class 9, see `GP_NOP`. -/
def GP_INVALIDATE_VERTEX_CACHE : Nat := 0x48

/-- Modelled from the spec: opcode of class 0xC, see `GP_NOP`. -/
def GP_LOAD_BP_REG : Nat := 0x61

/-- Modelled from the spec: draw opcode (high bit set, section 4.3); fifo.h is not among the
sources, the value is the one of the GX command set. -/
def GP_DRAW_QUADS : Nat := 0x80

/-- Modelled from the spec: draw opcode (high bit set, section 4.3); fifo.h is not among the
sources, the value is the one of the GX command set. -/
def GP_DRAW_TRIANGLES : Nat := 0x90

/-- Modelled from the spec: draw opcode (high bit set, section 4.3); fifo.h is not among the
sources, the value is the one of the GX command set. -/
def GP_DRAW_TRIANGLESTRIP : Nat := 0x98

/-- Modelled from the spec: draw opcode (high bit set, section 4.3); fifo.h is not among the
sources, the value is the one of the GX command set. -/
def GP_DRAW_TRIANGLEFAN : Nat := 0xA0

/-- Modelled from the spec: draw opcode (high bit set, section 4.3); fifo.h is not among the
sources, the value is the one of the GX command set. -/
def GP_DRAW_LINES : Nat := 0xA8

/-- Modelled from the spec: draw opcode (high bit set, section 4.3); fifo.h is not among the
sources, the value is the one of the GX command set. -/
def GP_DRAW_LINESTRIP : Nat := 0xB0

/-- Modelled from the spec: draw opcode (high bit set, section 4.3); fifo.h is not among the
sources, the value is the one of the GX command set. -/
def GP_DRAW_POINTS : Nat := 0xB8

/-- Macro `GP_SETOP(n, op)` : `g_exec_op[n] = op`. -/
def GP_SETOP (table : List GPFunc) (n : Nat) (op : GPFunc) : List GPFunc := table.set n op

/-- The table `g_exec_op` as `Fifo_Init` builds it: 0x20 entries `GPOPCODE_UNKNOWN`, then the
seventeen `GP_SETOP` statements in source order. Nothing else writes the table. -/
def g_exec_op_table : List GPFunc :=
  let t := List.replicate 0x20 GPFunc.UNKNOWN
  let t := GP_SETOP t (GP_OPMASK GP_NOP) GPFunc.NOP
  let t := GP_SETOP t (GP_OPMASK GP_LOAD_CP_REG) GPFunc.LOAD_CP_REG
  let t := GP_SETOP t (GP_OPMASK GP_LOAD_XF_REG) GPFunc.LOAD_XF_REG
  let t := GP_SETOP t (GP_OPMASK GP_LOAD_IDX_A) GPFunc.LOAD_IDX_A
  let t := GP_SETOP t (GP_OPMASK GP_LOAD_IDX_B) GPFunc.LOAD_IDX_B
  let t := GP_SETOP t (GP_OPMASK GP_LOAD_IDX_C) GPFunc.LOAD_IDX_C
  let t := GP_SETOP t (GP_OPMASK GP_LOAD_IDX_D) GPFunc.LOAD_IDX_D
  let t := GP_SETOP t (GP_OPMASK GP_CALL_DISPLAYLIST) GPFunc.CALL_DISPLAYLIST
  let t := GP_SETOP t (GP_OPMASK GP_INVALIDATE_VERTEX_CACHE) GPFunc.INVALIDATE_VERTEX_CACHE
  let t := GP_SETOP t (GP_OPMASK GP_LOAD_BP_REG) GPFunc.LOAD_BP_REG
  let t := GP_SETOP t (GP_OPMASK GP_DRAW_QUADS) GPFunc.DRAW_QUADS
  let t := GP_SETOP t (GP_OPMASK GP_DRAW_TRIANGLES) GPFunc.DRAW_TRIANGLES
  let t := GP_SETOP t (GP_OPMASK GP_DRAW_TRIANGLESTRIP) GPFunc.DRAW_TRIANGLESTRIP
  let t := GP_SETOP t (GP_OPMASK GP_DRAW_TRIANGLEFAN) GPFunc.DRAW_TRIANGLEFAN
  let t := GP_SETOP t (GP_OPMASK GP_DRAW_LINES) GPFunc.DRAW_LINES
  let t := GP_SETOP t (GP_OPMASK GP_DRAW_LINESTRIP) GPFunc.DRAW_LINESTRIP
  GP_SETOP t (GP_OPMASK GP_DRAW_POINTS) GPFunc.DRAW_POINTS

/-- Entry `g_exec_op[n]` of the initialised table. -/
def g_exec_op (n : Nat) : GPFunc := g_exec_op_table.getD n GPFunc.UNKNOWN

/-- Handler `GPOPCODE_UNKNOWN`: its assertion always fails; nothing is popped. -/
def GPOPCODE_UNKNOWN (s : State) : State := emit s Event.assert_fifo_corrupted

/-- Handler `GPOPCODE_NOP`. -/
def GPOPCODE_NOP (s : State) : State := emit s Event.NOP

/-- Handler `GPOPCODE_LOAD_CP_REG`. -/
def GPOPCODE_LOAD_CP_REG (env : Env) (s : State) : State :=
  let (addr, s1) := Fifo_Pop8 env s
  let (data, s2) := Fifo_Pop32 env s1
  emit s2 (Event.CP_RegisterWrite addr data)

/-- The loop `for (i = 0; i < length; i++) regs[i] = Fifo_Pop32();` of `GPOPCODE_LOAD_XF_REG`:
the words popped, in order. (For `length > 64` the C++ stores run past `regs[64]`.) -/
def pop_regs (env : Env) : Nat → State → List Nat × State
  | 0, s => ([], s)
  | n + 1, s =>
    let (w, s1) := Fifo_Pop32 env s
    let (ws, s2) := pop_regs env n s1
    (w :: ws, s2)

/-- Handler `GPOPCODE_LOAD_XF_REG`. For a `length` above 64 the assertion `length <= 64` fails
(logged as an event) and the stores `regs[i]` with `i >= 64` leave the array `u32 regs[64]`
(undefined behaviour in C++, the outcome depends on the build); the model pops every word and goes
on, so it stands for the C++ only up to 64 words, and for the pops alone beyond. -/
def GPOPCODE_LOAD_XF_REG (env : Env) (s : State) : State :=
  let (temp, s1) := Fifo_Pop32 env s
  let length := ((temp >>> 16) + 1) % 2 ^ 16
  let addr := temp &&& 0xFFFF
  let s2 := if length ≤ 64 then s1 else emit s1 (Event.assert_xf_length length)
  let (regs, s3) := pop_regs env length s2
  emit s3 (Event.XF_Load length addr regs)

/-- Handlers `GPOPCODE_LOAD_IDX_A` .. `GPOPCODE_LOAD_IDX_D` (same body, different index register). -/
def GPOPCODE_LOAD_IDX (env : Env) (reg : IdxReg) (s : State) : State :=
  let (index, s1) := Fifo_Pop16 env s
  let (data, s2) := Fifo_Pop16 env s1
  let length := ((data >>> 12) + 1) % 2 ^ 8
  let addr := data &&& 0xfff
  emit s2 (Event.XF_LoadIndexed reg index length addr)

/-- Handler `GPOPCODE_INVALIDATE_VERTEX_CACHE`. -/
def GPOPCODE_INVALIDATE_VERTEX_CACHE (s : State) : State := emit s Event.INVALIDATE_VERTEX_CACHE

/-- Handler `GPOPCODE_LOAD_BP_REG`. -/
def GPOPCODE_LOAD_BP_REG (env : Env) (s : State) : State :=
  let (data, s1) := Fifo_Pop32 env s
  emit s1 (Event.BP_RegisterWrite (data >>> 24) (data &&& 0x00FFFFFF))

/-- Modelled from the spec: `VertexLoader_DecodePrimitive` belongs to the vertex loader, which is
not among the sources. Section 6: the draw handlers submit the primitive and "downstream vertex
decoding consumes subsequent bytes via the same Stream Source Switch", `count` vertices of the
current vertex size each. -/
def VertexLoader_DecodePrimitive (env : Env) (kind : Primitive) (count : Nat) (s : State) : State :=
  let n := count * env.VertexLoader_GetVertexSize s.g_cur_vat
  let s1 := emit s (Event.VertexLoader_DecodePrimitive kind count)
  match s1.Fifo_Pop with
  | ReadMode.normal => { s1 with g_fifo_read_ptr := s1.g_fifo_read_ptr + n }
  | ReadMode.displaylists => { s1 with g_dl_read_offset := (s1.g_dl_read_offset + n) % 2 ^ 32 }

/-- Handlers `GPOPCODE_DRAW_QUADS` .. `GPOPCODE_DRAW_POINTS` (same body, different primitive). -/
def GPOPCODE_DRAW (env : Env) (kind : Primitive) (s : State) : State :=
  let (count, s1) := Fifo_Pop16 env s
  VertexLoader_DecodePrimitive env kind count s1

/-- What remains to be executed: a handler, or the `while` loop of `GPOPCODE_CALL_DISPLAYLIST`
with its local `size`. -/
inductive Job where
  | op (f : GPFunc)
  | dl_loop (size : Nat)
deriving DecidableEq, Repr

/-- Execution of a handler `g_exec_op[..]()`, including `GPOPCODE_CALL_DISPLAYLIST` and its loop
`while (g_dl_read_offset < size) { g_cur_cmd = Fifo_Pop8(); g_cur_vat = g_cur_cmd & 0x7;
g_exec_op[GP_OPMASK(g_cur_cmd)](); }`. Every handler call and every loop test costs one unit of
fuel; `none` means the fuel ran out. -/
def exec (env : Env) : Nat → Job → State → Option State
  | 0, _, _ => none
  | fuel + 1, Job.op f, s =>
    match f with
    | GPFunc.UNKNOWN => some (GPOPCODE_UNKNOWN s)
    | GPFunc.NOP => some (GPOPCODE_NOP s)
    | GPFunc.LOAD_CP_REG => some (GPOPCODE_LOAD_CP_REG env s)
    | GPFunc.LOAD_XF_REG => some (GPOPCODE_LOAD_XF_REG env s)
    | GPFunc.LOAD_IDX_A => some (GPOPCODE_LOAD_IDX env IdxReg.GX_IDX_A s)
    | GPFunc.LOAD_IDX_B => some (GPOPCODE_LOAD_IDX env IdxReg.GX_IDX_B s)
    | GPFunc.LOAD_IDX_C => some (GPOPCODE_LOAD_IDX env IdxReg.GX_IDX_C s)
    | GPFunc.LOAD_IDX_D => some (GPOPCODE_LOAD_IDX env IdxReg.GX_IDX_D s)
    | GPFunc.CALL_DISPLAYLIST =>
      let (a, s1) := Fifo_Pop32 env s
      let addr := a &&& env.RAM_MASK
      let (size, s2) := Fifo_Pop32 env s1
      let s3 := { s2 with g_dl_read_addr := addr, g_dl_read_offset := 0 }
      let s4 := _set_fifo_read_displaylists (emit s3 (Event.CALL_DISPLAYLIST addr size))
      match exec env fuel (Job.dl_loop size) s4 with
      | none => none
      | some s5 => some (emit (_set_fifo_read_normal s5) Event.CALL_DISPLAYLIST_finished)
    | GPFunc.INVALIDATE_VERTEX_CACHE => some (GPOPCODE_INVALIDATE_VERTEX_CACHE s)
    | GPFunc.LOAD_BP_REG => some (GPOPCODE_LOAD_BP_REG env s)
    | GPFunc.DRAW_QUADS => some (GPOPCODE_DRAW env Primitive.GX_QUADS s)
    | GPFunc.DRAW_TRIANGLES => some (GPOPCODE_DRAW env Primitive.GX_TRIANGLES s)
    | GPFunc.DRAW_TRIANGLESTRIP => some (GPOPCODE_DRAW env Primitive.GX_TRIANGLESTRIP s)
    | GPFunc.DRAW_TRIANGLEFAN => some (GPOPCODE_DRAW env Primitive.GX_TRIANGLEFAN s)
    | GPFunc.DRAW_LINES => some (GPOPCODE_DRAW env Primitive.GX_LINES s)
    | GPFunc.DRAW_LINESTRIP => some (GPOPCODE_DRAW env Primitive.GX_LINESTRIP s)
    | GPFunc.DRAW_POINTS => some (GPOPCODE_DRAW env Primitive.GX_POINTS s)
  | fuel + 1, Job.dl_loop size, s =>
    if s.g_dl_read_offset < size then
      let (cmd, s1) := Fifo_Pop8 env s
      let s2 := { s1 with g_cur_cmd := cmd, g_cur_vat := cmd &&& 0x7 }
      match exec env fuel (Job.op (g_exec_op (GP_OPMASK cmd))) s2 with
      | none => none
      | some s3 => exec env fuel (Job.dl_loop size) s3
    else some s

/-- Handler `GPOPCODE_CALL_DISPLAYLIST`. -/
def GPOPCODE_CALL_DISPLAYLIST (env : Env) (fuel : Nat) (s : State) : Option State :=
  exec env fuel (Job.op GPFunc.CALL_DISPLAYLIST) s

/-! ## FIFO flow control -/

/-- The value `(g_fifo_buffer + g_fifo_write_ptr) - g_fifo_read_ptr` converted to `uintptr_t`:
the difference itself while the read pointer has not passed the write pointer, its wrap-around
modulo `2 ^ UINTPTR_BITS` once it has. -/
def bytes_in_fifo (env : Env) (s : State) : Nat :=
  if s.g_fifo_read_ptr ≤ s.g_fifo_write_ptr then s.g_fifo_write_ptr - s.g_fifo_read_ptr
  else 2 ^ env.UINTPTR_BITS - (s.g_fifo_read_ptr - s.g_fifo_write_ptr)

/-- The function `Fifo_NextCommandReady`: the returned flag and the state it leaves
(`g_cur_cmd`, `g_cur_vat` and the static `last_required_size` are all it writes). -/
def Fifo_NextCommandReady (env : Env) (s : State) : Bool × State :=
  if s.g_fifo_read_ptr = s.g_fifo_write_ptr then (false, s)
  else
    let bytes := bytes_in_fifo env s
    if s.last_required_size ≠ -1 ∧ s.last_required_size > to_s32 (bytes : Int) then (false, s)
    else
      let cmd := FIFO_GET8 s 0
      let s := { s with g_cur_cmd := cmd, g_cur_vat := cmd &&& 0x7 }
      match GP_OPMASK s.g_cur_cmd with
      | 0 => (true, { s with last_required_size := -1 })
      | 1 =>
        if bytes ≥ 6 then (true, { s with last_required_size := -1 })
        else (false, { s with last_required_size := 6 })
      | 2 =>
        if bytes ≥ 5 then
          let temp := FIFO_GET32 s 1
          let size := (4 * ((temp >>> 16) + 1)) % 2 ^ 16
          let size := (size + 5) % 2 ^ 16
          if bytes ≥ size then (true, { s with last_required_size := -1 })
          else (false, { s with last_required_size := (size : Int) })
        else (false, { s with last_required_size := 5 })
      | 4 | 5 | 6 | 7 =>
        if bytes ≥ 5 then (true, { s with last_required_size := -1 })
        else (false, { s with last_required_size := 5 })
      | 8 =>
        if bytes ≥ 9 then (true, { s with last_required_size := -1 })
        else (false, { s with last_required_size := 9 })
      | 9 => (true, { s with last_required_size := -1 })
      | 0xC =>
        if bytes ≥ 5 then (true, { s with last_required_size := -1 })
        else (false, { s with last_required_size := 5 })
      | _ =>
        if s.g_cur_cmd &&& 0x80 ≠ 0 then
          if bytes ≥ 3 then
            let numverts := FIFO_GET16 s 1
            let vertsize := env.VertexLoader_GetVertexSize s.g_cur_vat % 2 ^ 16
            let size := (3 + numverts * vertsize) % 2 ^ 16
            if bytes ≥ size then (true, { s with last_required_size := -1 })
            else (false, { s with last_required_size := (size : Int) })
          else (false, { s with last_required_size := 3 })
        else (false, s)

/-- The function `Fifo_GetCommandLength(read_ptr)`; `read_ptr` is an offset into `g_fifo_buffer`. -/
def Fifo_GetCommandLength (env : Env) (s : State) (read_ptr : Nat) : Nat :=
  let cmd := buffer_at s read_ptr
  let read_ptr := read_ptr + 1
  match GP_OPMASK cmd with
  | 0 | 9 => 1
  | 0xC => 5
  | 1 => 6
  | 4 | 5 | 6 | 7 => 5
  | 8 => 9
  | 2 =>
    let Cmd2 := (buffer_at s read_ptr <<< 24) ||| (buffer_at s (read_ptr + 1) <<< 16)
                  ||| (buffer_at s (read_ptr + 2) <<< 8) ||| buffer_at s (read_ptr + 3)
    let transfer_size := ((Cmd2 >>> 16) &&& 15) + 1
    1 + 4 + transfer_size * 4
  | _ =>
    if s.g_cur_cmd &&& 0x80 ≠ 0 then
      let numVertices := (buffer_at s read_ptr <<< 8) ||| buffer_at s (read_ptr + 1)
      1 + 2 + numVertices * env.VertexLoader_GetVertexSize s.g_cur_vat
    else 0

/-- The function `Fifo_Reset`. -/
def Fifo_Reset (env : Env) (s : State) : State :=
  if s.g_fifo_write_ptr > env.FIFO_TAIL_END then
    { s with g_fifo_write_ptr := 0, g_fifo_read_ptr := 0,
             g_fifo_buffer := List.replicate env.FIFO_SIZE 0, g_reset_fifo := 0 }
  else s

/-- The `size` bytes starting at offset `ptr` of `g_fifo_buffer` (the argument of
`fifo_player::Write`). -/
def buffer_bytes (s : State) (ptr size : Nat) : List Nat :=
  (List.range size).map (fun i => buffer_at s (ptr + i))

/-- The assertion of `Fifo_DecodeCommand`,
`_ASSERT_MSG(TGP, g_fifo_write_ptr >= (g_fifo_read_ptr - g_fifo_buffer), ...)`: a failure is logged
and execution goes on. -/
def assert_read_not_past_write (s : State) : State :=
  if s.g_fifo_write_ptr ≥ s.g_fifo_read_ptr then s else emit s Event.assert_read_passed_write

/-- The function `Fifo_DecodeCommand`; `fuel` bounds the handler it dispatches (see `exec`). -/
def Fifo_DecodeCommand (env : Env) (fuel : Nat) (s : State) : Option State :=
  let avail := to_s32 ((s.g_fifo_write_ptr : Int) - (s.g_fifo_read_ptr : Int))
  if avail < 1 ∧ s.g_reset_fifo = 0 then some s
  else
    let s0 := assert_read_not_past_write s
    let (ready, s1) := Fifo_NextCommandReady env s0
    if ready then
      let s2 :=
        if GP_OPMASK s1.g_cur_cmd ≠ 8 ∧ fifo_player.IsRecording s1.recorder = true then
          let size := Fifo_GetCommandLength env s1 s1.g_fifo_read_ptr
          let data := buffer_bytes s1 s1.g_fifo_read_ptr size
          { s1 with recorder := fifo_player.Write s1.recorder data }
        else s1
      let (opcode, s3) := Fifo_Pop8 env s2
      exec env fuel (Job.op (g_exec_op (GP_OPMASK opcode))) s3
    else some s1

/-- The function `Fifo_Init`. It does not touch `g_cur_cmd`, `g_cur_vat`, the static
`last_required_size` or the recorder. -/
def Fifo_Init (env : Env) (s : State) : State :=
  let s := _set_fifo_read_normal s
  { s with g_fifo_write_ptr := 0, g_fifo_read_ptr := 0, g_reset_fifo := 0,
           g_fifo_buffer := List.replicate env.FIFO_SIZE 0,
           g_dl_read_addr := 0, g_dl_read_offset := 0 }

/-- The globals at program start: zero-initialised, `last_required_size` is -1. -/
def State.startup (env : Env) : State :=
  { g_cur_cmd := 0, g_cur_vat := 0, g_fifo_write_ptr := 0, g_fifo_read_ptr := 0,
    g_fifo_buffer := List.replicate env.FIFO_SIZE 0, g_reset_fifo := 0, g_dl_read_addr := 0,
    g_dl_read_offset := 0, Fifo_Pop := ReadMode.normal, last_required_size := -1,
    recorder := fifo_player.Recorder.startup, events := [] }

/-- Modelled from the spec: `FifoPush8` is declared in fifo.h, which is not among the sources.
Section 4.1: "push(bytes) appends to the tail at write_cursor, advancing it; fails with Overflow
if capacity would be exceeded". -/
def FifoPush8 (env : Env) (s : State) (data : Nat) : Option State :=
  if s.g_fifo_write_ptr < env.FIFO_SIZE then
    some { s with g_fifo_buffer := s.g_fifo_buffer.set s.g_fifo_write_ptr (data % 256),
                  g_fifo_write_ptr := s.g_fifo_write_ptr + 1 }
  else none

/-- A run of `FifoPush8` calls, one per byte, in order. -/
def push_bytes (env : Env) : State → List Nat → Option State
  | s, [] => some s
  | s, b :: bs =>
    match FifoPush8 env s b with
    | none => none
    | some s1 => push_bytes env s1 bs

/-! ## Runs of the decoder, and the data the properties below are stated with -/

/-- States the consumer can be in: `Fifo_Init` on the program's start-up globals, then any sequence
of in-capacity byte pushes, `Fifo_DecodeCommand` calls that return, and `Fifo_Reset` calls. -/
inductive Reachable (env : Env) : State → Prop
  | init : Reachable env (Fifo_Init env (State.startup env))
  | push {s s1 : State} (b : Nat) :
      Reachable env s → FifoPush8 env s b = some s1 → Reachable env s1
  | decode {s s1 : State} (fuel : Nat) :
      Reachable env s → Fifo_DecodeCommand env fuel s = some s1 → Reachable env s1
  | reset {s : State} : Reachable env s → Reachable env (Fifo_Reset env s)

/-- The consumer loop run `n` times: `n` successive calls of `Fifo_DecodeCommand`. -/
def decode_n (env : Env) (fuel : Nat) : Nat → State → Option State
  | 0, s => some s
  | n + 1, s =>
    match Fifo_DecodeCommand env fuel s with
    | none => none
    | some s1 => decode_n env fuel n s1

/-- Everything of the state a register-command handler leaves alone, and the read cursor moved
`n` bytes on. -/
def advanced_by (s s1 : State) (n : Nat) : Prop :=
  s1.g_fifo_read_ptr = s.g_fifo_read_ptr + n ∧ s1.g_fifo_write_ptr = s.g_fifo_write_ptr ∧
  s1.g_fifo_buffer = s.g_fifo_buffer ∧ s1.Fifo_Pop = s.Fifo_Pop ∧
  s1.g_reset_fifo = s.g_reset_fifo ∧ s1.last_required_size = s.last_required_size ∧
  s1.recorder = s.recorder

/-- Word count of a class-2 command whose control word has the bytes `b0 b1 b2 b3` (big-endian):
(control word >> 16) + 1. -/
def xf_count (b0 b1 b2 b3 : Nat) : Nat :=
  (((b0 <<< 24) ||| (b1 <<< 16) ||| (b2 <<< 8) ||| b3) >>> 16) + 1

/-- A complete register command as section 4.3 of the specification lays it out: every byte is a
u8, the opcode (first byte) has class 0, 1, 2, 4-7, 9 or 0xC, and the list is exactly as long as
the class demands (1, 6, 5 + 4 * count, 5, 1, 5). A class-2 command carries
`count` = (control word >> 16) + 1 words, here at most 16. -/
def is_register_command (c : List Nat) : Prop :=
  (∀ b ∈ c, b < 256) ∧
  (((GP_OPMASK (c.getD 0 0) = 0 ∨ GP_OPMASK (c.getD 0 0) = 9) ∧ c.length = 1) ∨
   (GP_OPMASK (c.getD 0 0) = 1 ∧ c.length = 6) ∨
   ((GP_OPMASK (c.getD 0 0) = 4 ∨ GP_OPMASK (c.getD 0 0) = 5 ∨ GP_OPMASK (c.getD 0 0) = 6 ∨
      GP_OPMASK (c.getD 0 0) = 7) ∧ c.length = 5) ∨
   (GP_OPMASK (c.getD 0 0) = 0xC ∧ c.length = 5) ∨
   (GP_OPMASK (c.getD 0 0) = 2 ∧
      xf_count (c.getD 1 0) (c.getD 2 0) (c.getD 3 0) (c.getD 4 0) ≤ 16 ∧
      c.length = 5 + 4 * xf_count (c.getD 1 0) (c.getD 2 0) (c.getD 3 0) (c.getD 4 0)))

instance (c : List Nat) : Decidable (is_register_command c) := by
  unfold is_register_command; infer_instance

/-- A freshly initialised FIFO with `StartRecording` called on the recorder state `r0`. -/
def fresh_recording_state (env : Env) (d : fifo_player.Defs) (r0 : fifo_player.Recorder) : State :=
  { Fifo_Init env (State.startup env) with recorder := fifo_player.StartRecording d r0 }

/-- Record and replay: on a freshly initialised FIFO with recording started (over whatever the
recorder held before), push the bytes of `cmds`, call `Fifo_DecodeCommand` once per command, end
the recording. The result is the recorded session. -/
def record_session (env : Env) (d : fifo_player.Defs) (r0 : fifo_player.Recorder) (fuel : Nat)
    (cmds : List (List Nat)) : Option fifo_player.FPFile :=
  match push_bytes env (fresh_recording_state env d r0) cmds.flatten with
  | none => none
  | some s1 =>
    match decode_n env fuel cmds.length s1 with
    | none => none
    | some s2 =>
      match fifo_player.EndRecording d s2.recorder with
      | none => none
      | some r3 => some r3.toFile

/-- A configuration for evaluating the model on concrete inputs: a 64-byte FIFO with the tail mark
at 4, 32 MiB of emulated memory with contents `mem`, and vertices of `vertsize` bytes. -/
def Env.sample (mem : Nat → Nat) (vertsize : Nat) : Env where
  FIFO_SIZE := 64
  FIFO_TAIL_END := 4
  RAM_MASK := 0x1FFFFFF
  UINTPTR_BITS := 64
  Mem_RAM := mem
  VertexLoader_GetVertexSize := fun _ => vertsize

/-- Emulated memory that is zero everywhere: every display list read from it is a run of NOPs. -/
def zero_memory : Nat → Nat := fun _ => 0

/-- Emulated memory holding one display list at 0x1000: a single CALL_DISPLAYLIST command (opcode
0x40) with address 0 and size 0; every other byte is zero. -/
def nested_call_memory : Nat → Nat := fun a => if a = (0x1000 ^^^ 3) then 0x40 else 0

/-- Values for the constants of fifo_player.h used when evaluating the model: a 2-byte memory-update
header as in section 4.5 of the specification, 32-byte file header, 8-byte frame record, 12-byte
element record. -/
def sample_defs : fifo_player.Defs where
  FIFO_PLAYER_MAGIC_NUM := 0x4650
  FIFO_PLAYER_VERSION := 1
  sizeof_FPFileHeader := 32
  sizeof_FPFrameInfo := 8
  sizeof_FPElementInfo := 12
  sizeof_FPMemUpdateInfo := 2

/-- The freshly initialised FIFO after pushing `bytes`. -/
def pushed (env : Env) (bytes : List Nat) : Option State :=
  push_bytes env (Fifo_Init env (State.startup env)) bytes

/-- The state of `pushed` when the pushes fit into the FIFO (the start-up state otherwise). -/
def state_after (env : Env) (bytes : List Nat) : State :=
  (pushed env bytes).getD (State.startup env)

/-- A reachable state with a stale cached length: a LOAD_CP_REG opcode and four more bytes are
pushed (write cursor 5, past the tail mark of `Env.sample`), the consumer polls once (not ready,
6 cached), the FIFO is reset, and `bytes` are pushed. -/
def stale_cache_state (bytes : List Nat) : State :=
  let env := Env.sample zero_memory 0
  let s1 := state_after env [0x08, 1, 2, 3, 4]
  let s2 := (Fifo_DecodeCommand env 1 s1).getD s1
  let s3 := Fifo_Reset env s2
  (push_bytes env s3 bytes).getD s3

/-- A state with recording started and one complete CALL_DISPLAYLIST command (address 0x1000,
size 1) in the FIFO; the display list in `zero_memory` is a single NOP. -/
def recording_call_state : State :=
  { state_after (Env.sample zero_memory 0) [0x40, 0, 0, 0x10, 0, 0, 0, 0, 1] with
    recorder := fifo_player.StartRecording sample_defs fifo_player.Recorder.startup }

/-- Total length of the register command at the read cursor as section 4.3 of the specification
gives it: 1 byte for classes 0 and 9, 6 for class 1, 5 + 4 * count for class 2 with
count = (control word >> 16) + 1, 5 for classes 4-7 and for class 0xC; `none` for the other
classes. -/
def section_4_3_length (s : State) : Option Nat :=
  match GP_OPMASK (FIFO_GET8 s 0) with
  | 0 | 9 => some 1
  | 1 => some 6
  | 2 => some (5 + 4 * ((FIFO_GET32 s 1 >>> 16) + 1))
  | 4 | 5 | 6 | 7 => some 5
  | 0xC => some 5
  | _ => none

/-- The state `Fifo_DecodeCommand` dispatches the handler in, once `Fifo_NextCommandReady` has
reported ready: current command and attribute table set, cached length unknown, the command
recorded (unless it is a class-8 command or recording is off), the opcode byte popped. -/
def dispatch_state (env : Env) (s : State) : State :=
  let cmd := FIFO_GET8 s 0
  let s1 := { s with g_cur_cmd := cmd, g_cur_vat := cmd &&& 0x7, last_required_size := -1 }
  let size := Fifo_GetCommandLength env s1 s.g_fifo_read_ptr
  let data := buffer_bytes s s.g_fifo_read_ptr size
  { s1 with
    recorder := if GP_OPMASK cmd ≠ 8 ∧ fifo_player.IsRecording s.recorder = true
                then fifo_player.Write s.recorder data else s.recorder,
    g_fifo_read_ptr := s.g_fifo_read_ptr + 1 }

/-- Byte `i` of the display list at `addr`, as `__displaylist_pop_8` reads it with
`g_dl_read_addr = addr` and `g_dl_read_offset = i`. -/
def display_list_byte (env : Env) (addr i : Nat) : Nat :=
  env.Mem_RAM (((addr + i) % 2 ^ 32) ^^^ 3) % 256

/-- A state with one complete CALL_DISPLAYLIST command (address 0x1000, size 2) in a fresh FIFO;
the display list in `zero_memory` is two NOP bytes. -/
def nop_list_call_state : State :=
  state_after (Env.sample zero_memory 0) [0x40, 0, 0, 0x10, 0, 0, 0, 0, 2]

/-- A fresh FIFO holding the four bytes 12 34 56 78. -/
def word_state : State :=
  state_after (Env.sample zero_memory 0) [0x12, 0x34, 0x56, 0x78]

/-- A fresh FIFO holding the byte 18 (class 3, no handler registered, high bit clear) and five
more bytes. -/
def unregistered_opcode_state : State :=
  state_after (Env.sample zero_memory 0) [0x18, 0, 0, 0, 0, 0]

/-- A fresh FIFO holding the three bytes 88 00 00: opcode 0x88 (class 0x11, high bit set, no
handler registered) with a vertex count of 0. -/
def unregistered_draw_state : State :=
  state_after (Env.sample zero_memory 0) [0x88, 0, 0]

end gp

namespace fifo_player

/-- Recording sessions: the recorder states reached from a `StartRecording` call (on any prior
state) by `Write`, `MemUpdate` and `FrameFinished` calls. -/
inductive Recording (d : Defs) : Recorder → Prop
  | start (r0 : Recorder) : Recording d (StartRecording d r0)
  | write {r : Recorder} (bytes : List Nat) : Recording d r → Recording d (Write r bytes)
  | mem_update {r r1 : Recorder} (address : Nat) (data : List Nat) :
      Recording d r → MemUpdate d r address data = some r1 → Recording d r1
  | frame_finished {r r1 : Recorder} :
      Recording d r → FrameFinished r = some r1 → Recording d r1

/-- The element byte ranges are in increasing order, do not overlap and lie inside a raw log of
`raw_size` bytes: `offset + size` of each element is at most the `offset` of the next one, and
`offset + size` of the last element is at most `raw_size`. -/
def ranges_ordered : List FPElementInfo → Nat → Bool
  | [], _ => true
  | [e], raw_size => decide (e.offset + e.size ≤ raw_size)
  | e :: f :: rest, raw_size =>
    decide (e.offset + e.size ≤ f.offset) && ranges_ordered (f :: rest) raw_size

/-- The value-initialised frame record. -/
def zero_frame : FPFrameInfo := { base_element := 0, num_elements := 0 }

/-- The frames partition the elements in order: the first frame starts at element 0 and every
frame but the last (every closed frame) ends where the next one starts. -/
def frames_partition (frames : List FPFrameInfo) : Prop :=
  (frames.getD 0 zero_frame).base_element = 0 ∧
  ∀ i, i + 1 < frames.length →
    (frames.getD i zero_frame).base_element + (frames.getD i zero_frame).num_elements =
      (frames.getD (i + 1) zero_frame).base_element

/-- Consecutive frames from element `a` up to element `b`: each frame starts where the previous
one ended. -/
def tiles : Nat → List FPFrameInfo → Nat → Prop
  | a, [], b => a = b
  | a, f :: fs, b => f.base_element = a ∧ tiles (f.base_element + f.num_elements) fs b

/-- A recording session with one recorded one-byte command. -/
def one_command_session : Recorder :=
  Write (StartRecording gp.sample_defs Recorder.startup) [0x00]

/-- The recorder globals after `MemUpdate(0x10, {1, 2, 3}, 3)` on `one_command_session`. -/
def mem_update_session : Recorder :=
  { is_recording := true,
    file_header := { zero_header with magic_num := gp.sample_defs.FIFO_PLAYER_MAGIC_NUM,
                                      version := gp.sample_defs.FIFO_PLAYER_VERSION },
    frame_info := [{ base_element := 0, num_elements := 0 }],
    element_info := [{ type := ElementType.REGISTER_WRITE, offset := 0, size := 1 },
                     { type := ElementType.MEMORY_UPDATE, offset := 1, size := 5 }],
    raw_data := [0x00, 1, 2, 3],
    current_frame_info := some 0 }

/-! ## fifo_player.cpp : files -/

/-- Modelled from the spec: the records of `fifo_player.h` are laid out as section 6 of the
specification gives them, every field a `u32`, stored little-endian (the host byte order). The
four bytes of a `u32`. -/
def le_bytes (n : Nat) : List Nat :=
  [n % 256, n / 256 % 256, n / 65536 % 256, n / 16777216 % 256]

/-- The `u32` stored little-endian at byte `i` of `mem`. -/
def u32_le (mem : List Nat) (i : Nat) : Nat :=
  mem.getD i 0 % 256 + 256 * (mem.getD (i + 1) 0 % 256) + 65536 * (mem.getD (i + 2) 0 % 256) +
    16777216 * (mem.getD (i + 3) 0 % 256)

/-- The 32 bytes of an `FPFileHeader` object. -/
def encode_header (h : FPFileHeader) : List Nat :=
  le_bytes h.magic_num ++ le_bytes h.version ++ le_bytes h.num_frames ++
    le_bytes h.num_elements ++ le_bytes h.num_raw_data_bytes ++ le_bytes h.frame_info_offset ++
    le_bytes h.element_info_offset ++ le_bytes h.raw_data_offset

/-- The `FPFileHeader` object held by 32 bytes of memory. -/
def decode_header (mem : List Nat) : FPFileHeader :=
  { magic_num := u32_le mem 0, version := u32_le mem 4, num_frames := u32_le mem 8,
    num_elements := u32_le mem 12, num_raw_data_bytes := u32_le mem 16,
    frame_info_offset := u32_le mem 20, element_info_offset := u32_le mem 24,
    raw_data_offset := u32_le mem 28 }

/-- The 8 bytes of an `FPFrameInfo` object. -/
def encode_frame (f : FPFrameInfo) : List Nat :=
  le_bytes f.base_element ++ le_bytes f.num_elements

/-- The `FPFrameInfo` object at byte `i` of `mem`. -/
def decode_frame (mem : List Nat) (i : Nat) : FPFrameInfo :=
  { base_element := u32_le mem i, num_elements := u32_le mem (i + 4) }

/-- The 12 bytes of an `FPElementInfo` object; the enumerators are numbered in declaration order,
`REGISTER_WRITE` = 0 and `MEMORY_UPDATE` = 1. -/
def encode_element (e : FPElementInfo) : List Nat :=
  le_bytes (match e.type with
    | ElementType.REGISTER_WRITE => 0
    | ElementType.MEMORY_UPDATE => 1) ++ le_bytes e.offset ++ le_bytes e.size

/-- The `FPElementInfo` object at byte `i` of `mem`; a tag other than 0 is read as
`MEMORY_UPDATE` (no function of fifo_player.cpp inspects the tag). -/
def decode_element (mem : List Nat) (i : Nat) : FPElementInfo :=
  { type := if u32_le mem i = 0 then ElementType.REGISTER_WRITE else ElementType.MEMORY_UPDATE,
    offset := u32_le mem (i + 4), size := u32_le mem (i + 8) }

/-- The storage of a `std::vector<FPFrameInfo>`. -/
def frames_memory (v : List FPFrameInfo) : List Nat := (v.map encode_frame).flatten

/-- The `n` frames held by the storage `mem`. -/
def frames_of_memory (n : Nat) (mem : List Nat) : List FPFrameInfo :=
  (List.range n).map (fun i => decode_frame mem (8 * i))

/-- The storage of a `std::vector<FPElementInfo>`. -/
def elements_memory (v : List FPElementInfo) : List Nat := (v.map encode_element).flatten

/-- The `n` elements held by the storage `mem`. -/
def elements_of_memory (n : Nat) (mem : List Nat) : List FPElementInfo :=
  (List.range n).map (fun i => decode_element mem (12 * i))

/-- The call `fread(ptr, size, 1, file)` of the C library: `dest` is the memory at `ptr`, `stream`
the bytes of the file from the file position on. The result is the memory afterwards, the
returned object count and the rest of the stream. One object of `size` bytes is read when the
stream holds that many; on a short read the bytes that were available are stored and 0 is
returned; with `size` = 0 nothing is read and 0 is returned. -/
def fread (dest : List Nat) (size : Nat) (stream : List Nat) : List Nat × Nat × List Nat :=
  if size = 0 then (dest, 0, stream)
  else if size ≤ stream.length then (stream.take size ++ dest.drop size, 1, stream.drop size)
  else (stream ++ dest.drop stream.length, 0, [])

/-- The call `v.resize(n)` of `std::vector`: the first `n` elements are kept, missing ones are
value-initialised. -/
def resize {α : Type} (v : List α) (n : Nat) (zero : α) : List α :=
  v.take n ++ List.replicate (n - v.length) zero

/-- The value-initialised element record. -/
def zero_element : FPElementInfo :=
  { type := ElementType.REGISTER_WRITE, offset := 0, size := 0 }

/-- The function `Load(filename, out)`: `stream` is the content of the file (the `fopen` is taken
to succeed), `out` the session passed by reference, the result is `out` when `Load` returns.
`Load` returns `void`: nothing but `out` reaches the caller. The `size_t` products are taken not
to wrap. -/
def Load (d : Defs) (stream : List Nat) (out : FPFile) : FPFile :=
  let r0 := fread (encode_header out.file_header) d.sizeof_FPFileHeader stream
  let out0 := { out with file_header := decode_header r0.1 }
  if r0.2.1 ≠ 1 then out0
  else if out0.file_header.magic_num ≠ d.FIFO_PLAYER_MAGIC_NUM then out0
  else if out0.file_header.version ≠ d.FIFO_PLAYER_VERSION then out0
  else
    let frames := resize out0.frame_info out0.file_header.num_frames zero_frame
    let r1 := fread (frames_memory frames)
      (out0.file_header.num_frames * d.sizeof_FPFrameInfo) r0.2.2
    let out1 := { out0 with frame_info := frames_of_memory frames.length r1.1 }
    if r1.2.1 ≠ 1 then out1
    else
      let elements := resize out1.element_info out1.file_header.num_elements zero_element
      let r2 := fread (elements_memory elements)
        (out1.file_header.num_elements * d.sizeof_FPElementInfo) r1.2.2
      let out2 := { out1 with element_info := elements_of_memory elements.length r2.1 }
      if r2.2.1 ≠ 1 then out2
      else
        let raw := resize out2.raw_data out2.file_header.num_raw_data_bytes 0
        let r3 := fread raw (out2.file_header.num_raw_data_bytes * 1) r2.2.2
        { out2 with raw_data := r3.1.take raw.length }

/-- An empty session object, as a caller declares it before `Load`. -/
def empty_session : FPFile :=
  { file_header := zero_header, frame_info := [], element_info := [], raw_data := [] }

/-- A session object holding a recording of one one-byte command in one frame. -/
def loaded_session : FPFile :=
  { file_header :=
      { magic_num := 0x4650, version := 1, num_frames := 1, num_elements := 1,
        num_raw_data_bytes := 1, frame_info_offset := 32, element_info_offset := 40,
        raw_data_offset := 52 },
    frame_info := [{ base_element := 0, num_elements := 1 }],
    element_info := [{ type := ElementType.REGISTER_WRITE, offset := 0, size := 1 }],
    raw_data := [0x00] }

/-- A file that holds a header with the magic number 0xDEAD (version 1, all counts 0) and
nothing else. -/
def bad_magic_stream : List Nat :=
  [0xAD, 0xDE, 0, 0, 1, 0, 0, 0] ++ List.replicate 24 0

/-- A file with a valid header (magic 0x4650, version 1) declaring 3 frames, 3 elements and
3 raw bytes, followed by two frame records, (0, 1) and (1, 1), and nothing else. -/
def short_frames_stream : List Nat :=
  [0x50, 0x46, 0, 0, 1, 0, 0, 0, 3, 0, 0, 0, 3, 0, 0, 0, 3, 0, 0, 0, 32, 0, 0, 0, 56, 0, 0, 0,
   92, 0, 0, 0] ++
  [0, 0, 0, 0, 1, 0, 0, 0, 1, 0, 0, 0, 1, 0, 0, 0]

end fifo_player

namespace gp

/-- The call sequence `Fifo_Pop8(); ...; Fifo_Pop8()` with `n` calls: the bytes returned, in call
order, and the state left. -/
def pops8 (env : Env) : Nat → State → List Nat × State
  | 0, s => ([], s)
  | n + 1, s =>
    let p := Fifo_Pop8 env s
    let q := pops8 env n p.2
    (p.1 :: q.1, q.2)

/-- The number whose big-endian digits in base 256 are `bytes` (first byte most significant). -/
def big_endian (bytes : List Nat) : Nat := bytes.foldl (fun acc b => acc * 256 + b) 0

/-- The value `int bytes_in_fifo = g_fifo_write_ptr - (g_fifo_read_ptr - g_fifo_buffer)` that
`Fifo_DecodeCommand` computes on entry. -/
def decode_bytes_in_fifo (s : State) : Int :=
  to_s32 ((s.g_fifo_write_ptr : Int) - (s.g_fifo_read_ptr : Int))

/-- Emulated memory whose byte at address `a` is `a mod 256`. -/
def counting_memory : Nat → Nat := fun a => a % 256

/-- A freshly initialised decoder switched to display-list mode at address 0x1000, over
`counting_memory`. -/
def display_list_state : State :=
  { Fifo_Init (Env.sample counting_memory 0) (State.startup (Env.sample counting_memory 0)) with
    Fifo_Pop := ReadMode.displaylists, g_dl_read_addr := 0x1000 }

/-- The state reached from `Fifo_Init` by pushing 17 bytes (a CALL_DISPLAYLIST of address 0x1000
and size 1, then a CALL_DISPLAYLIST that lacks its last byte) and calling `Fifo_DecodeCommand`
once, over `nested_call_memory`: the read cursor is at 18, the write cursor at 17. -/
def overrun_state : State :=
  { g_cur_cmd := 0, g_cur_vat := 0, g_fifo_write_ptr := 17, g_fifo_read_ptr := 18,
    g_fifo_buffer :=
      [0x40, 0, 0, 0x10, 0, 0, 0, 0, 1, 0x40, 0, 0, 0, 0, 0, 0, 1] ++ List.replicate 47 0,
    g_reset_fifo := 0, g_dl_read_addr := 0, g_dl_read_offset := 256,
    Fifo_Pop := ReadMode.normal, last_required_size := -1,
    recorder := fifo_player.Recorder.startup,
    events :=
      [Event.CALL_DISPLAYLIST 0x1000 1, Event.CALL_DISPLAYLIST 0 0,
       Event.CALL_DISPLAYLIST_finished, Event.CALL_DISPLAYLIST 0 256] ++
      List.replicate 256 Event.NOP ++
      [Event.CALL_DISPLAYLIST_finished, Event.CALL_DISPLAYLIST_finished] }

/-- The state `overrun_state` with the flag `g_reset_fifo` raised (the flag is written by the
other thread). -/
def overrun_reset_state : State := { overrun_state with g_reset_fifo := 1 }

/-- A fresh FIFO holding one NOP byte. -/
def nop_state : State := state_after (Env.sample zero_memory 0) [0x00]

/-- A fresh FIFO holding the first three bytes of a LOAD_CP_REG command (6 bytes). -/
def incomplete_state : State := state_after (Env.sample zero_memory 0) [0x08, 1, 2]

/-- A fresh FIFO holding six bytes, past the tail mark of `Env.sample`. -/
def full_tail_state : State := state_after (Env.sample zero_memory 0) [0x08, 1, 2, 3, 4, 5]

end gp

namespace fifo_player

/-- The byte sequence the specification gives for `play(session)`: frames in index order, within
a frame the elements `base_element .. base_element + num_elements - 1` in order, within an
element the raw bytes `offset .. offset + size - 1` in order. -/
def play_specification (f : FPFile) : List Nat :=
  (f.frame_info.map (fun fr =>
    ((List.range fr.num_elements).map (fun j =>
      (List.range (f.element_info.getD (fr.base_element + j) zero_element).size).map (fun k =>
        f.raw_data.getD ((f.element_info.getD (fr.base_element + j) zero_element).offset + k)
          0))).flatten)).flatten

/-- A session of two frames over three elements and six raw bytes. -/
def two_frame_session : FPFile :=
  { file_header :=
      { magic_num := 0x4650, version := 1, num_frames := 2, num_elements := 3,
        num_raw_data_bytes := 6, frame_info_offset := 32, element_info_offset := 48,
        raw_data_offset := 84 },
    frame_info := [{ base_element := 0, num_elements := 2 },
                   { base_element := 2, num_elements := 1 }],
    element_info := [{ type := ElementType.REGISTER_WRITE, offset := 0, size := 1 },
                     { type := ElementType.REGISTER_WRITE, offset := 1, size := 5 },
                     { type := ElementType.REGISTER_WRITE, offset := 6, size := 0 }],
    raw_data := [0x00, 0x61, 1, 2, 3, 4] }

/-- The recorder globals after `EndRecording` on `one_command_session`. -/
def ended_session : Recorder :=
  { is_recording := false,
    file_header :=
      { magic_num := 0x4650, version := 1, num_frames := 1, num_elements := 1,
        num_raw_data_bytes := 1, frame_info_offset := 32, element_info_offset := 40,
        raw_data_offset := 52 },
    frame_info := [{ base_element := 0, num_elements := 1 }],
    element_info := [{ type := ElementType.REGISTER_WRITE, offset := 0, size := 1 }],
    raw_data := [0x00],
    current_frame_info := some 1 }

end fifo_player

namespace gp

/-- A configuration like `Env.sample` with a 512-byte FIFO, for commands longer than 64 bytes. -/
def Env.wide (mem : Nat → Nat) (vertsize : Nat) : Env where
  FIFO_SIZE := 512
  FIFO_TAIL_END := 4
  RAM_MASK := 0x1FFFFFF
  UINTPTR_BITS := 64
  Mem_RAM := mem
  VertexLoader_GetVertexSize := fun _ => vertsize

/-- A fresh FIFO holding the five bytes 10 00 00 00 01 of the scenario of section 8. -/
def scenario_five_state : State :=
  state_after (Env.sample zero_memory 0) [0x10, 0x00, 0x00, 0x00, 0x01]

/-- A fresh FIFO holding a complete LOAD_BP_REG command (class 0xC, 5 bytes). -/
def bp_command_state : State :=
  state_after (Env.sample zero_memory 0) [0x61, 1, 2, 3, 4]

/-- A class-2 command of 17 words: opcode 0x10, control word 00 10 00 00 (count field 0x10),
68 payload bytes; 73 bytes in all. -/
def xf_17_words : List Nat := [0x10, 0x00, 0x10, 0x00, 0x00] ++ List.replicate 68 0

/-- The state that `Fifo_Init` on the start-up globals followed by pushes of `bytes` leaves,
written out: the bytes at the start of the zeroed buffer, the write cursor behind them. -/
def loaded_fifo (env : Env) (bytes : List Nat) : State :=
  { g_cur_cmd := 0, g_cur_vat := 0, g_fifo_write_ptr := bytes.length, g_fifo_read_ptr := 0,
    g_fifo_buffer := bytes ++ List.replicate (env.FIFO_SIZE - bytes.length) 0,
    g_reset_fifo := 0, g_dl_read_addr := 0, g_dl_read_offset := 0,
    Fifo_Pop := ReadMode.normal, last_required_size := -1,
    recorder := fifo_player.Recorder.startup, events := [] }

/-- A fresh 512-byte FIFO holding `xf_17_words`, with recording started. -/
def xf_17_words_state : State :=
  { loaded_fifo (Env.wide zero_memory 0) xf_17_words with
    recorder := fifo_player.StartRecording sample_defs fifo_player.Recorder.startup }

/-- A class-2 command of 65 words: opcode 0x10, control word 00 40 00 00 (count field 0x40),
260 payload bytes; 265 bytes in all. -/
def xf_65_words : List Nat := [0x10, 0x00, 0x40, 0x00, 0x00] ++ List.replicate 260 0

/-- A fresh 512-byte FIFO holding `xf_65_words`. -/
def xf_65_words_state : State := loaded_fifo (Env.wide zero_memory 0) xf_65_words

/-- Emulated memory holding a display list of 10 bytes at 0x1000: a CALL_DISPLAYLIST (opcode
0x40, address 0, size 1) followed by a NOP; every other byte is zero, so the inner display list
at address 0 is one NOP and the display list at 0x2000 is a run of NOPs. -/
def nested_list_memory : Nat → Nat :=
  fun a => if a = (0x1000 ^^^ 3) then 0x40 else if a = (0x1008 ^^^ 3) then 1 else 0

/-- A fresh FIFO holding two commands: CALL_DISPLAYLIST address 0x1000 size 10, and
CALL_DISPLAYLIST address 0x2000 size 10. -/
def nested_list_state : State :=
  state_after (Env.sample nested_list_memory 0)
    [0x40, 0, 0, 0x10, 0, 0, 0, 0, 10, 0x40, 0, 0, 0x20, 0, 0, 0, 0, 10]

end gp

namespace gp

/-- A fresh FIFO holding a complete LOAD_IDX_A command (class 4, 5 bytes). -/
def idx_command_state : State :=
  state_after (Env.sample zero_memory 0) [0x20, 1, 2, 3, 4]

end gp

namespace gp

/-- The decoder inside the display list of `nested_list_memory`: display-list mode at address
0x1000, the opcode of the CALL_DISPLAYLIST sub-command at offset 0 already popped (offset 1),
the primary read cursor behind the 9-byte command that started the list. -/
def inside_outer_list_state : State :=
  { nested_list_state with
    Fifo_Pop := ReadMode.displaylists, g_dl_read_addr := 0x1000, g_dl_read_offset := 1,
    g_fifo_read_ptr := 9 }

end gp

namespace fifo_player

/-- The call `fwrite(ptr, size, 1, file)` of the C library: the `size` bytes at `ptr` (memory
`mem`) that are appended to the file. -/
def fwrite (mem : List Nat) (size : Nat) : List Nat := mem.take size

/-- The function `Save(filename, in)`: the content of the file it writes (the `fopen` is taken to
succeed): the header object, `num_frames` frame records, `num_elements` element records and the
raw data. The `size_t` products are taken not to wrap. -/
def Save (d : Defs) (f : FPFile) : List Nat :=
  fwrite (encode_header f.file_header) d.sizeof_FPFileHeader ++
  fwrite (frames_memory f.frame_info) (f.file_header.num_frames * d.sizeof_FPFrameInfo) ++
  fwrite (elements_memory f.element_info)
    (f.file_header.num_elements * d.sizeof_FPElementInfo) ++
  fwrite f.raw_data f.raw_data.length

/-- A session with one empty frame, no element and three raw bytes; the header counts are the
lengths of the arrays. -/
def no_element_session : FPFile :=
  { file_header :=
      { magic_num := 0x4650, version := 1, num_frames := 1, num_elements := 0,
        num_raw_data_bytes := 3, frame_info_offset := 32, element_info_offset := 40,
        raw_data_offset := 40 },
    frame_info := [{ base_element := 0, num_elements := 0 }],
    element_info := [],
    raw_data := [1, 2, 3] }

end fifo_player

/-! ## keyboard_input.cpp -/

namespace input_common

/-- Values of `GCController::GCButtonState` (gc_controller.h is not among the sources): the two
the source names, and the others by their number. -/
inductive GCButtonState where
  | GC_CONTROLLER_NULL
  | PRESSED
  | other (n : Nat)
deriving DecidableEq, Repr

/-- Values of `common::Config::Control` (config.h is not among the sources): the eight the source
names, and the others by their number. -/
inductive Control where
  | ANALOG_UP | ANALOG_DOWN | ANALOG_LEFT | ANALOG_RIGHT
  | C_UP | C_DOWN | C_LEFT | C_RIGHT
  | other (n : Nat)
deriving DecidableEq, Repr

/-- The keyboard mapping `controller_ports(channel).keys`. -/
structure KeyMap where
  enable : Bool
  key_code : Nat → Int

/-- One entry `controller_ports(channel)` of the configuration. -/
structure ControllerPort where
  enable : Bool
  keys : KeyMap

/-- The object `common::g_config`: the ports, the constant `NUM_CONTROLS` and the meaning of the
cast `(common::Config::Control)i`. -/
structure Config where
  NUM_CONTROLS : Nat
  control : Nat → Control
  controller_ports : Nat → ControllerPort

/-- The part of a `GCController` object the function touches: the status of each control and the
four stick values. -/
structure GCController where
  status : Control → GCButtonState
  ANALOG_X : Nat
  ANALOG_Y : Nat
  C_X : Nat
  C_Y : Nat

/-- Assignment `g_controller_state[k] = c` on the array of controllers. -/
def set_controller (ctl : Nat → GCController) (k : Nat) (c : GCController) : Nat → GCController :=
  fun j => if j = k then c else ctl j

/-- The function `KeyboardInput::SetControllerStatus(channel, key, state)`: the returned flag and
the controllers it leaves. The method `GCController::set_control_status` (gc_controller.h, not
among the sources) is the parameter `set_control_status`; it is called on the controller of
`channel`. The loop stops at the first index whose key code is `key`. -/
def SetControllerStatus (cfg : Config)
    (set_control_status : GCController → Control → GCButtonState → GCController)
    (ctl : Nat → GCController) (channel : Nat) (key : Int) (state : GCButtonState) :
    Bool × (Nat → GCController) :=
  if (cfg.controller_ports channel).enable = false ∨
      (cfg.controller_ports channel).keys.enable = false then (false, ctl)
  else
    match (List.range cfg.NUM_CONTROLS).find?
        (fun i => decide (key = (cfg.controller_ports channel).keys.key_code i)) with
    | none => (false, ctl)
    | some i =>
      let ctl1 := set_controller ctl channel (set_control_status (ctl channel) (cfg.control i) state)
      let ctl2 :=
        if state = GCButtonState.PRESSED then
          match cfg.control i with
          | Control.ANALOG_UP => set_controller ctl1 0 { ctl1 0 with ANALOG_Y := 0xE0 }
          | Control.ANALOG_DOWN => set_controller ctl1 0 { ctl1 0 with ANALOG_Y := 0x20 }
          | Control.ANALOG_LEFT => set_controller ctl1 0 { ctl1 0 with ANALOG_X := 0x20 }
          | Control.ANALOG_RIGHT => set_controller ctl1 0 { ctl1 0 with ANALOG_X := 0xE0 }
          | Control.C_UP => set_controller ctl1 0 { ctl1 0 with C_Y := 0xE0 }
          | Control.C_DOWN => set_controller ctl1 0 { ctl1 0 with C_Y := 0x20 }
          | Control.C_LEFT => set_controller ctl1 0 { ctl1 0 with C_X := 0x20 }
          | Control.C_RIGHT => set_controller ctl1 0 { ctl1 0 with C_X := 0xE0 }
          | Control.other _ => ctl1
        else ctl1
      (true, ctl2)

/-- A configuration for evaluating the model: eight controls, control 0 is ANALOG_UP, every
port and every keyboard mapping enabled, control `i` on key code `100 + i`. -/
def sample_config : Config where
  NUM_CONTROLS := 8
  control := fun i =>
    match i with
    | 0 => Control.ANALOG_UP
    | 1 => Control.ANALOG_DOWN
    | 2 => Control.ANALOG_LEFT
    | 3 => Control.ANALOG_RIGHT
    | 4 => Control.C_UP
    | 5 => Control.C_DOWN
    | 6 => Control.C_LEFT
    | 7 => Control.C_RIGHT
    | n => Control.other n
  controller_ports := fun _ =>
    { enable := true, keys := { enable := true, key_code := fun i => 100 + (i : Int) } }

/-- A `set_control_status` that stores the state of the control. -/
def store_status (c : GCController) (k : Control) (st : GCButtonState) : GCController :=
  { c with status := fun j => if j = k then st else c.status j }

/-- Controllers at rest: no control pressed, the sticks centred at 0x80. -/
def neutral_controllers : Nat → GCController :=
  fun _ => { status := fun _ => GCButtonState.GC_CONTROLLER_NULL,
             ANALOG_X := 0x80, ANALOG_Y := 0x80, C_X := 0x80, C_Y := 0x80 }

end input_common

namespace gp

/-- Everything a handler running in display-list mode leaves alone, and the nested offset moved
`n` bytes on (a u32, so modulo 2^32). -/
def dl_advanced_by (s s1 : State) (n : Nat) : Prop :=
  s1.g_dl_read_offset = (s.g_dl_read_offset + n) % 2 ^ 32 ∧
  s1.g_dl_read_addr = s.g_dl_read_addr ∧ s1.Fifo_Pop = s.Fifo_Pop ∧
  s1.g_fifo_read_ptr = s.g_fifo_read_ptr

/-- The number of display-list bytes one pass of the CALL_DISPLAYLIST loop pops when the byte at
offset `o` of the list at `addr` is the opcode of a register command: the opcode and what the
handler of its class pops (for class 2 the u16 word count the handler computes from the control
word at `o + 1`); `none` for the other classes. -/
def popped_length (env : Env) (addr o : Nat) : Option Nat :=
  match GP_OPMASK (display_list_byte env addr o) with
  | 0 | 9 => some 1
  | 1 => some 6
  | 2 =>
    some (5 + 4 * (((((display_list_byte env addr (o + 1) <<< 24) |||
      (display_list_byte env addr (o + 2) <<< 16) |||
      (display_list_byte env addr (o + 3) <<< 8) |||
      display_list_byte env addr (o + 4)) >>> 16) + 1) % 2 ^ 16))
  | 4 | 5 | 6 | 7 => some 5
  | 0xC => some 5
  | _ => none

/-- A complete register sub-command of a display list as section 4.3 of the specification lays
it out: the opcode (first byte) has class 0, 1, 2, 4-7, 9 or 0xC and the list is exactly as long
as the class demands (1, 6, 5 + 4 * count, 5, 1, 5). A class-2 command carries
`count` = (control word >> 16) + 1 words, here at most 64, the bound `GPOPCODE_LOAD_XF_REG`
asserts. -/
def is_list_command (c : List Nat) : Prop :=
  ((GP_OPMASK (c.getD 0 0) = 0 ∨ GP_OPMASK (c.getD 0 0) = 9) ∧ c.length = 1) ∨
  (GP_OPMASK (c.getD 0 0) = 1 ∧ c.length = 6) ∨
  ((GP_OPMASK (c.getD 0 0) = 4 ∨ GP_OPMASK (c.getD 0 0) = 5 ∨ GP_OPMASK (c.getD 0 0) = 6 ∨
     GP_OPMASK (c.getD 0 0) = 7) ∧ c.length = 5) ∨
  (GP_OPMASK (c.getD 0 0) = 0xC ∧ c.length = 5) ∨
  (GP_OPMASK (c.getD 0 0) = 2 ∧
     xf_count (c.getD 1 0) (c.getD 2 0) (c.getD 3 0) (c.getD 4 0) ≤ 64 ∧
     c.length = 5 + 4 * xf_count (c.getD 1 0) (c.getD 2 0) (c.getD 3 0) (c.getD 4 0))

instance (c : List Nat) : Decidable (is_list_command c) := by
  unfold is_list_command; infer_instance

/-- Emulated memory holding, at display-list positions 0x1000 .. 0x1000 + 262148, one class-2
command of 65536 words (262149 bytes): opcode 0x10, control word FF FF 00 00 (count field
0xFFFF), and a payload of 262144 bytes that are zero except the last one, which is 0x08. The byte
of display-list position `p` is stored at address `p ^ 3`. -/
def long_xf_memory : Nat → Nat := fun a =>
  if a ^^^ 3 = 0x1000 then 0x10
  else if a ^^^ 3 = 0x1001 then 0xFF
  else if a ^^^ 3 = 0x1002 then 0xFF
  else if a ^^^ 3 = 0x1000 + 262148 then 0x08
  else 0

/-- The decoder at the start of the display list of `long_xf_memory`: display-list mode, address
0x1000, offset 0. -/
def long_xf_list_state : State :=
  { loaded_fifo (Env.sample long_xf_memory 0) [] with
    Fifo_Pop := ReadMode.displaylists, g_dl_read_addr := 0x1000 }

/-- The display list of `nop_cp_memory`, 7 bytes: a NOP and a LOAD_CP_REG command. -/
def nop_cp_list : List (List Nat) := [[0x00], [0x08, 0x20, 1, 2, 3, 4]]

/-- Emulated memory holding the bytes of `nop_cp_list` at display-list positions
0x1000 .. 0x1006; the byte of position `p` is stored at address `p ^ 3`. -/
def nop_cp_memory : Nat → Nat := fun a => nop_cp_list.flatten.getD ((a ^^^ 3) - 0x1000) 0

/-- The decoder at the start of the display list of `nop_cp_memory`. -/
def nop_cp_list_state : State :=
  { loaded_fifo (Env.sample nop_cp_memory 0) [] with
    Fifo_Pop := ReadMode.displaylists, g_dl_read_addr := 0x1000 }

end gp

/-! ## Theorems -/

namespace gp

/-! ### Helper lemmas -/

theorem bytes_in_fifo_of_le (env : Env) (s : State)
    (h : s.g_fifo_read_ptr ≤ s.g_fifo_write_ptr) :
    bytes_in_fifo env s = s.g_fifo_write_ptr - s.g_fifo_read_ptr := by
  unfold bytes_in_fifo; rw [if_pos h]

theorem to_s32_of_small (n : Nat) (h : n < 2 ^ 31) : to_s32 (n : Int) = (n : Int) := by
  unfold to_s32
  have h1 : ((n : Int)) % 2 ^ 32 = (n : Int) := by omega
  simp only [h1]
  rw [if_pos (by omega)]

theorem reachable_push_bytes (env : Env) (bs : List Nat) :
    ∀ (s s1 : State), Reachable env s → push_bytes env s bs = some s1 → Reachable env s1 := by
  induction bs with
  | nil => intro s s1 hr h; simp only [push_bytes, Option.some.injEq] at h; exact h ▸ hr
  | cons b bs ih =>
    intro s s1 hr h
    simp only [push_bytes] at h
    cases hp : FifoPush8 env s b with
    | none => rw [hp] at h; exact absurd h (by simp)
    | some s2 => rw [hp] at h; exact ih s2 s1 (Reachable.push b hr hp) h

/-! ### C1 -/

/-- C1 (the code at the failing input): from `Fifo_Init`, 17 bytes are pushed (two
CALL_DISPLAYLIST commands, the second one byte short) and `Fifo_DecodeCommand` is called once; the
display list at 0x1000 holds a nested CALL_DISPLAYLIST, after which the outer loop reads from the
FIFO. The call returns with no assertion failed, the read cursor at 18 and the write cursor
at 17: a reachable state in which the read cursor has passed the write cursor. -/
theorem read_cursor_passes_write_cursor :
    ∃ s, Reachable (Env.sample nested_call_memory 0) s ∧
      s.g_fifo_read_ptr = 18 ∧ s.g_fifo_write_ptr = 17 ∧
      s.g_fifo_write_ptr < s.g_fifo_read_ptr ∧
      Event.assert_read_passed_write ∉ s.events ∧ Event.assert_fifo_corrupted ∉ s.events := by
  have hp : pushed (Env.sample nested_call_memory 0)
      [0x40, 0, 0, 0x10, 0, 0, 0, 0, 1, 0x40, 0, 0, 0, 0, 0, 0, 1] =
      some (state_after (Env.sample nested_call_memory 0)
        [0x40, 0, 0, 0x10, 0, 0, 0, 0, 1, 0x40, 0, 0, 0, 0, 0, 0, 1]) := by decide
  have hd : Fifo_DecodeCommand (Env.sample nested_call_memory 0) 600
      (state_after (Env.sample nested_call_memory 0)
        [0x40, 0, 0, 0x10, 0, 0, 0, 0, 1, 0x40, 0, 0, 0, 0, 0, 0, 1]) =
      some ((Fifo_DecodeCommand (Env.sample nested_call_memory 0) 600
        (state_after (Env.sample nested_call_memory 0)
          [0x40, 0, 0, 0x10, 0, 0, 0, 0, 1, 0x40, 0, 0, 0, 0, 0, 0, 1])).getD
            (State.startup (Env.sample nested_call_memory 0))) := by decide
  exact ⟨_, Reachable.decode 600 (reachable_push_bytes _ _ _ _ Reachable.init hp) hd,
    by decide, by decide, by decide, by decide, by decide⟩

/-! ### C5 -/

/-- C5: with at least one byte available, the cached length unknown and an opcode of class 1, 4-7,
8 or 0xC at the read cursor, `Fifo_NextCommandReady` reports ready exactly when the bytes available
reach L (6, 5, 9, 5 respectively); when it reports not-ready it leaves the cached length at L. -/
theorem next_command_ready_fixed_length (env : Env) (s : State) (L : Nat)
    (havail : s.g_fifo_read_ptr < s.g_fifo_write_ptr)
    (hcache : s.last_required_size = -1)
    (hclass : (GP_OPMASK (FIFO_GET8 s 0) = 1 ∧ L = 6) ∨
              ((GP_OPMASK (FIFO_GET8 s 0) = 4 ∨ GP_OPMASK (FIFO_GET8 s 0) = 5 ∨
                GP_OPMASK (FIFO_GET8 s 0) = 6 ∨ GP_OPMASK (FIFO_GET8 s 0) = 7) ∧ L = 5) ∨
              (GP_OPMASK (FIFO_GET8 s 0) = 8 ∧ L = 9) ∨
              (GP_OPMASK (FIFO_GET8 s 0) = 0xC ∧ L = 5)) :
    ((Fifo_NextCommandReady env s).1 = true ↔ L ≤ s.g_fifo_write_ptr - s.g_fifo_read_ptr) ∧
    ((Fifo_NextCommandReady env s).1 = false →
      (Fifo_NextCommandReady env s).2.last_required_size = (L : Int)) := by
  have hne : s.g_fifo_read_ptr ≠ s.g_fifo_write_ptr := Nat.ne_of_lt havail
  have hb := bytes_in_fifo_of_le env s (Nat.le_of_lt havail)
  unfold Fifo_NextCommandReady
  rw [if_neg hne, hb]
  simp only [hcache, ne_eq, not_true_eq_false, false_and, if_false]
  rcases hclass with ⟨hc, rfl⟩ | ⟨hc | hc | hc | hc, rfl⟩ | ⟨hc, rfl⟩ | ⟨hc, rfl⟩ <;>
    simp only [hc] <;> split_ifs <;> simp_all

/-- Witness for C5: a LOAD_CP_REG opcode followed by four bytes (5 of the 6 bytes present). -/
theorem next_command_ready_fixed_length_witness :
    (state_after (Env.sample zero_memory 0) [0x08, 1, 2, 3, 4]).g_fifo_read_ptr <
      (state_after (Env.sample zero_memory 0) [0x08, 1, 2, 3, 4]).g_fifo_write_ptr ∧
    (state_after (Env.sample zero_memory 0) [0x08, 1, 2, 3, 4]).last_required_size = -1 ∧
    GP_OPMASK (FIFO_GET8 (state_after (Env.sample zero_memory 0) [0x08, 1, 2, 3, 4]) 0) = 1 ∧
    (((Fifo_NextCommandReady (Env.sample zero_memory 0)
          (state_after (Env.sample zero_memory 0) [0x08, 1, 2, 3, 4])).1 = true ↔
        6 ≤ (state_after (Env.sample zero_memory 0) [0x08, 1, 2, 3, 4]).g_fifo_write_ptr -
              (state_after (Env.sample zero_memory 0) [0x08, 1, 2, 3, 4]).g_fifo_read_ptr) ∧
     ((Fifo_NextCommandReady (Env.sample zero_memory 0)
          (state_after (Env.sample zero_memory 0) [0x08, 1, 2, 3, 4])).1 = false →
        (Fifo_NextCommandReady (Env.sample zero_memory 0)
          (state_after (Env.sample zero_memory 0) [0x08, 1, 2, 3, 4])).2.last_required_size =
          ((6 : Nat) : Int))) :=
  ⟨by decide, by decide, by decide,
   next_command_ready_fixed_length _ _ 6 (by decide) (by decide) (Or.inl ⟨by decide, rfl⟩)⟩

/-! ### Handlers never touch the recorder -/

theorem Fifo_Pop8_recorder (env : Env) (s : State) :
    (Fifo_Pop8 env s).2.recorder = s.recorder := by
  unfold Fifo_Pop8; cases s.Fifo_Pop <;> rfl

theorem Fifo_Pop16_recorder (env : Env) (s : State) :
    (Fifo_Pop16 env s).2.recorder = s.recorder := by
  unfold Fifo_Pop16; cases s.Fifo_Pop <;> rfl

theorem Fifo_Pop32_recorder (env : Env) (s : State) :
    (Fifo_Pop32 env s).2.recorder = s.recorder := by
  unfold Fifo_Pop32; cases s.Fifo_Pop <;> rfl

theorem pop_regs_recorder (env : Env) (n : Nat) :
    ∀ s : State, (pop_regs env n s).2.recorder = s.recorder := by
  induction n with
  | zero => intro s; rfl
  | succ n ih =>
    intro s
    simp only [pop_regs]
    rw [ih, Fifo_Pop32_recorder]

theorem GPOPCODE_LOAD_CP_REG_recorder (env : Env) (s : State) :
    (GPOPCODE_LOAD_CP_REG env s).recorder = s.recorder := by
  simp only [GPOPCODE_LOAD_CP_REG, emit, Fifo_Pop32_recorder, Fifo_Pop8_recorder]

theorem GPOPCODE_LOAD_XF_REG_recorder (env : Env) (s : State) :
    (GPOPCODE_LOAD_XF_REG env s).recorder = s.recorder := by
  simp only [GPOPCODE_LOAD_XF_REG, emit, pop_regs_recorder]
  split <;> simp only [Fifo_Pop32_recorder]

theorem GPOPCODE_LOAD_IDX_recorder (env : Env) (reg : IdxReg) (s : State) :
    (GPOPCODE_LOAD_IDX env reg s).recorder = s.recorder := by
  simp only [GPOPCODE_LOAD_IDX, emit, Fifo_Pop16_recorder]

theorem GPOPCODE_LOAD_BP_REG_recorder (env : Env) (s : State) :
    (GPOPCODE_LOAD_BP_REG env s).recorder = s.recorder := by
  simp only [GPOPCODE_LOAD_BP_REG, emit, Fifo_Pop32_recorder]

theorem GPOPCODE_DRAW_recorder (env : Env) (kind : Primitive) (s : State) :
    (GPOPCODE_DRAW env kind s).recorder = s.recorder := by
  simp only [GPOPCODE_DRAW, VertexLoader_DecodePrimitive, emit]
  split <;> simp only [Fifo_Pop16_recorder]

theorem exec_recorder (env : Env) (fuel : Nat) :
    ∀ (job : Job) (s s1 : State), exec env fuel job s = some s1 → s1.recorder = s.recorder := by
  induction fuel with
  | zero => intro job s s1 h; simp [exec] at h
  | succ fuel ih =>
    intro job s s1 h
    cases job with
    | op f =>
      cases f <;> simp only [exec, Option.some.injEq] at h <;>
        first
        | (subst h
           first
           | rfl
           | exact GPOPCODE_LOAD_CP_REG_recorder env s
           | exact GPOPCODE_LOAD_XF_REG_recorder env s
           | exact GPOPCODE_LOAD_IDX_recorder env _ s
           | exact GPOPCODE_LOAD_BP_REG_recorder env s
           | exact GPOPCODE_DRAW_recorder env _ s)
        | skip
      -- CALL_DISPLAYLIST
      split at h
      · exact absurd h (by simp)
      · rename_i s5 h5
        simp only [Option.some.injEq] at h
        subst h
        have := ih _ _ _ h5
        simp only [_set_fifo_read_normal, emit, _set_fifo_read_displaylists] at this ⊢
        rw [this, Fifo_Pop32_recorder, Fifo_Pop32_recorder]
    | dl_loop size =>
      simp only [exec] at h
      split at h
      · split at h
        · exact absurd h (by simp)
        · rename_i s3 h3
          have h4 := ih _ _ _ h
          have h5 := ih _ _ _ h3
          rw [h4, h5]
          exact Fifo_Pop8_recorder env s
      · simp only [Option.some.injEq] at h
        subst h; rfl

/-! ### Frame lemmas for the oracle and the decoder -/

theorem Fifo_NextCommandReady_ready_aux (env : Env) (s : State) :
    (Fifo_NextCommandReady env s).1 = true →
    (Fifo_NextCommandReady env s).2 =
      { s with g_cur_cmd := FIFO_GET8 s 0, g_cur_vat := FIFO_GET8 s 0 &&& 0x7,
               last_required_size := -1 } := by
  unfold Fifo_NextCommandReady
  dsimp only
  by_cases h1 : s.g_fifo_read_ptr = s.g_fifo_write_ptr
  · rw [if_pos h1]; simp
  · rw [if_neg h1]
    by_cases h2 : (s.last_required_size ≠ -1 ∧
        s.last_required_size > to_s32 (bytes_in_fifo env s : Int))
    · rw [if_pos h2]; simp
    · rw [if_neg h2]
      split <;> (try split_ifs) <;> simp

theorem Fifo_NextCommandReady_frame (env : Env) (s : State) :
    ∃ c v l, (Fifo_NextCommandReady env s).2 =
      { s with g_cur_cmd := c, g_cur_vat := v, last_required_size := l } := by
  unfold Fifo_NextCommandReady
  dsimp only
  by_cases h1 : s.g_fifo_read_ptr = s.g_fifo_write_ptr
  · rw [if_pos h1]; exact ⟨_, _, _, rfl⟩
  · rw [if_neg h1]
    by_cases h2 : (s.last_required_size ≠ -1 ∧
        s.last_required_size > to_s32 (bytes_in_fifo env s : Int))
    · rw [if_pos h2]; exact ⟨_, _, _, rfl⟩
    · rw [if_neg h2]
      split <;> (try split_ifs) <;> exact ⟨_, _, _, rfl⟩

/-- The recorder state after the recording step of `Fifo_DecodeCommand`. -/
theorem Fifo_DecodeCommand_unfold (env : Env) (fuel : Nat) (s : State) :
    Fifo_DecodeCommand env fuel s =
      if to_s32 ((s.g_fifo_write_ptr : Int) - (s.g_fifo_read_ptr : Int)) < 1 ∧ s.g_reset_fifo = 0
      then some s
      else
        let s1 := (Fifo_NextCommandReady env (assert_read_not_past_write s)).2
        if (Fifo_NextCommandReady env (assert_read_not_past_write s)).1 = true then
          let s2 :=
            if GP_OPMASK s1.g_cur_cmd ≠ 8 ∧ fifo_player.IsRecording s1.recorder = true then
              { s1 with recorder := fifo_player.Write s1.recorder (buffer_bytes s1 s1.g_fifo_read_ptr
                  (Fifo_GetCommandLength env s1 s1.g_fifo_read_ptr)) }
            else s1
          exec env fuel (Job.op (g_exec_op (GP_OPMASK (Fifo_Pop8 env s2).1))) (Fifo_Pop8 env s2).2
        else some s1 := by
  rfl

theorem assert_read_not_past_write_frame (s : State) :
    FIFO_GET8 (assert_read_not_past_write s) 0 = FIFO_GET8 s 0 ∧
    (assert_read_not_past_write s).recorder = s.recorder := by
  unfold assert_read_not_past_write; split_ifs <;> exact ⟨rfl, rfl⟩

/-! ### C8 -/

/-- C8 (counterexample): with recording active, a CALL_DISPLAYLIST whose display list is one NOP is
dispatched, the NOP sub-command is decoded, and no element at all is recorded (the specification wants one
REGISTER_WRITE element for the NOP). -/
theorem display_list_sub_commands_not_recorded :
    fifo_player.IsRecording recording_call_state.recorder = true ∧
    (Fifo_DecodeCommand (Env.sample zero_memory 0) 8 recording_call_state).map
        (fun s => (s.events, s.recorder.element_info, s.recorder.raw_data)) =
      some ([Event.CALL_DISPLAYLIST 0x1000 1, Event.NOP, Event.CALL_DISPLAYLIST_finished], [], []) := by
  decide

/-- C8 (amended): dispatching a nested-stream invoke (class 8) through `Fifo_DecodeCommand` leaves
the recording session exactly as it was: no element is recorded for the invocation, and none for
the sub-commands decoded from the display list. -/
theorem display_list_call_records_nothing (env : Env) (fuel : Nat) (s s1 : State)
    (hclass : GP_OPMASK (FIFO_GET8 s 0) = 8)
    (hdec : Fifo_DecodeCommand env fuel s = some s1) :
    s1.recorder = s.recorder := by
  rw [Fifo_DecodeCommand_unfold] at hdec
  obtain ⟨hg, hr⟩ := assert_read_not_past_write_frame s
  by_cases h1 : to_s32 ((s.g_fifo_write_ptr : Int) - (s.g_fifo_read_ptr : Int)) < 1 ∧
      s.g_reset_fifo = 0
  · rw [if_pos h1] at hdec
    simp only [Option.some.injEq] at hdec; subst hdec; rfl
  · rw [if_neg h1] at hdec
    dsimp only at hdec
    by_cases h2 : (Fifo_NextCommandReady env (assert_read_not_past_write s)).1 = true
    · rw [if_pos h2] at hdec
      have hrd := Fifo_NextCommandReady_ready_aux env _ h2
      rw [hrd] at hdec
      simp only [hg, hclass, ne_eq, not_true_eq_false, false_and, if_false] at hdec
      have := exec_recorder env fuel _ _ _ hdec
      rw [this, Fifo_Pop8_recorder]
      exact hr
    · rw [if_neg h2] at hdec
      simp only [Option.some.injEq] at hdec
      subst hdec
      obtain ⟨c, v, l, hf⟩ := Fifo_NextCommandReady_frame env (assert_read_not_past_write s)
      rw [hf]
      exact hr

/-- Witness for C8 (amended): the recording state with one complete CALL_DISPLAYLIST command. -/
theorem display_list_call_records_nothing_witness :
    GP_OPMASK (FIFO_GET8 recording_call_state 0) = 8 ∧
    (Fifo_DecodeCommand (Env.sample zero_memory 0) 8 recording_call_state).isSome = true ∧
    ((Fifo_DecodeCommand (Env.sample zero_memory 0) 8 recording_call_state).getD
        recording_call_state).recorder = recording_call_state.recorder :=
  ⟨by decide, by decide,
   display_list_call_records_nothing (Env.sample zero_memory 0) 8 recording_call_state _
     (by decide) (by decide :
       Fifo_DecodeCommand (Env.sample zero_memory 0) 8 recording_call_state =
         some ((Fifo_DecodeCommand (Env.sample zero_memory 0) 8 recording_call_state).getD
           recording_call_state))⟩

/-! ### C6 -/

/-- C6 (the code at the failing input): a LOAD_CP_REG opcode and four more bytes are pushed, the
consumer polls (not ready, 6 is cached), `Fifo_Reset` rewinds the cursors and one NOP byte is
pushed. In this state the cached required length is the stale 6 that `Fifo_Reset` left, one byte
is available and the opcode at the read cursor is a NOP (class 0), yet `Fifo_NextCommandReady`
reports not-ready. -/
theorem nop_not_ready_with_stale_cache :
    (stale_cache_state [0x00]).g_fifo_read_ptr + 1 = (stale_cache_state [0x00]).g_fifo_write_ptr ∧
    GP_OPMASK (FIFO_GET8 (stale_cache_state [0x00]) 0) = 0 ∧
    (stale_cache_state [0x00]).last_required_size = 6 ∧
    (Fifo_NextCommandReady (Env.sample zero_memory 0) (stale_cache_state [0x00])).1 = false := by
  decide

/-- The oracle on the one-byte commands when the cache is in order: when at least one byte is
available (fewer than 2^31), the opcode at the read cursor has class 0 or 9, and the cached
required length is unknown or does not exceed the number of available bytes,
`Fifo_NextCommandReady` reports ready. -/
theorem next_command_ready_single_byte (env : Env) (s : State)
    (havail : s.g_fifo_read_ptr < s.g_fifo_write_ptr)
    (hsmall : s.g_fifo_write_ptr - s.g_fifo_read_ptr < 2 ^ 31)
    (hcache : s.last_required_size = -1 ∨
      s.last_required_size ≤ ((s.g_fifo_write_ptr - s.g_fifo_read_ptr : Nat) : Int))
    (hclass : GP_OPMASK (FIFO_GET8 s 0) = 0 ∨ GP_OPMASK (FIFO_GET8 s 0) = 9) :
    (Fifo_NextCommandReady env s).1 = true := by
  have hne : s.g_fifo_read_ptr ≠ s.g_fifo_write_ptr := Nat.ne_of_lt havail
  have hb := bytes_in_fifo_of_le env s (Nat.le_of_lt havail)
  have hgate : ¬ (s.last_required_size ≠ -1 ∧
      s.last_required_size > to_s32 (bytes_in_fifo env s : Int)) := by
    rw [hb, to_s32_of_small _ hsmall]
    rintro ⟨h1, h2⟩
    rcases hcache with h | h
    · exact h1 h
    · omega
  unfold Fifo_NextCommandReady
  rw [if_neg hne, if_neg hgate]
  rcases hclass with hc | hc <;> simp only [hc]

/-- Example for `next_command_ready_single_byte`: six NOP bytes pushed after the reset that left a
cached length of 6. -/
theorem next_command_ready_single_byte_example :
    (stale_cache_state [0, 0, 0, 0, 0, 0]).g_fifo_read_ptr <
      (stale_cache_state [0, 0, 0, 0, 0, 0]).g_fifo_write_ptr ∧
    (stale_cache_state [0, 0, 0, 0, 0, 0]).last_required_size = 6 ∧
    GP_OPMASK (FIFO_GET8 (stale_cache_state [0, 0, 0, 0, 0, 0]) 0) = 0 ∧
    (Fifo_NextCommandReady (Env.sample zero_memory 0)
      (stale_cache_state [0, 0, 0, 0, 0, 0])).1 = true :=
  ⟨by decide, by decide, by decide,
   next_command_ready_single_byte _ _ (by decide) (by decide) (Or.inr (by decide))
     (Or.inl (by decide))⟩

/-! ### C3 and C4 -/

/-- C3 (the code at the failing input): the FIFO holds exactly the five bytes 10 3F FF 00 00, a
class-2 command whose count is 0x4000, so the command is 5 + 4 * 0x4000 = 65541 bytes long; with
5 bytes available and the cached length unknown, `Fifo_NextCommandReady` reports ready. -/
theorem xf_load_ready_after_u16_wrap :
    GP_OPMASK (FIFO_GET8 (state_after (Env.sample zero_memory 0) [0x10, 0x3F, 0xFF, 0, 0]) 0) = 2 ∧
    (state_after (Env.sample zero_memory 0) [0x10, 0x3F, 0xFF, 0, 0]).last_required_size = -1 ∧
    bytes_in_fifo (Env.sample zero_memory 0)
      (state_after (Env.sample zero_memory 0) [0x10, 0x3F, 0xFF, 0, 0]) = 5 ∧
    5 + 4 * ((FIFO_GET32 (state_after (Env.sample zero_memory 0) [0x10, 0x3F, 0xFF, 0, 0]) 1
      >>> 16) + 1) = 65541 ∧
    (Fifo_NextCommandReady (Env.sample zero_memory 0)
      (state_after (Env.sample zero_memory 0) [0x10, 0x3F, 0xFF, 0, 0])).1 = true := by
  decide

/-- C4 (the code at the failing input): the FIFO holds exactly the three bytes 80 20 00, a draw
command of 0x2000 vertices; the vertex size is 8, so the command is 3 + 0x2000 * 8 = 65539 bytes
long; with 3 bytes available and the cached length unknown, `Fifo_NextCommandReady` reports
ready. -/
theorem draw_ready_after_u16_wrap :
    FIFO_GET8 (state_after (Env.sample zero_memory 8) [0x80, 0x20, 0x00]) 0 &&& 0x80 ≠ 0 ∧
    (state_after (Env.sample zero_memory 8) [0x80, 0x20, 0x00]).last_required_size = -1 ∧
    bytes_in_fifo (Env.sample zero_memory 8)
      (state_after (Env.sample zero_memory 8) [0x80, 0x20, 0x00]) = 3 ∧
    3 + FIFO_GET16 (state_after (Env.sample zero_memory 8) [0x80, 0x20, 0x00]) 1 *
      (Env.sample zero_memory 8).VertexLoader_GetVertexSize
        (state_after (Env.sample zero_memory 8) [0x80, 0x20, 0x00]).g_cur_vat = 65539 ∧
    (Fifo_NextCommandReady (Env.sample zero_memory 8)
      (state_after (Env.sample zero_memory 8) [0x80, 0x20, 0x00])).1 = true := by
  decide

end gp

namespace fifo_player

/-! ### C9 and C10 -/

/-- The function `MemUpdate`, whenever it returns: the element it appends has size
`sizeof(FPMemUpdateInfo) + size`, the raw log was not empty and grows by the payload only. -/
theorem MemUpdate_some (d : Defs) (r r1 : Recorder) (address : Nat) (data : List Nat)
    (h : MemUpdate d r address data = some r1) :
    r.raw_data ≠ [] ∧
    r1 = { r with
      element_info := r.element_info ++
        [{ type := ElementType.MEMORY_UPDATE, offset := r.raw_data.length,
           size := (d.sizeof_FPMemUpdateInfo + data.length) % 2 ^ 32 }],
      raw_data := r.raw_data ++ data } := by
  unfold MemUpdate vec_store at h
  by_cases he : r.raw_data = []
  · simp [he] at h
  · simp [he] at h
    exact ⟨he, h.symm⟩

/-- C9 (the code on every input): on a session whose raw log is empty the header store of
`MemUpdate` goes through the null `data()` pointer and the call has no outcome. On every other
session `MemUpdate` appends an element of size `sizeof(FPMemUpdateInfo) + size` at offset
`raw_data.size()`, but the raw log grows by the `size` payload bytes only: the two header stores
land beyond the end of the vector and no header byte is appended. -/
theorem mem_update_appends_payload_only (d : Defs) (r : Recorder) (address : Nat)
    (data : List Nat) :
    MemUpdate d r address data =
      if r.raw_data = [] then none
      else some { r with
        element_info := r.element_info ++
          [{ type := ElementType.MEMORY_UPDATE, offset := r.raw_data.length,
             size := (d.sizeof_FPMemUpdateInfo + data.length) % 2 ^ 32 }],
        raw_data := r.raw_data ++ data } := by
  unfold MemUpdate vec_store
  by_cases he : r.raw_data = []
  · simp [he]
  · simp [he]

/-- C10 (the code at the failing input): a recording of one NOP command is started, written and
ended; `StartRecording` on the state it leaves keeps the old byte in the raw log. -/
theorem start_recording_keeps_raw_data :
    (EndRecording gp.sample_defs
        (Write (StartRecording gp.sample_defs Recorder.startup) [0x00])).map
      (fun r => (StartRecording gp.sample_defs r).raw_data) = some [0x00] := by
  decide

end fifo_player

namespace gp

/-! ### Register-command handlers in normal read mode -/

theorem advanced_by_refl (s : State) : advanced_by s s 0 :=
  ⟨rfl, rfl, rfl, rfl, rfl, rfl, rfl⟩

theorem advanced_by_trans {s s1 s2 : State} {n m : Nat}
    (h1 : advanced_by s s1 n) (h2 : advanced_by s1 s2 m) : advanced_by s s2 (n + m) := by
  obtain ⟨a1, a2, a3, a4, a5, a6, a7⟩ := h1
  obtain ⟨b1, b2, b3, b4, b5, b6, b7⟩ := h2
  refine ⟨?_, ?_, ?_, ?_, ?_, ?_, ?_⟩
  · rw [b1, a1, Nat.add_assoc]
  · rw [b2, a2]
  · rw [b3, a3]
  · rw [b4, a4]
  · rw [b5, a5]
  · rw [b6, a6]
  · rw [b7, a7]

theorem advanced_by_emit (s : State) (e : Event) : advanced_by s (emit s e) 0 :=
  ⟨rfl, rfl, rfl, rfl, rfl, rfl, rfl⟩

theorem Fifo_Pop8_normal (env : Env) (s : State) (h : s.Fifo_Pop = ReadMode.normal) :
    Fifo_Pop8 env s = (FIFO_GET8 s 0, { s with g_fifo_read_ptr := s.g_fifo_read_ptr + 1 }) := by
  unfold Fifo_Pop8
  split
  · rfl
  · rename_i h2; rw [h] at h2; cases h2

theorem Fifo_Pop16_normal (env : Env) (s : State) (h : s.Fifo_Pop = ReadMode.normal) :
    Fifo_Pop16 env s = (FIFO_GET16 s 0, { s with g_fifo_read_ptr := s.g_fifo_read_ptr + 2 }) := by
  unfold Fifo_Pop16
  split
  · rfl
  · rename_i h2; rw [h] at h2; cases h2

theorem Fifo_Pop32_normal (env : Env) (s : State) (h : s.Fifo_Pop = ReadMode.normal) :
    Fifo_Pop32 env s = (FIFO_GET32 s 0, { s with g_fifo_read_ptr := s.g_fifo_read_ptr + 4 }) := by
  unfold Fifo_Pop32
  split
  · rfl
  · rename_i h2; rw [h] at h2; cases h2

theorem advanced_by_Pop8 (env : Env) (s : State) (h : s.Fifo_Pop = ReadMode.normal) :
    advanced_by s (Fifo_Pop8 env s).2 1 := by
  rw [Fifo_Pop8_normal env s h]; exact ⟨rfl, rfl, rfl, rfl, rfl, rfl, rfl⟩

theorem advanced_by_Pop16 (env : Env) (s : State) (h : s.Fifo_Pop = ReadMode.normal) :
    advanced_by s (Fifo_Pop16 env s).2 2 := by
  rw [Fifo_Pop16_normal env s h]; exact ⟨rfl, rfl, rfl, rfl, rfl, rfl, rfl⟩

theorem advanced_by_Pop32 (env : Env) (s : State) (h : s.Fifo_Pop = ReadMode.normal) :
    advanced_by s (Fifo_Pop32 env s).2 4 := by
  rw [Fifo_Pop32_normal env s h]; exact ⟨rfl, rfl, rfl, rfl, rfl, rfl, rfl⟩

theorem advanced_by_mode {s s1 : State} {n : Nat} (h : advanced_by s s1 n)
    (hm : s.Fifo_Pop = ReadMode.normal) : s1.Fifo_Pop = ReadMode.normal := by
  rw [h.2.2.2.1, hm]

theorem advanced_by_pop_regs (env : Env) (n : Nat) :
    ∀ s : State, s.Fifo_Pop = ReadMode.normal → advanced_by s (pop_regs env n s).2 (4 * n) := by
  induction n with
  | zero => intro s _; exact advanced_by_refl s
  | succ n ih =>
    intro s h
    simp only [pop_regs]
    have h1 := advanced_by_Pop32 env s h
    have h2 := ih _ (advanced_by_mode h1 h)
    have := advanced_by_trans h1 h2
    rw [show 4 * (n + 1) = 4 + 4 * n by omega]
    exact this

theorem advanced_by_LOAD_CP_REG (env : Env) (s : State) (h : s.Fifo_Pop = ReadMode.normal) :
    advanced_by s (GPOPCODE_LOAD_CP_REG env s) 5 := by
  have h1 := advanced_by_Pop8 env s h
  have h2 := advanced_by_Pop32 env _ (advanced_by_mode h1 h)
  exact advanced_by_trans (advanced_by_trans h1 h2) (advanced_by_emit _ _)

theorem advanced_by_LOAD_IDX (env : Env) (reg : IdxReg) (s : State)
    (h : s.Fifo_Pop = ReadMode.normal) : advanced_by s (GPOPCODE_LOAD_IDX env reg s) 4 := by
  have h1 := advanced_by_Pop16 env s h
  have h2 := advanced_by_Pop16 env _ (advanced_by_mode h1 h)
  exact advanced_by_trans (advanced_by_trans h1 h2) (advanced_by_emit _ _)

theorem advanced_by_LOAD_BP_REG (env : Env) (s : State) (h : s.Fifo_Pop = ReadMode.normal) :
    advanced_by s (GPOPCODE_LOAD_BP_REG env s) 4 := by
  have h1 := advanced_by_Pop32 env s h
  exact advanced_by_trans h1 (advanced_by_emit _ _)

theorem advanced_by_LOAD_XF_REG (env : Env) (s : State) (h : s.Fifo_Pop = ReadMode.normal) :
    advanced_by s (GPOPCODE_LOAD_XF_REG env s)
      (4 + 4 * (((FIFO_GET32 s 0 >>> 16) + 1) % 2 ^ 16)) := by
  have h1 := advanced_by_Pop32 env s h
  have hv : (Fifo_Pop32 env s).1 = FIFO_GET32 s 0 := by rw [Fifo_Pop32_normal env s h]
  unfold GPOPCODE_LOAD_XF_REG
  simp only [hv]
  split
  · have h2 := advanced_by_pop_regs env (((FIFO_GET32 s 0 >>> 16) + 1) % 2 ^ 16) _
      (advanced_by_mode h1 h)
    have h3 := advanced_by_trans (advanced_by_trans h1 h2) (advanced_by_emit _
      (Event.XF_Load (((FIFO_GET32 s 0 >>> 16) + 1) % 2 ^ 16) (FIFO_GET32 s 0 &&& 0xFFFF)
        (pop_regs env (((FIFO_GET32 s 0 >>> 16) + 1) % 2 ^ 16) (Fifo_Pop32 env s).2).1))
    exact h3
  · have h1' := advanced_by_trans h1 (advanced_by_emit (Fifo_Pop32 env s).2
      (Event.assert_xf_length (((FIFO_GET32 s 0 >>> 16) + 1) % 2 ^ 16)))
    have h2 := advanced_by_pop_regs env (((FIFO_GET32 s 0 >>> 16) + 1) % 2 ^ 16) _
      (advanced_by_mode h1' h)
    have h3 := advanced_by_trans (advanced_by_trans h1' h2) (advanced_by_emit _
      (Event.XF_Load (((FIFO_GET32 s 0 >>> 16) + 1) % 2 ^ 16) (FIFO_GET32 s 0 &&& 0xFFFF)
        (pop_regs env (((FIFO_GET32 s 0 >>> 16) + 1) % 2 ^ 16)
          (emit (Fifo_Pop32 env s).2
            (Event.assert_xf_length (((FIFO_GET32 s 0 >>> 16) + 1) % 2 ^ 16)))).1))
    exact h3

/-! ### The decoder on a ready command -/

theorem Fifo_NextCommandReady_ne (env : Env) (s : State)
    (h : (Fifo_NextCommandReady env s).1 = true) : s.g_fifo_read_ptr ≠ s.g_fifo_write_ptr := by
  intro he
  unfold Fifo_NextCommandReady at h
  rw [if_pos he] at h
  exact absurd h (by simp)

theorem decode_ready_eq (env : Env) (fuel : Nat) (s : State)
    (hmode : s.Fifo_Pop = ReadMode.normal)
    (hle : s.g_fifo_read_ptr ≤ s.g_fifo_write_ptr)
    (hsmall : s.g_fifo_write_ptr - s.g_fifo_read_ptr < 2 ^ 31)
    (hready : (Fifo_NextCommandReady env s).1 = true) :
    Fifo_DecodeCommand env fuel s =
      exec env fuel (Job.op (g_exec_op (GP_OPMASK (FIFO_GET8 s 0)))) (dispatch_state env s) := by
  have hne := Fifo_NextCommandReady_ne env s hready
  have hassert : assert_read_not_past_write s = s := by
    unfold assert_read_not_past_write; rw [if_pos hle]
  have havail : ¬ (to_s32 ((s.g_fifo_write_ptr : Int) - (s.g_fifo_read_ptr : Int)) < 1 ∧
      s.g_reset_fifo = 0) := by
    have h1 : ((s.g_fifo_write_ptr : Int) - (s.g_fifo_read_ptr : Int)) =
        ((s.g_fifo_write_ptr - s.g_fifo_read_ptr : Nat) : Int) := by omega
    rw [h1, to_s32_of_small _ hsmall]
    omega
  rw [Fifo_DecodeCommand_unfold, if_neg havail, hassert]
  dsimp only
  rw [if_pos hready, Fifo_NextCommandReady_ready_aux env s hready]
  by_cases hrec : GP_OPMASK (FIFO_GET8 s 0) ≠ 8 ∧ fifo_player.IsRecording s.recorder = true
  · rw [if_pos hrec]
    unfold dispatch_state
    simp only [Fifo_Pop8, hmode, if_pos hrec]
    rfl
  · rw [if_neg hrec]
    unfold dispatch_state
    simp only [Fifo_Pop8, hmode, if_neg hrec]
    rfl

theorem FIFO_GET8_dispatch_state (env : Env) (s : State) (k : Nat) :
    FIFO_GET8 (dispatch_state env s) k = FIFO_GET8 s (k + 1) := by
  unfold FIFO_GET8 buffer_at dispatch_state
  dsimp only
  rw [Nat.add_assoc, Nat.add_comm 1 k]

theorem FIFO_GET32_dispatch_state (env : Env) (s : State) :
    FIFO_GET32 (dispatch_state env s) 0 = FIFO_GET32 s 1 := by
  unfold FIFO_GET32
  simp only [FIFO_GET8_dispatch_state]

theorem dispatch_state_mode (env : Env) (s : State) :
    (dispatch_state env s).Fifo_Pop = s.Fifo_Pop := rfl

/-- A ready register command is decoded in one `Fifo_DecodeCommand` call: the handler runs in the
dispatch state and pops the operands, `len - 1` bytes. -/
theorem decode_register_command (env : Env) (fuel : Nat) (s : State) (len : Nat)
    (hmode : s.Fifo_Pop = ReadMode.normal)
    (hle : s.g_fifo_read_ptr ≤ s.g_fifo_write_ptr)
    (hsmall : s.g_fifo_write_ptr - s.g_fifo_read_ptr < 2 ^ 31)
    (hready : (Fifo_NextCommandReady env s).1 = true)
    (hlen : section_4_3_length s = some len)
    (hxf : GP_OPMASK (FIFO_GET8 s 0) = 2 → (FIFO_GET32 s 1 >>> 16) + 1 ≤ 64) :
    ∃ s1, Fifo_DecodeCommand env (fuel + 1) s = some s1 ∧
      advanced_by (dispatch_state env s) s1 (len - 1) := by
  rw [decode_ready_eq env (fuel + 1) s hmode hle hsmall hready]
  have hm : (dispatch_state env s).Fifo_Pop = ReadMode.normal := hmode
  unfold section_4_3_length at hlen
  split at hlen <;> rename_i hc <;>
    first
    | exact Option.noConfusion hlen
    | (simp only [Option.some.injEq] at hlen
       subst hlen
       rw [hc]
       first
       | exact ⟨_, rfl, advanced_by_emit _ _⟩
       | exact ⟨_, rfl, advanced_by_LOAD_CP_REG env _ hm⟩
       | exact ⟨_, rfl, advanced_by_LOAD_IDX env _ _ hm⟩
       | exact ⟨_, rfl, advanced_by_LOAD_BP_REG env _ hm⟩
       | skip)
  · -- class 2
    have hx := hxf hc
    have h := advanced_by_LOAD_XF_REG env _ hm
    rw [FIFO_GET32_dispatch_state] at h
    rw [Nat.mod_eq_of_lt (by omega : (FIFO_GET32 s 1 >>> 16) + 1 < 2 ^ 16)] at h
    rw [show 5 + 4 * ((FIFO_GET32 s 1 >>> 16) + 1) - 1 = 4 + 4 * ((FIFO_GET32 s 1 >>> 16) + 1)
      by omega]
    exact ⟨_, rfl, h⟩

/-! ### Bytes of the FIFO buffer -/

theorem getD_mid (pre c post : List Nat) (i : Nat) (hi : i < c.length) :
    (pre ++ c ++ post).getD (pre.length + i) 0 = c.getD i 0 := by
  rw [List.append_assoc, List.getD_append_right _ _ _ _ (Nat.le_add_right _ _)]
  rw [Nat.add_sub_cancel_left, List.getD_append _ _ _ _ hi]

theorem buffer_bytes_mid (s : State) (pre c post : List Nat)
    (hbuf : s.g_fifo_buffer = pre ++ c ++ post) (hc : ∀ b ∈ c, b < 256) :
    buffer_bytes s pre.length c.length = c := by
  unfold buffer_bytes buffer_at
  apply List.ext_getElem
  · simp
  · intro i h1 h2
    simp only [List.getElem_map, List.getElem_range]
    rw [hbuf, getD_mid pre c post i h2]
    rw [List.getD_eq_getElem _ _ h2]
    exact Nat.mod_eq_of_lt (hc _ (List.getElem_mem _))

theorem buffer_at_of_bytes (s : State) (p : Nat) (c : List Nat)
    (h : buffer_bytes s p c.length = c) (k : Nat) (hk : k < c.length) :
    buffer_at s (p + k) = c.getD k 0 := by
  have : (buffer_bytes s p c.length).getD k 0 = c.getD k 0 := by rw [h]
  rw [← this]
  unfold buffer_bytes
  rw [List.getD_eq_getElem _ _ (by simpa using hk)]
  simp

theorem FIFO_GET8_of_bytes (s : State) (c : List Nat)
    (h : buffer_bytes s s.g_fifo_read_ptr c.length = c) (k : Nat) (hk : k < c.length) :
    FIFO_GET8 s k = c.getD k 0 :=
  buffer_at_of_bytes s _ c h k hk

/-! ### A complete command is ready and is recorded whole -/

theorem section_4_3_length_pos (s : State) (len : Nat) (h : section_4_3_length s = some len) :
    1 ≤ len := by
  unfold section_4_3_length at h
  split at h <;> first | exact Option.noConfusion h | (simp only [Option.some.injEq] at h; omega)

theorem ready_of_complete (env : Env) (s : State) (len : Nat)
    (hcache : s.last_required_size = -1)
    (hlt : s.g_fifo_read_ptr < s.g_fifo_write_ptr)
    (hlen : section_4_3_length s = some len)
    (hav : len ≤ s.g_fifo_write_ptr - s.g_fifo_read_ptr) :
    (Fifo_NextCommandReady env s).1 = true := by
  have hne : s.g_fifo_read_ptr ≠ s.g_fifo_write_ptr := Nat.ne_of_lt hlt
  have hb := bytes_in_fifo_of_le env s (Nat.le_of_lt hlt)
  have hgate : ¬ (s.last_required_size ≠ -1 ∧
      s.last_required_size > to_s32 (bytes_in_fifo env s : Int)) := fun h => h.1 hcache
  unfold Fifo_NextCommandReady
  rw [if_neg hne, if_neg hgate, hb]
  unfold section_4_3_length at hlen
  split at hlen <;> rename_i hc <;>
    first
    | exact Option.noConfusion hlen
    | (simp only [hc]; done)
    | (simp only [Option.some.injEq] at hlen
       simp only [hc]
       split_ifs <;>
         first
         | rfl
         | (exfalso
            simp only [FIFO_GET32, FIFO_GET8, buffer_at] at *
            omega))

theorem Fifo_GetCommandLength_eq (env : Env) (s st : State) (len : Nat)
    (hbuf : st.g_fifo_buffer = s.g_fifo_buffer)
    (hlen : section_4_3_length s = some len)
    (h16 : GP_OPMASK (FIFO_GET8 s 0) = 2 → FIFO_GET32 s 1 >>> 16 ≤ 15) :
    Fifo_GetCommandLength env st s.g_fifo_read_ptr = len := by
  unfold Fifo_GetCommandLength
  unfold section_4_3_length at hlen
  simp only [FIFO_GET32, FIFO_GET8, buffer_at, hbuf, Nat.add_assoc, Nat.reduceAdd,
    Nat.add_zero] at hlen h16 ⊢
  split at hlen <;> rename_i hc <;>
    first
    | exact Option.noConfusion hlen
    | (simp only [Option.some.injEq] at hlen
       simp only [hc]
       first
       | exact hlen
       | skip)
  -- class 2
  have hx := h16 hc
  have hand : ∀ x : Nat, x ≤ 15 → x &&& 15 = x := by
    intro x hx
    have := Nat.and_pow_two_sub_one_eq_mod x 4
    simp only [Nat.reducePow, Nat.add_one_sub_one] at this
    rw [this]
    exact Nat.mod_eq_of_lt (by omega)
  rw [hand _ hx, ← hlen]
  omega

theorem section_4_3_length_of_command (s : State) (c : List Nat)
    (hcmd : is_register_command c)
    (hbytes : buffer_bytes s s.g_fifo_read_ptr c.length = c) :
    section_4_3_length s = some c.length ∧
    (GP_OPMASK (FIFO_GET8 s 0) = 2 → FIFO_GET32 s 1 >>> 16 ≤ 15) := by
  obtain ⟨_, hcases⟩ := hcmd
  have hget := FIFO_GET8_of_bytes s c hbytes
  have hpos : 0 < c.length := by
    rcases hcases with ⟨_, hl⟩ | ⟨_, hl⟩ | ⟨_, hl⟩ | ⟨_, hl⟩ | ⟨_, _, hl⟩ <;> omega
  have hop : FIFO_GET8 s 0 = c.getD 0 0 := hget 0 hpos
  unfold section_4_3_length
  rw [hop]
  rcases hcases with ⟨hc | hc, hl⟩ | ⟨hc, hl⟩ | ⟨hc | hc | hc | hc, hl⟩ | ⟨hc, hl⟩ |
      ⟨hc, hcount, hl⟩ <;>
    first
    | (refine ⟨?_, fun h => by omega⟩
       simp only [hc, hl])
    | skip
  -- class 2
  have h1 : FIFO_GET8 s 1 = c.getD 1 0 := hget 1 (by omega)
  have h2 : FIFO_GET8 s 2 = c.getD 2 0 := hget 2 (by omega)
  have h3 : FIFO_GET8 s 3 = c.getD 3 0 := hget 3 (by omega)
  have h4 : FIFO_GET8 s 4 = c.getD 4 0 := hget 4 (by omega)
  have hw : FIFO_GET32 s 1 >>> 16 + 1 =
      xf_count (c.getD 1 0) (c.getD 2 0) (c.getD 3 0) (c.getD 4 0) := by
    unfold FIFO_GET32 xf_count
    simp only [Nat.reduceAdd, h1, h2, h3, h4]
  refine ⟨?_, fun _ => by omega⟩
  simp only [hc, hw, hl]

theorem section_4_3_length_not_call (s : State) (len : Nat)
    (h : section_4_3_length s = some len) : GP_OPMASK (FIFO_GET8 s 0) ≠ 8 := by
  unfold section_4_3_length at h
  split at h <;> rename_i hc <;>
    first
    | exact Option.noConfusion h
    | (rw [hc]; decide)

theorem dispatch_state_recorder (env : Env) (s : State) (c : List Nat)
    (hrec : s.recorder.is_recording = true)
    (hcmd : is_register_command c)
    (hbytes : buffer_bytes s s.g_fifo_read_ptr c.length = c) :
    (dispatch_state env s).recorder = fifo_player.Write s.recorder c := by
  obtain ⟨hlen, h16⟩ := section_4_3_length_of_command s c hcmd hbytes
  have h8 := section_4_3_length_not_call s _ hlen
  unfold dispatch_state
  dsimp only
  have hg : ∀ st : State, st.g_fifo_buffer = s.g_fifo_buffer →
      Fifo_GetCommandLength env st s.g_fifo_read_ptr = c.length :=
    fun st h => Fifo_GetCommandLength_eq env s st c.length h hlen h16
  rw [if_pos ⟨h8, hrec⟩]
  simp only [hg, hbytes]

/-- One consumer step on a complete register command while recording: the command is popped whole
and recorded as one element. -/
theorem decode_records_command (env : Env) (fuel : Nat) (s : State) (c : List Nat)
    (hmode : s.Fifo_Pop = ReadMode.normal)
    (hcache : s.last_required_size = -1)
    (hrec : s.recorder.is_recording = true)
    (hcmd : is_register_command c)
    (hbytes : buffer_bytes s s.g_fifo_read_ptr c.length = c)
    (hfit : s.g_fifo_read_ptr + c.length ≤ s.g_fifo_write_ptr)
    (hw : s.g_fifo_write_ptr < 2 ^ 31) :
    ∃ s1, Fifo_DecodeCommand env (fuel + 1) s = some s1 ∧
      s1.g_fifo_read_ptr = s.g_fifo_read_ptr + c.length ∧
      s1.g_fifo_write_ptr = s.g_fifo_write_ptr ∧
      s1.g_fifo_buffer = s.g_fifo_buffer ∧
      s1.Fifo_Pop = ReadMode.normal ∧
      s1.last_required_size = -1 ∧
      s1.recorder = fifo_player.Write s.recorder c := by
  obtain ⟨hlen, h16⟩ := section_4_3_length_of_command s c hcmd hbytes
  have hpos := section_4_3_length_pos s _ hlen
  have hready := ready_of_complete env s c.length hcache (by omega) hlen (by omega)
  obtain ⟨s1, hdec, h1, h2, h3, h4, _, h6, h7⟩ :=
    decode_register_command env fuel s c.length hmode (by omega) (by omega) hready hlen
      (fun h => by have := h16 h; omega)
  refine ⟨s1, hdec, ?_, ?_, ?_, ?_, ?_, ?_⟩
  · rw [h1]; show s.g_fifo_read_ptr + 1 + (c.length - 1) = _; omega
  · rw [h2]; rfl
  · rw [h3]; rfl
  · rw [h4]; exact hmode
  · rw [h6]; rfl
  · rw [h7]; exact dispatch_state_recorder env s c hrec hcmd hbytes

/-! ### Pushing a byte stream -/

theorem push_bytes_spec (env : Env) (bs : List Nat) :
    ∀ (s : State) (pre : List Nat) (k : Nat),
      s.g_fifo_buffer = pre ++ List.replicate k 0 → pre.length = s.g_fifo_write_ptr →
      bs.length ≤ k → pre.length + k ≤ env.FIFO_SIZE → (∀ b ∈ bs, b < 256) →
      ∃ s1, push_bytes env s bs = some s1 ∧
        s1.g_fifo_buffer = pre ++ bs ++ List.replicate (k - bs.length) 0 ∧
        s1.g_fifo_write_ptr = s.g_fifo_write_ptr + bs.length ∧
        s1.g_fifo_read_ptr = s.g_fifo_read_ptr ∧ s1.Fifo_Pop = s.Fifo_Pop ∧
        s1.last_required_size = s.last_required_size ∧ s1.recorder = s.recorder := by
  induction bs with
  | nil =>
    intro s pre k hbuf _ _ _ _
    exact ⟨s, rfl, by simpa using hbuf, rfl, rfl, rfl, rfl, rfl⟩
  | cons b bs ih =>
    intro s pre k hbuf hpre hk hfit hb
    obtain ⟨k1, rfl⟩ : ∃ k1, k = k1 + 1 := ⟨k - 1, by simp only [List.length_cons] at hk; omega⟩
    have hlt : s.g_fifo_write_ptr < env.FIFO_SIZE := by omega
    have hb256 : b % 256 = b := Nat.mod_eq_of_lt (hb b (List.mem_cons_self _ _))
    simp only [push_bytes, FifoPush8, if_pos hlt]
    have hbuf1 : s.g_fifo_buffer.set s.g_fifo_write_ptr (b % 256) =
        (pre ++ [b]) ++ List.replicate k1 0 := by
      rw [hbuf, ← hpre, List.set_append_right _ _ (Nat.le_refl _), Nat.sub_self, hb256,
        List.replicate_succ, List.set_cons_zero, List.append_assoc]
      rfl
    obtain ⟨s1, h1, h2, h3, h4, h5, h6, h7⟩ := ih
      { s with g_fifo_buffer := s.g_fifo_buffer.set s.g_fifo_write_ptr (b % 256),
               g_fifo_write_ptr := s.g_fifo_write_ptr + 1 }
      (pre ++ [b]) k1 hbuf1 (by simp [hpre]) (by simp only [List.length_cons] at hk; omega)
      (by simp only [List.length_append, List.length_singleton]; omega)
      (fun x hx => hb x (List.mem_cons_of_mem _ hx))
    refine ⟨s1, h1, ?_, ?_, h4, h5, h6, h7⟩
    · rw [h2]
      simp only [List.length_cons, List.append_assoc, List.singleton_append,
        Nat.add_sub_add_right]
    · rw [h3]
      simp only [List.length_cons]
      omega

/-! ### The consumer loop over a stream of complete commands -/

theorem decode_n_records (env : Env) (fuel : Nat) (cmds : List (List Nat)) :
    ∀ (s : State) (pre post : List Nat),
      s.g_fifo_buffer = pre ++ cmds.flatten ++ post → pre.length = s.g_fifo_read_ptr →
      s.g_fifo_write_ptr = s.g_fifo_read_ptr + cmds.flatten.length →
      s.g_fifo_write_ptr < 2 ^ 31 → s.Fifo_Pop = ReadMode.normal →
      s.last_required_size = -1 → s.recorder.is_recording = true →
      (∀ c ∈ cmds, is_register_command c) →
      ∃ s1, decode_n env (fuel + 1) cmds.length s = some s1 ∧
        s1.recorder = cmds.foldl fifo_player.Write s.recorder ∧
        s1.g_fifo_read_ptr = s1.g_fifo_write_ptr := by
  induction cmds with
  | nil =>
    intro s pre post _ _ hw _ _ _ _ _
    exact ⟨s, rfl, rfl, by simpa using hw.symm⟩
  | cons c cs ih =>
    intro s pre post hbuf hpre hw hsmall hmode hcache hrec hcmds
    have hc := hcmds c (List.mem_cons_self _ _)
    simp only [List.flatten_cons, List.length_append] at hw
    have hbuf1 : s.g_fifo_buffer = pre ++ c ++ (cs.flatten ++ post) := by
      rw [hbuf]; simp only [List.flatten_cons, List.append_assoc]
    have hbytes : buffer_bytes s s.g_fifo_read_ptr c.length = c := by
      rw [← hpre]; exact buffer_bytes_mid s pre c _ hbuf1 hc.1
    obtain ⟨s1, hdec, h1, h2, h3, h4, h5, h6⟩ :=
      decode_records_command env fuel s c hmode hcache hrec hc hbytes (by omega) hsmall
    obtain ⟨s2, hd2, hr2, hrw2⟩ := ih s1 (pre ++ c) post
      (by rw [h3, hbuf]; simp only [List.flatten_cons, List.append_assoc])
      (by rw [h1, List.length_append, hpre])
      (by rw [h2, h1, hw]; omega)
      (by rw [h2]; exact hsmall) h4 h5 (by rw [h6]; exact hrec)
      (fun x hx => hcmds x (List.mem_cons_of_mem _ hx))
    refine ⟨s2, ?_, ?_, hrw2⟩
    · simp only [List.length_cons, decode_n, hdec]
      exact hd2
    · rw [hr2, h6]; rfl

end gp

namespace fifo_player

/-! ### What a run of `Write` calls leaves, and how it replays -/

theorem foldl_Write (cmds : List (List Nat)) :
    ∀ r : Recorder, cmds.foldl Write r =
      { r with element_info := r.element_info ++ elements_of r.raw_data.length cmds,
               raw_data := r.raw_data ++ cmds.flatten } := by
  induction cmds with
  | nil => intro r; simp [elements_of]
  | cons c cs ih =>
    intro r
    rw [List.foldl_cons, ih]
    simp [Write, elements_of, List.append_assoc]

theorem length_elements_of (cmds : List (List Nat)) :
    ∀ off, (elements_of off cmds).length = cmds.length := by
  induction cmds with
  | nil => intro off; rfl
  | cons c cs ih => intro off; simp [elements_of, ih]

theorem element_bytes_elements_of (cmds : List (List Nat)) :
    ∀ (pre post : List Nat),
      (elements_of pre.length cmds).map (element_bytes (pre ++ cmds.flatten ++ post)) =
        cmds.map some := by
  induction cmds with
  | nil => intro pre post; rfl
  | cons c cs ih =>
    intro pre post
    simp only [elements_of, List.map_cons, List.flatten_cons]
    congr 1
    · unfold element_bytes
      dsimp only
      rw [if_pos (by simp only [List.length_append]; omega)]
      rw [List.append_assoc, List.drop_left, List.append_assoc, List.take_left]
    · have := ih (pre ++ c) post
      rw [List.length_append] at this
      rw [← this]
      simp only [List.append_assoc]

theorem all_some_map_some {α : Type} (l : List α) : all_some (l.map some) = some l := by
  induction l with
  | nil => rfl
  | cons a l ih => simp only [List.map_cons, all_some, ih]

theorem end_recording_of_writes (d : Defs) (r0 : Recorder) (cmds : List (List Nat))
    (hne : cmds ≠ []) (hn : cmds.length < 2 ^ 32) :
    ∃ r, EndRecording d (cmds.foldl Write (StartRecording d r0)) = some r ∧
      r.frame_info = [{ base_element := 0, num_elements := cmds.length }] ∧
      r.element_info = elements_of r0.raw_data.length cmds ∧
      r.raw_data = r0.raw_data ++ cmds.flatten := by
  have hpos : 0 < cmds.length := List.length_pos.mpr hne
  have hmod : (cmds.length + 2 ^ 32 - 0 % 2 ^ 32) % 2 ^ 32 = cmds.length := by omega
  rw [foldl_Write]
  simp only [EndRecording, FrameFinished, StartRecording, List.nil_append, List.get?_cons_zero,
    length_elements_of, hmod, List.set_cons_zero, List.singleton_append, List.reverse_cons,
    List.reverse_nil, List.nil_append, trim_frames, if_true]
  rw [if_neg (by omega)]
  exact ⟨_, rfl, rfl, rfl, rfl⟩

theorem play_file_of_writes (f : FPFile) (pre : List Nat) (cmds : List (List Nat))
    (hframes : f.frame_info = [{ base_element := 0, num_elements := cmds.length }])
    (helems : f.element_info = elements_of pre.length cmds)
    (hraw : f.raw_data = pre ++ cmds.flatten) :
    PlayFile f = some cmds.flatten ∧
    f.element_info.map (element_bytes f.raw_data) = cmds.map some := by
  have hb : (elements_of pre.length cmds).map (element_bytes (pre ++ cmds.flatten)) =
      cmds.map some := by
    have := element_bytes_elements_of cmds pre []
    rwa [List.append_nil] at this
  constructor
  · unfold PlayFile
    rw [hframes, helems, hraw]
    simp only [List.map_cons, List.map_nil, frame_elements, Nat.zero_add, length_elements_of,
      Nat.le_refl, if_true, List.drop_zero, all_some]
    rw [← length_elements_of cmds pre.length, List.take_length]
    simp only [List.flatten_cons, List.flatten_nil, List.append_nil, hb, all_some_map_some]
  · rw [helems, hraw, hb]

end fifo_player

namespace gp

theorem length_le_flatten (cmds : List (List Nat)) (h : ∀ c ∈ cmds, 1 ≤ c.length) :
    cmds.length ≤ cmds.flatten.length := by
  induction cmds with
  | nil => simp
  | cons c cs ih =>
    have h1 := h c (List.mem_cons_self _ _)
    have h2 := ih (fun x hx => h x (List.mem_cons_of_mem _ hx))
    simp only [List.length_cons, List.flatten_cons, List.length_append]
    omega

/-! ### C7 -/

/-- C7 (counterexample): a NOP and a CALL_DISPLAYLIST (size 0) are pushed and decoded while
recording; replaying the recorded session pushes the single byte of the NOP, not the ten bytes
that were pushed, and the session holds one element for two decoded commands. -/
theorem replay_drops_display_list_call :
    (record_session (Env.sample zero_memory 0) sample_defs fifo_player.Recorder.startup 4
        [[0x00], [0x40, 0, 0, 0x10, 0, 0, 0, 0, 0]]).map
      (fun f => (fifo_player.PlayFile f, f.element_info.length)) = some (some [0x00], 1) := by
  decide

/-- C7 (amended): for every non-empty sequence of complete register commands (classes 0, 1, 2
with at most 16 words, 4-7, 9, 0xC) that fits into the FIFO, pushed on a freshly initialised FIFO
with recording started and decoded by one `Fifo_DecodeCommand` call per command before
`EndRecording`: `PlayFile` on the recorded session pushes exactly the bytes that were pushed, and
the byte range of the i-th recorded element is exactly the i-th command. -/
theorem record_replay_round_trip (env : Env) (d : fifo_player.Defs) (r0 : fifo_player.Recorder)
    (fuel : Nat) (cmds : List (List Nat))
    (hne : cmds ≠ [])
    (hcmds : ∀ c ∈ cmds, is_register_command c)
    (hfit : cmds.flatten.length ≤ env.FIFO_SIZE)
    (hsmall : cmds.flatten.length < 2 ^ 31) :
    ∃ f, record_session env d r0 (fuel + 1) cmds = some f ∧
      fifo_player.PlayFile f = some cmds.flatten ∧
      f.element_info.map (fifo_player.element_bytes f.raw_data) = cmds.map some := by
  have hall : ∀ b ∈ cmds.flatten, b < 256 := by
    intro b hb
    obtain ⟨c, hc, hbc⟩ := List.mem_flatten.mp hb
    exact (hcmds c hc).1 b hbc
  have hlen : cmds.length ≤ cmds.flatten.length :=
    length_le_flatten cmds (fun c hc => by
      obtain ⟨_, hcases⟩ := hcmds c hc
      rcases hcases with ⟨_, hl⟩ | ⟨_, hl⟩ | ⟨_, hl⟩ | ⟨_, hl⟩ | ⟨_, _, hl⟩ <;> omega)
  obtain ⟨s1, hpush, hb1, hw1, hr1, hm1, hl1, hrec1⟩ := push_bytes_spec env cmds.flatten
    (fresh_recording_state env d r0) [] env.FIFO_SIZE rfl rfl hfit (by simp) hall
  obtain ⟨s2, hdec, hrec2, _⟩ := decode_n_records env fuel cmds s1 []
    (List.replicate (env.FIFO_SIZE - cmds.flatten.length) 0) hb1
    (by rw [hr1]; rfl) (by rw [hw1, hr1]; rfl)
    (by rw [hw1]; show 0 + cmds.flatten.length < 2 ^ 31; omega)
    (by rw [hm1]; rfl) (by rw [hl1]; rfl) (by rw [hrec1]; rfl) hcmds
  rw [hrec1, show (fresh_recording_state env d r0).recorder =
    fifo_player.StartRecording d r0 from rfl] at hrec2
  obtain ⟨r, hend, hf, he, hraw⟩ := fifo_player.end_recording_of_writes d r0 cmds hne (by omega)
  have hplay := fifo_player.play_file_of_writes r.toFile r0.raw_data cmds hf he hraw
  refine ⟨r.toFile, ?_, hplay.1, hplay.2⟩
  unfold record_session
  simp only [hpush, hdec, hrec2, hend]

/-- Witness for C7 (amended): a NOP, a LOAD_CP_REG and a one-word LOAD_XF_REG. -/
theorem record_replay_round_trip_witness :
    ([[0x00], [0x08, 1, 2, 3, 4, 5], [0x10, 0, 0, 0, 0, 9, 9, 9, 9]] : List (List Nat)) ≠ [] ∧
    (∀ c ∈ ([[0x00], [0x08, 1, 2, 3, 4, 5], [0x10, 0, 0, 0, 0, 9, 9, 9, 9]] : List (List Nat)),
      is_register_command c) ∧
    ∃ f, record_session (Env.sample zero_memory 0) sample_defs fifo_player.Recorder.startup (0 + 1)
          [[0x00], [0x08, 1, 2, 3, 4, 5], [0x10, 0, 0, 0, 0, 9, 9, 9, 9]] = some f ∧
      fifo_player.PlayFile f =
        some ([[0x00], [0x08, 1, 2, 3, 4, 5], [0x10, 0, 0, 0, 0, 9, 9, 9, 9]] :
          List (List Nat)).flatten ∧
      f.element_info.map (fifo_player.element_bytes f.raw_data) =
        ([[0x00], [0x08, 1, 2, 3, 4, 5], [0x10, 0, 0, 0, 0, 9, 9, 9, 9]] :
          List (List Nat)).map some :=
  ⟨by decide, by decide,
   record_replay_round_trip (Env.sample zero_memory 0) sample_defs fifo_player.Recorder.startup 0
     _ (by decide) (by decide) (by decide) (by decide)⟩

/-! ### C2 -/

/-- C2 (counterexample): the FIFO holds the five bytes 10 FF FF 00 00, a class-2 command whose
count is (0xFFFF + 1) = 65536, so section 4.3 gives it 5 + 4 * 65536 = 262149 bytes;
`Fifo_NextCommandReady` reports ready and `Fifo_DecodeCommand` advances the read cursor by 5
(the handler's 16-bit word count is 0). -/
theorem xf_load_pops_five_bytes_for_count_65536 :
    (Fifo_NextCommandReady (Env.sample zero_memory 0)
      (state_after (Env.sample zero_memory 0) [0x10, 0xFF, 0xFF, 0, 0])).1 = true ∧
    section_4_3_length (state_after (Env.sample zero_memory 0) [0x10, 0xFF, 0xFF, 0, 0]) =
      some 262149 ∧
    (Fifo_DecodeCommand (Env.sample zero_memory 0) 1
        (state_after (Env.sample zero_memory 0) [0x10, 0xFF, 0xFF, 0, 0])).map
      (fun s1 => (s1.g_fifo_read_ptr, s1.events)) =
      some ((state_after (Env.sample zero_memory 0) [0x10, 0xFF, 0xFF, 0, 0]).g_fifo_read_ptr + 5,
            [Event.XF_Load 0 0 []]) := by
  decide

/-- C2 (amended): in normal read mode, with the read cursor not past the write cursor and fewer
than 2^31 bytes pending, whenever `Fifo_NextCommandReady` reports ready for a command of class 0,
1, 2, 4-7, 9 or 0xC, a class-2 command carrying at most 64 words (the bound its handler asserts),
`Fifo_DecodeCommand` returns and has advanced the read cursor by exactly the length section 4.3
gives the command (1, 6, 5 + 4 * count, 5, 1, 5). -/
theorem decode_pops_exactly_the_command (env : Env) (fuel : Nat) (s : State) (len : Nat)
    (hmode : s.Fifo_Pop = ReadMode.normal)
    (hle : s.g_fifo_read_ptr ≤ s.g_fifo_write_ptr)
    (hsmall : s.g_fifo_write_ptr - s.g_fifo_read_ptr < 2 ^ 31)
    (hready : (Fifo_NextCommandReady env s).1 = true)
    (hlen : section_4_3_length s = some len)
    (hxf : GP_OPMASK (FIFO_GET8 s 0) = 2 → (FIFO_GET32 s 1 >>> 16) + 1 ≤ 64) :
    ∃ s1, Fifo_DecodeCommand env (fuel + 1) s = some s1 ∧
      s1.g_fifo_read_ptr = s.g_fifo_read_ptr + len := by
  obtain ⟨s1, hdec, h1, _⟩ := decode_register_command env fuel s len hmode hle hsmall hready
    hlen hxf
  have hpos := section_4_3_length_pos s len hlen
  refine ⟨s1, hdec, ?_⟩
  rw [h1]
  show s.g_fifo_read_ptr + 1 + (len - 1) = _
  omega

/-- Witness for C2 (amended): a complete one-word LOAD_XF_REG command (9 bytes). -/
theorem decode_pops_exactly_the_command_witness :
    (state_after (Env.sample zero_memory 0) [0x10, 0, 0, 0, 0, 1, 2, 3, 4]).Fifo_Pop =
      ReadMode.normal ∧
    (Fifo_NextCommandReady (Env.sample zero_memory 0)
      (state_after (Env.sample zero_memory 0) [0x10, 0, 0, 0, 0, 1, 2, 3, 4])).1 = true ∧
    section_4_3_length (state_after (Env.sample zero_memory 0) [0x10, 0, 0, 0, 0, 1, 2, 3, 4]) =
      some 9 ∧
    ∃ s1, Fifo_DecodeCommand (Env.sample zero_memory 0) (0 + 1)
        (state_after (Env.sample zero_memory 0) [0x10, 0, 0, 0, 0, 1, 2, 3, 4]) = some s1 ∧
      s1.g_fifo_read_ptr =
        (state_after (Env.sample zero_memory 0) [0x10, 0, 0, 0, 0, 1, 2, 3, 4]).g_fifo_read_ptr
          + 9 :=
  ⟨by decide, by decide, by decide,
   decode_pops_exactly_the_command (Env.sample zero_memory 0) 0 _ 9 (by decide) (by decide)
     (by decide) (by decide) (by decide) (fun _ => by decide)⟩

end gp

namespace gp

/-! ### C19 -/

theorem high_bit_clear_classes :
    ∀ b < 256, (b &&& 0x80 = 0 ∧
      GP_OPMASK b ≠ 0 ∧ GP_OPMASK b ≠ 1 ∧ GP_OPMASK b ≠ 2 ∧ GP_OPMASK b ≠ 4 ∧
      GP_OPMASK b ≠ 5 ∧ GP_OPMASK b ≠ 6 ∧ GP_OPMASK b ≠ 7 ∧ GP_OPMASK b ≠ 8 ∧
      GP_OPMASK b ≠ 9 ∧ GP_OPMASK b ≠ 0xC) →
      GP_OPMASK b ∈ [3, 10, 11, 13, 14, 15] := by
  decide

theorem FIFO_GET8_lt (s : State) (k : Nat) : FIFO_GET8 s k < 256 :=
  Nat.mod_lt _ (by decide)

/-- C19: when the opcode byte at the read cursor has the high bit clear and a class that is none
of 0, 1, 2, 4-7, 8, 9, 0xC (so one of 3, 10, 11, 13, 14, 15), `Fifo_NextCommandReady` reports
not-ready and leaves the cached required length as it was, whatever the read and write cursors
and the cached length are. -/
theorem malformed_opcode_never_ready (env : Env) (s : State)
    (hhigh : FIFO_GET8 s 0 &&& 0x80 = 0)
    (h0 : GP_OPMASK (FIFO_GET8 s 0) ≠ 0) (h1 : GP_OPMASK (FIFO_GET8 s 0) ≠ 1)
    (h2 : GP_OPMASK (FIFO_GET8 s 0) ≠ 2) (h4 : GP_OPMASK (FIFO_GET8 s 0) ≠ 4)
    (h5 : GP_OPMASK (FIFO_GET8 s 0) ≠ 5) (h6 : GP_OPMASK (FIFO_GET8 s 0) ≠ 6)
    (h7 : GP_OPMASK (FIFO_GET8 s 0) ≠ 7) (h8 : GP_OPMASK (FIFO_GET8 s 0) ≠ 8)
    (h9 : GP_OPMASK (FIFO_GET8 s 0) ≠ 9) (hC : GP_OPMASK (FIFO_GET8 s 0) ≠ 0xC) :
    (Fifo_NextCommandReady env s).1 = false ∧
    (Fifo_NextCommandReady env s).2.last_required_size = s.last_required_size ∧
    GP_OPMASK (FIFO_GET8 s 0) ∈ [3, 10, 11, 13, 14, 15] := by
  refine ⟨?_, ?_, high_bit_clear_classes _ (FIFO_GET8_lt s 0) ⟨hhigh, h0, h1, h2, h4, h5, h6, h7, h8, h9, hC⟩⟩
  all_goals
    unfold Fifo_NextCommandReady
    dsimp only
    by_cases ha : s.g_fifo_read_ptr = s.g_fifo_write_ptr
    · rw [if_pos ha]
    · rw [if_neg ha]
      by_cases hb : (s.last_required_size ≠ -1 ∧
          s.last_required_size > to_s32 (bytes_in_fifo env s : Int))
      · rw [if_pos hb]
      · rw [if_neg hb]
        split <;> first | contradiction | (rw [if_neg (by simpa using hhigh)])

end gp

namespace gp

/-! ### C20 -/

theorem shl_or (a b i : Nat) (h : b < 2 ^ i) : (a <<< i) ||| b = a * 2 ^ i + b := by
  rw [Nat.shiftLeft_eq, Nat.mul_comm a, Nat.mul_add_lt_is_or h]

theorem buffer_at_lt (s : State) (i : Nat) : buffer_at s i < 256 :=
  Nat.mod_lt _ (by decide)

theorem be16_eq (a b : Nat) (hb : b < 256) : (a <<< 8) ||| b = a * 256 + b :=
  shl_or a b 8 hb

theorem be24_eq (a b c : Nat) (hb : b < 256) (hc : c < 256) :
    (a <<< 16) ||| (b <<< 8) ||| c = a * 65536 + b * 256 + c := by
  rw [Nat.lor_assoc, be16_eq b c hc, shl_or a _ 16 (by omega)]
  omega

theorem be32_eq (a b c d : Nat) (hb : b < 256) (hc : c < 256) (hd : d < 256) :
    (a <<< 24) ||| (b <<< 16) ||| (c <<< 8) ||| d =
      a * 16777216 + b * 65536 + c * 256 + d := by
  rw [Nat.lor_assoc, Nat.lor_assoc, be16_eq c d hd, shl_or b _ 16 (by omega),
    shl_or a _ 24 (by omega)]
  omega

/-- C20: in primary-buffer mode the 8-, 16-, 24- and 32-bit pops return the next 1, 2, 3 and 4
bytes of the buffer at the read cursor assembled big-endian (first byte most significant) and
leave the state as it was except for the read cursor, which is 1, 2, 3 and 4 bytes further. -/
theorem primary_pops_big_endian (env : Env) (s : State) (hmode : s.Fifo_Pop = ReadMode.normal) :
    Fifo_Pop8 env s =
      (buffer_at s s.g_fifo_read_ptr, { s with g_fifo_read_ptr := s.g_fifo_read_ptr + 1 }) ∧
    Fifo_Pop16 env s =
      (buffer_at s s.g_fifo_read_ptr * 256 + buffer_at s (s.g_fifo_read_ptr + 1),
       { s with g_fifo_read_ptr := s.g_fifo_read_ptr + 2 }) ∧
    Fifo_Pop24 env s =
      (buffer_at s s.g_fifo_read_ptr * 65536 + buffer_at s (s.g_fifo_read_ptr + 1) * 256 +
         buffer_at s (s.g_fifo_read_ptr + 2),
       { s with g_fifo_read_ptr := s.g_fifo_read_ptr + 3 }) ∧
    Fifo_Pop32 env s =
      (buffer_at s s.g_fifo_read_ptr * 16777216 + buffer_at s (s.g_fifo_read_ptr + 1) * 65536 +
         buffer_at s (s.g_fifo_read_ptr + 2) * 256 + buffer_at s (s.g_fifo_read_ptr + 3),
       { s with g_fifo_read_ptr := s.g_fifo_read_ptr + 4 }) := by
  refine ⟨?_, ?_, ?_, ?_⟩
  · rw [Fifo_Pop8_normal env s hmode]; rfl
  · rw [Fifo_Pop16_normal env s hmode]
    unfold FIFO_GET16 FIFO_GET8
    rw [be16_eq _ _ (buffer_at_lt _ _)]
    rfl
  · rw [← be24_eq _ _ _ (buffer_at_lt s _) (buffer_at_lt s _)]
    unfold Fifo_Pop24
    split
    · rfl
    · rename_i h2; rw [hmode] at h2; cases h2
  · rw [Fifo_Pop32_normal env s hmode]
    unfold FIFO_GET32 FIFO_GET8
    rw [be32_eq _ _ _ _ (buffer_at_lt _ _) (buffer_at_lt _ _) (buffer_at_lt _ _)]
    rfl

end gp

namespace gp

/-! ### C11 -/

theorem dl_byte_eq (env : Env) (s : State) :
    dl_byte env s 0 = display_list_byte env s.g_dl_read_addr s.g_dl_read_offset := by
  unfold dl_byte display_list_byte
  rw [Nat.add_zero, Nat.mod_mod]

theorem dl_loop_nops (env : Env) (size : Nat) (hsize : size < 2 ^ 32) :
    ∀ (k fuel : Nat) (s : State),
      s.Fifo_Pop = ReadMode.displaylists → s.g_dl_read_offset + k = size →
      (∀ i, s.g_dl_read_offset ≤ i → i < size →
        GP_OPMASK (display_list_byte env s.g_dl_read_addr i) = 0) →
      k + 1 ≤ fuel →
      ∃ s1, exec env fuel (Job.dl_loop size) s = some s1 ∧
        s1.events = s.events ++ List.replicate k Event.NOP ∧
        s1.g_dl_read_offset = size ∧ s1.Fifo_Pop = ReadMode.displaylists ∧
        s1.g_fifo_read_ptr = s.g_fifo_read_ptr ∧ s1.g_fifo_write_ptr = s.g_fifo_write_ptr ∧
        s1.g_fifo_buffer = s.g_fifo_buffer ∧ s1.recorder = s.recorder ∧
        s1.last_required_size = s.last_required_size := by
  intro k
  induction k with
  | zero =>
    intro fuel s _ hoff _ hfuel
    obtain ⟨f, rfl⟩ : ∃ f, fuel = f + 1 := ⟨fuel - 1, by omega⟩
    refine ⟨s, ?_, by simp, by omega, by assumption, rfl, rfl, rfl, rfl, rfl⟩
    simp only [exec]
    rw [if_neg (by omega)]
  | succ k ih =>
    intro fuel s hmode hoff hnop hfuel
    obtain ⟨f, rfl⟩ : ∃ f, fuel = f + 1 + 1 := ⟨fuel - 2, by omega⟩
    have hlt : s.g_dl_read_offset < size := by omega
    have hcmd : (Fifo_Pop8 env s).1 = display_list_byte env s.g_dl_read_addr s.g_dl_read_offset := by
      unfold Fifo_Pop8; rw [hmode]; exact dl_byte_eq env s
    have hst : (Fifo_Pop8 env s).2 = { s with g_dl_read_offset := s.g_dl_read_offset + 1 } := by
      unfold Fifo_Pop8
      split
      · rename_i h2; rw [hmode] at h2; cases h2
      · unfold __displaylist_pop_8
        rw [Nat.mod_eq_of_lt (by omega)]
    have hop : GP_OPMASK (Fifo_Pop8 env s).1 = 0 := by
      rw [hcmd]; exact hnop _ (Nat.le_refl _) hlt
    simp only [exec]
    rw [if_pos hlt, hop, show g_exec_op 0 = GPFunc.NOP from rfl]
    dsimp only
    rw [hst]
    obtain ⟨s1, h1, h2, h3, h4, h5, h6, h7, h8, h9⟩ := ih (f + 1)
      (GPOPCODE_NOP { ({ s with g_dl_read_offset := s.g_dl_read_offset + 1 } : State) with
        g_cur_cmd := (Fifo_Pop8 env s).1, g_cur_vat := (Fifo_Pop8 env s).1 &&& 0x7 })
      hmode (by show s.g_dl_read_offset + 1 + k = size; omega)
      (fun i hi1 hi2 => hnop i (by
        have : s.g_dl_read_offset + 1 ≤ i := hi1
        omega) hi2)
      (by omega)
    refine ⟨s1, h1, ?_, h3, h4, h5, h6, h7, h8, h9⟩
    rw [h2]
    show s.events ++ [Event.NOP] ++ List.replicate k Event.NOP = _
    rw [List.append_assoc]
    rfl

end gp

namespace gp

theorem FIFO_GET32_lt (s : State) (k : Nat) : FIFO_GET32 s k < 2 ^ 32 := by
  unfold FIFO_GET32
  rw [be32_eq _ _ _ _ (FIFO_GET8_lt s _) (FIFO_GET8_lt s _) (FIFO_GET8_lt s _)]
  have := FIFO_GET8_lt s k
  have := FIFO_GET8_lt s (k + 1)
  have := FIFO_GET8_lt s (k + 2)
  have := FIFO_GET8_lt s (k + 3)
  omega

theorem exec_call_display_list_nops (env : Env) (f : Nat) (s : State)
    (hmode : s.Fifo_Pop = ReadMode.normal)
    (hnops : ∀ i < FIFO_GET32 s 4,
      GP_OPMASK (display_list_byte env (FIFO_GET32 s 0 &&& env.RAM_MASK) i) = 0)
    (hfuel : FIFO_GET32 s 4 + 1 ≤ f) :
    ∃ s1, exec env (f + 1) (Job.op GPFunc.CALL_DISPLAYLIST) s = some s1 ∧
      s1.events = s.events ++
        [Event.CALL_DISPLAYLIST (FIFO_GET32 s 0 &&& env.RAM_MASK) (FIFO_GET32 s 4)] ++
        List.replicate (FIFO_GET32 s 4) Event.NOP ++ [Event.CALL_DISPLAYLIST_finished] ∧
      s1.g_dl_read_offset = FIFO_GET32 s 4 ∧ s1.Fifo_Pop = ReadMode.normal ∧
      s1.g_fifo_read_ptr = s.g_fifo_read_ptr + 8 ∧ s1.g_fifo_write_ptr = s.g_fifo_write_ptr ∧
      s1.g_fifo_buffer = s.g_fifo_buffer ∧ s1.recorder = s.recorder ∧
      s1.last_required_size = s.last_required_size := by
  have hp1 := Fifo_Pop32_normal env s hmode
  have hp2 := Fifo_Pop32_normal env { s with g_fifo_read_ptr := s.g_fifo_read_ptr + 4 } hmode
  have hv2 : FIFO_GET32 ({ s with g_fifo_read_ptr := s.g_fifo_read_ptr + 4 } : State) 0 =
      FIFO_GET32 s 4 := rfl
  simp only [exec, hp1, hp2, hv2]
  obtain ⟨s1, h1, h2, h3, h4, h5, h6, h7, h8, h9⟩ :=
    dl_loop_nops env (FIFO_GET32 s 4) (FIFO_GET32_lt s 4) (FIFO_GET32 s 4) f
      (_set_fifo_read_displaylists (emit
        { ({ ({ s with g_fifo_read_ptr := s.g_fifo_read_ptr + 4 } : State) with
              g_fifo_read_ptr := s.g_fifo_read_ptr + 4 + 4 } : State) with
          g_dl_read_addr := FIFO_GET32 s 0 &&& env.RAM_MASK, g_dl_read_offset := 0 }
        (Event.CALL_DISPLAYLIST (FIFO_GET32 s 0 &&& env.RAM_MASK) (FIFO_GET32 s 4))))
      rfl (by show 0 + FIFO_GET32 s 4 = _; omega)
      (fun i _ hi => hnops i hi) hfuel
  rw [h1]
  refine ⟨_, rfl, ?_, h3, rfl, ?_, ?_, ?_, ?_, ?_⟩
  · show s1.events ++ [Event.CALL_DISPLAYLIST_finished] = _
    rw [h2]; rfl
  · show s1.g_fifo_read_ptr = _
    exact h5.trans rfl
  · show s1.g_fifo_write_ptr = _
    exact h6.trans rfl
  · show s1.g_fifo_buffer = _
    exact h7.trans rfl
  · show s1.recorder = _
    exact h8.trans rfl
  · show s1.last_required_size = _
    exact h9.trans rfl

/-- C11: in primary-buffer mode, when `Fifo_NextCommandReady` reports ready for a class-8 command
whose display list (address `a` = first operand and RAM_MASK, length `n` = second operand) holds
`n` bytes of class 0, `Fifo_DecodeCommand` (given fuel `n + 2` or more) returns: exactly `n` NOP
sub-commands are decoded and they are read from the display list (the nested offset ends at `n`),
the read mode is the primary-buffer one again, and the primary read cursor is exactly 9 bytes past
the start of the command. -/
theorem call_display_list_of_nops (env : Env) (fuel : Nat) (s : State)
    (hmode : s.Fifo_Pop = ReadMode.normal)
    (hle : s.g_fifo_read_ptr ≤ s.g_fifo_write_ptr)
    (hsmall : s.g_fifo_write_ptr - s.g_fifo_read_ptr < 2 ^ 31)
    (hready : (Fifo_NextCommandReady env s).1 = true)
    (hclass : GP_OPMASK (FIFO_GET8 s 0) = 8)
    (hnops : ∀ i < FIFO_GET32 s 5,
      GP_OPMASK (display_list_byte env (FIFO_GET32 s 1 &&& env.RAM_MASK) i) = 0)
    (hfuel : FIFO_GET32 s 5 + 2 ≤ fuel) :
    ∃ s1, Fifo_DecodeCommand env fuel s = some s1 ∧
      s1.events = s.events ++
        [Event.CALL_DISPLAYLIST (FIFO_GET32 s 1 &&& env.RAM_MASK) (FIFO_GET32 s 5)] ++
        List.replicate (FIFO_GET32 s 5) Event.NOP ++ [Event.CALL_DISPLAYLIST_finished] ∧
      s1.g_dl_read_offset = FIFO_GET32 s 5 ∧
      s1.Fifo_Pop = ReadMode.normal ∧
      s1.g_fifo_read_ptr = s.g_fifo_read_ptr + 9 := by
  obtain ⟨f, rfl⟩ : ∃ f, fuel = f + 1 := ⟨fuel - 1, by omega⟩
  rw [decode_ready_eq env (f + 1) s hmode hle hsmall hready, hclass,
    show g_exec_op 8 = GPFunc.CALL_DISPLAYLIST from rfl]
  have e0 : FIFO_GET32 (dispatch_state env s) 0 = FIFO_GET32 s 1 := FIFO_GET32_dispatch_state env s
  have e4 : FIFO_GET32 (dispatch_state env s) 4 = FIFO_GET32 s 5 := by
    unfold FIFO_GET32
    simp only [FIFO_GET8_dispatch_state]
  obtain ⟨s1, h1, h2, h3, h4, h5, _⟩ := exec_call_display_list_nops env f (dispatch_state env s)
    hmode (by rw [e0, e4]; exact hnops) (by rw [e4]; omega)
  rw [e0, e4] at h2
  rw [e4] at h3
  exact ⟨s1, h1, h2, h3, h4, by rw [h5]; rfl⟩

end gp

namespace gp

/-- Witness for C11: the scenario of the specification, address 0x1000 and length 2. -/
theorem call_display_list_of_nops_witness :
    nop_list_call_state.Fifo_Pop = ReadMode.normal ∧
    (Fifo_NextCommandReady (Env.sample zero_memory 0) nop_list_call_state).1 = true ∧
    GP_OPMASK (FIFO_GET8 nop_list_call_state 0) = 8 ∧
    FIFO_GET32 nop_list_call_state 1 &&& (Env.sample zero_memory 0).RAM_MASK = 0x1000 ∧
    FIFO_GET32 nop_list_call_state 5 = 2 ∧
    ∃ s1, Fifo_DecodeCommand (Env.sample zero_memory 0) 4 nop_list_call_state = some s1 ∧
      s1.events = nop_list_call_state.events ++
        [Event.CALL_DISPLAYLIST
          (FIFO_GET32 nop_list_call_state 1 &&& (Env.sample zero_memory 0).RAM_MASK)
          (FIFO_GET32 nop_list_call_state 5)] ++
        List.replicate (FIFO_GET32 nop_list_call_state 5) Event.NOP ++
        [Event.CALL_DISPLAYLIST_finished] ∧
      s1.g_dl_read_offset = FIFO_GET32 nop_list_call_state 5 ∧
      s1.Fifo_Pop = ReadMode.normal ∧
      s1.g_fifo_read_ptr = nop_list_call_state.g_fifo_read_ptr + 9 :=
  ⟨by decide, by decide, by decide, by decide, by decide,
   call_display_list_of_nops (Env.sample zero_memory 0) 4 nop_list_call_state (by decide)
     (by decide) (by decide) (by decide) (by decide) (by decide) (by decide)⟩

/-- Witness for C19: the opcode byte 0x18 (class 3). -/
theorem malformed_opcode_never_ready_witness :
    FIFO_GET8 unregistered_opcode_state 0 &&& 0x80 = 0 ∧
    GP_OPMASK (FIFO_GET8 unregistered_opcode_state 0) = 3 ∧
    ((Fifo_NextCommandReady (Env.sample zero_memory 0) unregistered_opcode_state).1 = false ∧
     (Fifo_NextCommandReady (Env.sample zero_memory 0)
        unregistered_opcode_state).2.last_required_size =
       unregistered_opcode_state.last_required_size ∧
     GP_OPMASK (FIFO_GET8 unregistered_opcode_state 0) ∈ [3, 10, 11, 13, 14, 15]) :=
  ⟨by decide, by decide,
   malformed_opcode_never_ready (Env.sample zero_memory 0) unregistered_opcode_state (by decide)
     (by decide) (by decide) (by decide) (by decide) (by decide) (by decide) (by decide)
     (by decide) (by decide) (by decide)⟩

/-- Witness for C20: the FIFO holding 12 34 56 78. -/
theorem primary_pops_big_endian_witness :
    word_state.Fifo_Pop = ReadMode.normal ∧
    (Fifo_Pop32 (Env.sample zero_memory 0) word_state).1 = 0x12345678 ∧
    (Fifo_Pop8 (Env.sample zero_memory 0) word_state =
      (buffer_at word_state word_state.g_fifo_read_ptr,
       { word_state with g_fifo_read_ptr := word_state.g_fifo_read_ptr + 1 }) ∧
    Fifo_Pop16 (Env.sample zero_memory 0) word_state =
      (buffer_at word_state word_state.g_fifo_read_ptr * 256 +
         buffer_at word_state (word_state.g_fifo_read_ptr + 1),
       { word_state with g_fifo_read_ptr := word_state.g_fifo_read_ptr + 2 }) ∧
    Fifo_Pop24 (Env.sample zero_memory 0) word_state =
      (buffer_at word_state word_state.g_fifo_read_ptr * 65536 +
         buffer_at word_state (word_state.g_fifo_read_ptr + 1) * 256 +
         buffer_at word_state (word_state.g_fifo_read_ptr + 2),
       { word_state with g_fifo_read_ptr := word_state.g_fifo_read_ptr + 3 }) ∧
    Fifo_Pop32 (Env.sample zero_memory 0) word_state =
      (buffer_at word_state word_state.g_fifo_read_ptr * 16777216 +
         buffer_at word_state (word_state.g_fifo_read_ptr + 1) * 65536 +
         buffer_at word_state (word_state.g_fifo_read_ptr + 2) * 256 +
         buffer_at word_state (word_state.g_fifo_read_ptr + 3),
       { word_state with g_fifo_read_ptr := word_state.g_fifo_read_ptr + 4 })) :=
  ⟨by decide, by decide, primary_pops_big_endian (Env.sample zero_memory 0) word_state (by decide)⟩

/-! ### C17 -/

/-- C17 (the code at the failing input): from `Fifo_Init`, a LOAD_CP_REG opcode and four more
bytes are pushed, the consumer polls (not ready, 6 is cached), `Fifo_Reset` rewinds the cursors,
and one NOP byte is pushed. In this reachable state the cached length is still 6 while the opcode
at the read cursor is a NOP, whose required length is 1. -/
theorem cached_length_survives_reset :
    ∃ s, Reachable (Env.sample zero_memory 0) s ∧
      s.g_fifo_read_ptr < s.g_fifo_write_ptr ∧
      FIFO_GET8 s 0 = 0x00 ∧ section_4_3_length s = some 1 ∧
      s.last_required_size = 6 := by
  have h1 : pushed (Env.sample zero_memory 0) [0x08, 1, 2, 3, 4] =
      some (state_after (Env.sample zero_memory 0) [0x08, 1, 2, 3, 4]) := by decide
  have h2 : Fifo_DecodeCommand (Env.sample zero_memory 0) 1
      (state_after (Env.sample zero_memory 0) [0x08, 1, 2, 3, 4]) =
      some ((Fifo_DecodeCommand (Env.sample zero_memory 0) 1
        (state_after (Env.sample zero_memory 0) [0x08, 1, 2, 3, 4])).getD
          (state_after (Env.sample zero_memory 0) [0x08, 1, 2, 3, 4])) := by decide
  have h3 : push_bytes (Env.sample zero_memory 0)
      (Fifo_Reset (Env.sample zero_memory 0)
        ((Fifo_DecodeCommand (Env.sample zero_memory 0) 1
          (state_after (Env.sample zero_memory 0) [0x08, 1, 2, 3, 4])).getD
            (state_after (Env.sample zero_memory 0) [0x08, 1, 2, 3, 4]))) [0x00] =
      some (stale_cache_state [0x00]) := by decide
  exact ⟨stale_cache_state [0x00],
    reachable_push_bytes _ _ _ _
      (Reachable.reset (Reachable.decode 1 (reachable_push_bytes _ _ _ _ Reachable.init h1) h2))
      h3,
    by decide, by decide, by decide, by decide⟩

end gp

namespace fifo_player

/-! ### C12 -/

/-- C12 (the code at the failing input): a recording is started, `Write` logs a one-byte command
and `MemUpdate` logs a 3-byte payload. The session is a recording session, its elements are
(offset 0, size 1) and (offset 1, size 5), its raw log holds 4 bytes: the last element ends at
byte 6, beyond the raw log, so the ranges are not ordered. A further one-byte `Write` appends the
element (offset 4, size 1), which the second element overlaps. -/
theorem mem_update_breaks_element_ranges :
    MemUpdate gp.sample_defs one_command_session 0x10 [1, 2, 3] = some mem_update_session ∧
    Recording gp.sample_defs mem_update_session ∧
    mem_update_session.element_info.map (fun e => (e.offset, e.size)) = [(0, 1), (1, 5)] ∧
    mem_update_session.raw_data.length = 4 ∧
    ranges_ordered mem_update_session.element_info mem_update_session.raw_data.length = false ∧
    Recording gp.sample_defs (Write mem_update_session [0x00]) ∧
    (Write mem_update_session [0x00]).element_info.map (fun e => (e.offset, e.size)) =
      [(0, 1), (1, 5), (4, 1)] ∧
    ranges_ordered (Write mem_update_session [0x00]).element_info
      (Write mem_update_session [0x00]).raw_data.length = false :=
  have hrec : Recording gp.sample_defs mem_update_session :=
    Recording.mem_update 0x10 [1, 2, 3]
      (Recording.write [0x00] (Recording.start Recorder.startup)) (by decide)
  ⟨by decide, hrec, by decide, by decide, by decide, Recording.write _ hrec, by decide,
   by decide⟩

end fifo_player

namespace gp

/-! ### C18 -/

/-- C18 (counterexample): the opcode byte 0x18 has class 3, whose table entry is the unknown
handler, and six bytes are available; `Fifo_NextCommandReady` reports not-ready and
`Fifo_DecodeCommand` returns without moving the read cursor. -/
theorem unknown_opcode_not_dropped :
    unregistered_opcode_state.Fifo_Pop = ReadMode.normal ∧
    unregistered_opcode_state.g_fifo_write_ptr - unregistered_opcode_state.g_fifo_read_ptr = 6 ∧
    g_exec_op (GP_OPMASK (FIFO_GET8 unregistered_opcode_state 0)) = GPFunc.UNKNOWN ∧
    (Fifo_NextCommandReady (Env.sample zero_memory 0) unregistered_opcode_state).1 = false ∧
    (Fifo_DecodeCommand (Env.sample zero_memory 0) 1 unregistered_opcode_state).map
      (fun s1 => s1.g_fifo_read_ptr) = some unregistered_opcode_state.g_fifo_read_ptr ∧
    (Fifo_DecodeCommand (Env.sample zero_memory 0) 1 unregistered_opcode_state).map
      (fun s1 => s1.events) = some unregistered_opcode_state.events := by
  decide

/-- C18 (amended): in primary-buffer mode, when `Fifo_NextCommandReady` reports a command ready
and the class of the opcode at the read cursor has the unknown handler as its table entry,
`Fifo_DecodeCommand` returns, the unknown-opcode assertion is logged and the primary read cursor
has advanced by exactly 1. -/
theorem unknown_opcode_dropped_when_ready (env : Env) (fuel : Nat) (s : State)
    (hmode : s.Fifo_Pop = ReadMode.normal)
    (hle : s.g_fifo_read_ptr ≤ s.g_fifo_write_ptr)
    (hsmall : s.g_fifo_write_ptr - s.g_fifo_read_ptr < 2 ^ 31)
    (hready : (Fifo_NextCommandReady env s).1 = true)
    (hunknown : g_exec_op (GP_OPMASK (FIFO_GET8 s 0)) = GPFunc.UNKNOWN) :
    ∃ s1, Fifo_DecodeCommand env (fuel + 1) s = some s1 ∧
      s1.g_fifo_read_ptr = s.g_fifo_read_ptr + 1 ∧
      s1.events = s.events ++ [Event.assert_fifo_corrupted] := by
  rw [decode_ready_eq env (fuel + 1) s hmode hle hsmall hready, hunknown]
  exact ⟨_, rfl, rfl, rfl⟩

/-- Witness for C18 (amended): the bytes 88 00 00, a draw-style opcode of the unregistered class
0x11 with a vertex count of 0. -/
theorem unknown_opcode_dropped_when_ready_witness :
    unregistered_draw_state.Fifo_Pop = ReadMode.normal ∧
    (Fifo_NextCommandReady (Env.sample zero_memory 0) unregistered_draw_state).1 = true ∧
    g_exec_op (GP_OPMASK (FIFO_GET8 unregistered_draw_state 0)) = GPFunc.UNKNOWN ∧
    ∃ s1, Fifo_DecodeCommand (Env.sample zero_memory 0) (0 + 1) unregistered_draw_state =
        some s1 ∧
      s1.g_fifo_read_ptr = unregistered_draw_state.g_fifo_read_ptr + 1 ∧
      s1.events = unregistered_draw_state.events ++ [Event.assert_fifo_corrupted] :=
  ⟨by decide, by decide, by decide,
   unknown_opcode_dropped_when_ready (Env.sample zero_memory 0) 0 unregistered_draw_state
     (by decide) (by decide) (by decide) (by decide) (by decide)⟩

end gp

namespace fifo_player

/-! ### C13, C14 : frames of a recording session -/

theorem get_at_append_length {α : Type} (l : List α) (x : α) (rest : List α) :
    (l ++ x :: rest).get? l.length = some x := by
  induction l with
  | nil => rfl
  | cons a l ih => exact ih

theorem tiles_append (fs gs : List FPFrameInfo) :
    ∀ a b, tiles a (fs ++ gs) b ↔ ∃ m, tiles a fs m ∧ tiles m gs b := by
  induction fs with
  | nil =>
    intro a b
    constructor
    · intro h; exact ⟨a, rfl, h⟩
    · rintro ⟨m, h1, h2⟩
      have h3 : a = m := h1
      rw [h3]; exact h2
  | cons f fs ih =>
    intro a b
    constructor
    · rintro ⟨h1, h2⟩
      obtain ⟨m, h3, h4⟩ := (ih _ _).1 h2
      exact ⟨m, ⟨h1, h3⟩, h4⟩
    · rintro ⟨m, ⟨h1, h3⟩, h4⟩
      exact ⟨h1, (ih _ _).2 ⟨m, h3, h4⟩⟩

theorem tiles_sum (fs : List FPFrameInfo) :
    ∀ a b, tiles a fs b → a + (fs.map (fun f => f.num_elements)).sum = b := by
  induction fs with
  | nil => intro a b h; exact h
  | cons f fs ih =>
    rintro a b ⟨h1, h2⟩
    have h3 := ih _ _ h2
    simp only [List.map_cons, List.sum_cons]
    omega

theorem tiles_le (fs : List FPFrameInfo) (a b : Nat) (h : tiles a fs b) : a ≤ b := by
  have := tiles_sum fs a b h
  omega

theorem tiles_all_empty (fs : List FPFrameInfo) :
    ∀ a b, tiles a fs b → (∀ f ∈ fs, f.base_element = b) → ∀ f ∈ fs, f.num_elements = 0 := by
  induction fs with
  | nil => intro a b _ _ f hf; cases hf
  | cons g gs ih =>
    rintro a b ⟨h1, h2⟩ hall f hf
    have hg : g.base_element = b := hall g (List.mem_cons_self _ _)
    have hle := tiles_le _ _ _ h2
    rcases List.mem_cons.1 hf with h | h
    · rw [h]; omega
    · exact ih _ _ h2 (fun x hx => hall x (List.mem_cons_of_mem _ hx)) f h

theorem tiles_partition (fs : List FPFrameInfo) :
    ∀ a c, tiles a fs c.base_element →
      ((fs ++ [c]).getD 0 zero_frame).base_element = a ∧
      ∀ i, i + 1 < (fs ++ [c]).length →
        ((fs ++ [c]).getD i zero_frame).base_element +
          ((fs ++ [c]).getD i zero_frame).num_elements =
        ((fs ++ [c]).getD (i + 1) zero_frame).base_element := by
  induction fs with
  | nil =>
    intro a c h
    have h1 : a = c.base_element := h
    refine ⟨h1.symm, ?_⟩
    intro i hi
    simp at hi
  | cons f fs ih =>
    rintro a c ⟨h1, h2⟩
    obtain ⟨h3, h4⟩ := ih _ c h2
    refine ⟨h1, ?_⟩
    intro i hi
    cases i with
    | zero => exact h3.symm
    | succ j =>
      have hj : j + 1 < (fs ++ [c]).length := by
        simp only [List.cons_append, List.length_cons] at hi
        omega
      exact h4 j hj

theorem trim_frames_spec (n : Nat) (rev : List FPFrameInfo) :
    (∃ f ∈ rev, f.base_element ≠ n) →
    ∃ removed p kept, rev = removed ++ p :: kept ∧ (∀ f ∈ removed, f.base_element = n) ∧
      p.base_element ≠ n ∧ trim_frames n rev = some (p :: kept) := by
  induction rev with
  | nil => rintro ⟨f, hf, _⟩; cases hf
  | cons g gs ih =>
    rintro ⟨f, hf, hne⟩
    by_cases hg : g.base_element = n
    · have hfg : f ∈ gs := by
        rcases List.mem_cons.1 hf with h | h
        · rw [h] at hne; exact absurd hg hne
        · exact h
      obtain ⟨removed, p, kept, h1, h2, h3, h4⟩ := ih ⟨f, hfg, hne⟩
      refine ⟨g :: removed, p, kept, by rw [h1]; rfl, ?_, h3, ?_⟩
      · intro x hx
        rcases List.mem_cons.1 hx with h | h
        · rw [h]; exact hg
        · exact h2 x h
      · unfold trim_frames
        rw [if_pos hg]; exact h4
    · refine ⟨[], g, gs, rfl, ?_, hg, ?_⟩
      · intro x hx; cases hx
      · unfold trim_frames
        rw [if_neg hg]

/-- The function `FrameFinished` on a session whose frame list ends with the current frame. -/
theorem FrameFinished_spec (r : Recorder) (init : List FPFrameInfo) (cur : FPFrameInfo)
    (hframes : r.frame_info = init ++ [cur])
    (hcur : r.current_frame_info = some init.length)
    (hbase : cur.base_element ≤ r.element_info.length)
    (hlt : r.element_info.length < 2 ^ 32) :
    FrameFinished r = some { r with
      frame_info := init ++ [{ cur with
        num_elements := r.element_info.length - cur.base_element }] ++
        [{ base_element := r.element_info.length, num_elements := 0 }],
      current_frame_info := some (init.length + 1) } := by
  have hget : r.frame_info.get? init.length = some cur := by
    rw [hframes]; simp
  have hnum : (r.element_info.length + 2 ^ 32 - cur.base_element % 2 ^ 32) % 2 ^ 32 =
      r.element_info.length - cur.base_element := by
    omega
  have hset : ∀ x : FPFrameInfo, (init ++ [cur]).set init.length x = init ++ [x] := by
    intro x; simp
  unfold FrameFinished
  rw [hcur]
  dsimp only
  rw [hget]
  dsimp only
  rw [hnum, hframes, hset]
  simp

/-- Invariant of a recording session: the frame list is a run of closed frames that tile the
elements from 0, followed by the current frame, which starts where they end. -/
theorem recording_invariant (d : Defs) (r : Recorder) (h : Recording d r) :
    r.element_info.length < 2 ^ 32 →
    ∃ init cur, r.frame_info = init ++ [cur] ∧ tiles 0 init cur.base_element ∧
      cur.base_element ≤ r.element_info.length ∧ r.current_frame_info = some init.length ∧
      r.is_recording = true := by
  induction h with
  | start r0 =>
    intro _
    exact ⟨[], { base_element := 0, num_elements := 0 }, rfl, rfl, Nat.zero_le _, rfl, rfl⟩
  | @write r bytes _ ih =>
    intro hlt
    have hlen : (Write r bytes).element_info.length = r.element_info.length + 1 := by
      simp [Write]
    obtain ⟨init, cur, h1, h2, h3, h4, h5⟩ := ih (by omega)
    exact ⟨init, cur, h1, h2, by omega, h4, h5⟩
  | @mem_update r r1 address data _ hmu ih =>
    intro hlt
    obtain ⟨_, hr1⟩ := MemUpdate_some d r r1 address data hmu
    subst hr1
    have hlen : ∀ e : FPElementInfo, (r.element_info ++ [e]).length =
        r.element_info.length + 1 := by
      intro e; simp
    have hlt' : (r.element_info ++ [_]).length < 2 ^ 32 := hlt
    rw [hlen] at hlt'
    obtain ⟨init, cur, h1, h2, h3, h4, h5⟩ := ih (by omega)
    refine ⟨init, cur, h1, h2, ?_, h4, h5⟩
    show cur.base_element ≤ (r.element_info ++ [_]).length
    rw [hlen]; omega
  | @frame_finished r r1 _ hff ih =>
    intro hlt
    by_cases hr : r.element_info.length < 2 ^ 32
    · obtain ⟨init, cur, h1, h2, h3, h4, h5⟩ := ih hr
      rw [FrameFinished_spec r init cur h1 h4 h3 hr] at hff
      have hr1 := Option.some.inj hff
      subst hr1
      refine ⟨init ++ [{ cur with num_elements := r.element_info.length - cur.base_element }],
        { base_element := r.element_info.length, num_elements := 0 }, rfl, ?_, Nat.le_refl _,
        ?_, h5⟩
      · refine (tiles_append _ _ _ _).2 ⟨cur.base_element, h2, rfl, ?_⟩
        show cur.base_element + (r.element_info.length - cur.base_element) =
          r.element_info.length
        omega
      · show some (init.length + 1) = some (init ++ [_]).length
        simp
    · exfalso
      apply hr
      have hsame : r1.element_info = r.element_info := by
        unfold FrameFinished at hff
        split at hff
        · cases hff
        · have := Option.some.inj hff
          subst this
          rfl
      rw [← hsame]; exact hlt

/-- C13: in a recording session (with fewer than 2^32 elements) `FrameFinished` returns; the
previously current frame then has `num_elements` = element count - its `base_element`, the frame
list is one longer, the new last frame is the current frame and has `base_element` = element
count; and the frames partition the elements in order, before and after the call. -/
theorem frame_finished_closes_and_opens (d : Defs) (r : Recorder) (hrec : Recording d r)
    (hlt : r.element_info.length < 2 ^ 32) :
    ∃ i cur r1, r.current_frame_info = some i ∧ r.frame_info.get? i = some cur ∧
      FrameFinished r = some r1 ∧
      r1.frame_info.length = r.frame_info.length + 1 ∧
      cur.base_element ≤ r.element_info.length ∧
      r1.frame_info.get? i = some { cur with
        num_elements := r.element_info.length - cur.base_element } ∧
      r1.current_frame_info = some r.frame_info.length ∧
      r1.frame_info.get? r.frame_info.length =
        some { base_element := r.element_info.length, num_elements := 0 } ∧
      r1.element_info = r.element_info ∧
      frames_partition r.frame_info ∧ frames_partition r1.frame_info := by
  obtain ⟨init, cur, h1, h2, h3, h4, _⟩ := recording_invariant d r hrec hlt
  have hff := FrameFinished_spec r init cur h1 h4 h3 hlt
  have hrec1 : Recording d _ := Recording.frame_finished hrec hff
  obtain ⟨init1, cur1, g1, g2, _, _, _⟩ := recording_invariant d _ hrec1 hlt
  refine ⟨init.length, cur, _, h4, by rw [h1]; simp, hff, ?_, h3, ?_, ?_, ?_, rfl, ?_, ?_⟩
  · rw [h1]; simp
  · show (init ++ [_] ++ [_]).get? init.length = _
    rw [List.append_assoc]
    exact get_at_append_length _ _ _
  · show some (init.length + 1) = _
    rw [h1]; simp
  · show (init ++ [_] ++ [_]).get? r.frame_info.length = _
    have hlen : r.frame_info.length =
        (init ++ [{ cur with
          num_elements := r.element_info.length - cur.base_element }]).length := by
      rw [h1]; simp
    rw [hlen]
    exact get_at_append_length _ _ _
  · rw [h1]
    exact tiles_partition init 0 cur h2
  · rw [g1]
    exact tiles_partition init1 0 cur1 g2

/-- Witness for C13: a session with one recorded command. -/
theorem frame_finished_closes_and_opens_witness :
    one_command_session.element_info.length < 2 ^ 32 ∧
    ∃ i cur r1, one_command_session.current_frame_info = some i ∧
      one_command_session.frame_info.get? i = some cur ∧
      FrameFinished one_command_session = some r1 ∧
      r1.frame_info.length = one_command_session.frame_info.length + 1 ∧
      cur.base_element ≤ one_command_session.element_info.length ∧
      r1.frame_info.get? i = some { cur with
        num_elements := one_command_session.element_info.length - cur.base_element } ∧
      r1.current_frame_info = some one_command_session.frame_info.length ∧
      r1.frame_info.get? one_command_session.frame_info.length =
        some { base_element := one_command_session.element_info.length, num_elements := 0 } ∧
      r1.element_info = one_command_session.element_info ∧
      frames_partition one_command_session.frame_info ∧ frames_partition r1.frame_info :=
  ⟨by decide,
   frame_finished_closes_and_opens gp.sample_defs one_command_session
     (Recording.write _ (Recording.start _)) (by decide)⟩

/-- C14: for a recording session holding at least one element (and fewer than 2^32),
`EndRecording` returns; the resulting frame list is a prefix of the frame list left by
`FrameFinished`, every removed frame has zero elements, the last remaining frame has
`num_elements > 0`, the `num_elements` of the remaining frames sum to the element count, the
elements are untouched and `IsRecording()` is false. -/
theorem end_recording_trims_empty_frames (d : Defs) (r : Recorder) (hrec : Recording d r)
    (hpos : 0 < r.element_info.length) (hlt : r.element_info.length < 2 ^ 32) :
    ∃ r1 r2 removed last, FrameFinished r = some r1 ∧ EndRecording d r = some r2 ∧
      r1.frame_info = r2.frame_info ++ removed ∧
      (∀ f ∈ removed, f.num_elements = 0) ∧
      r2.frame_info.getLast? = some last ∧ 0 < last.num_elements ∧
      (r2.frame_info.map (fun f => f.num_elements)).sum = r2.element_info.length ∧
      r2.element_info = r.element_info ∧
      IsRecording r2 = false := by
  obtain ⟨init, cur, h1, h2, h3, h4, _⟩ := recording_invariant d r hrec hlt
  have hff := FrameFinished_spec r init cur h1 h4 h3 hlt
  have hrec1 : Recording d _ := Recording.frame_finished hrec hff
  obtain ⟨init1, cur1, g1, g2, g3, _, _⟩ := recording_invariant d _ hrec1 hlt
  -- the frame list after `FrameFinished`, with the frame just opened
  have g1' : init ++ [{ cur with
      num_elements := r.element_info.length - cur.base_element }] ++
      [{ base_element := r.element_info.length, num_elements := 0 }] = init1 ++ [cur1] := g1
  have hcur1 : cur1 = { base_element := r.element_info.length, num_elements := 0 } := by
    have h := (List.append_inj' g1' rfl).2
    exact (List.cons.inj h).1.symm
  have htiles : tiles 0 (init1 ++ [cur1]) r.element_info.length := by
    refine (tiles_append _ _ _ _).2 ⟨cur1.base_element, g2, rfl, ?_⟩
    rw [hcur1]; rfl
  -- the first frame starts at element 0, which is not the element count
  have hex : ∃ f ∈ (init1 ++ [cur1]).reverse, f.base_element ≠ r.element_info.length := by
    have hp := (tiles_partition init1 0 cur1 g2).1
    cases hl : init1 ++ [cur1] with
    | nil => simp at hl
    | cons f fs =>
      rw [hl] at hp
      refine ⟨f, by simp, ?_⟩
      have hf : f.base_element = 0 := hp
      omega
  obtain ⟨rem, p, kept, e1, e2, e3, e4⟩ := trim_frames_spec _ _ hex
  have hsplit : init1 ++ [cur1] = (kept.reverse ++ [p]) ++ rem.reverse := by
    have := congrArg List.reverse e1
    simpa using this
  rw [hsplit] at htiles
  obtain ⟨m, t1, t2⟩ := (tiles_append _ _ _ _).1 htiles
  have hrem : ∀ f ∈ rem.reverse, f.base_element = r.element_info.length :=
    fun f hf => e2 f (List.mem_reverse.1 hf)
  have hm : m = r.element_info.length := by
    cases hr : rem.reverse with
    | nil => rw [hr] at t2; exact t2
    | cons f fs =>
      rw [hr] at t2 hrem
      rw [← t2.1]
      exact hrem f (List.mem_cons_self _ _)
  rw [hm] at t1 t2
  obtain ⟨m1, t3, t4, t5⟩ := (tiles_append _ _ _ _).1 t1
  have t6 : p.base_element + p.num_elements = r.element_info.length := t5
  obtain ⟨r2, hend, hfr, hel, hoff⟩ : ∃ r2, EndRecording d r = some r2 ∧
      r2.frame_info = (p :: kept).reverse ∧ r2.element_info = r.element_info ∧
      r2.is_recording = false := by
    unfold EndRecording
    rw [hff]
    dsimp only
    rw [g1', e4]
    exact ⟨_, rfl, rfl, rfl, rfl⟩
  refine ⟨_, r2, rem.reverse, p, hff, hend, ?_, tiles_all_empty _ _ _ t2 hrem, ?_, by omega, ?_,
    hel, hoff⟩
  · rw [hfr, List.reverse_cons]
    exact g1.trans hsplit
  · rw [hfr]
    simp
  · rw [hfr, hel, List.reverse_cons]
    have := tiles_sum _ _ _ t1
    omega

/-- Witness for C14: a session with one recorded command. -/
theorem end_recording_trims_empty_frames_witness :
    0 < one_command_session.element_info.length ∧
    one_command_session.element_info.length < 2 ^ 32 ∧
    ∃ r1 r2 removed last, FrameFinished one_command_session = some r1 ∧
      EndRecording gp.sample_defs one_command_session = some r2 ∧
      r1.frame_info = r2.frame_info ++ removed ∧
      (∀ f ∈ removed, f.num_elements = 0) ∧
      r2.frame_info.getLast? = some last ∧ 0 < last.num_elements ∧
      (r2.frame_info.map (fun f => f.num_elements)).sum = r2.element_info.length ∧
      r2.element_info = one_command_session.element_info ∧
      IsRecording r2 = false :=
  ⟨by decide, by decide,
   end_recording_trims_empty_frames gp.sample_defs one_command_session
     (Recording.write _ (Recording.start _)) (by decide) (by decide)⟩

end fifo_player

namespace fifo_player

/-! ### C15, C16 : `Load` -/

theorem fread_full (dest : List Nat) (size : Nat) (stream : List Nat) (hpos : 0 < size)
    (hlen : size ≤ stream.length) :
    fread dest size stream = (stream.take size ++ dest.drop size, 1, stream.drop size) := by
  unfold fread
  rw [if_neg (by omega), if_pos hlen]

theorem fread_short (dest : List Nat) (size : Nat) (stream : List Nat)
    (hlen : stream.length < size) :
    (fread dest size stream).2.1 = 0 := by
  unfold fread
  rw [if_neg (by omega), if_neg (by omega)]

theorem length_encode_header (h : FPFileHeader) : (encode_header h).length = 32 := rfl

theorem length_resize {α : Type} (v : List α) (n : Nat) (zero : α) :
    (resize v n zero).length = n := by
  unfold resize
  rw [List.length_append, List.length_take, List.length_replicate]
  omega

theorem length_frames_of_memory (n : Nat) (mem : List Nat) :
    (frames_of_memory n mem).length = n := by
  unfold frames_of_memory
  rw [List.length_map, List.length_range]

/-- The header read of `Load` on a file that holds at least a header. -/
theorem fread_header (d : Defs) (stream : List Nat) (h : FPFileHeader)
    (hsize : d.sizeof_FPFileHeader = 32) (hlen : 32 ≤ stream.length) :
    fread (encode_header h) d.sizeof_FPFileHeader stream =
      (stream.take 32, 1, stream.drop 32) := by
  rw [hsize, fread_full _ _ _ (by decide) hlen]
  have h0 : (encode_header h).drop 32 = [] :=
    List.drop_eq_nil_of_le (Nat.le_of_eq (length_encode_header h))
  rw [h0, List.append_nil]

/-- C15 (counterexample): the file holds a header whose magic number is 0xDEAD; after `Load` the
header of the output session is no longer the header it had before the call. -/
theorem load_bad_magic_overwrites_header :
    (decode_header (bad_magic_stream.take 32)).magic_num ≠
      gp.sample_defs.FIFO_PLAYER_MAGIC_NUM ∧
    (Load gp.sample_defs bad_magic_stream loaded_session).file_header ≠
      loaded_session.file_header ∧
    (Load gp.sample_defs bad_magic_stream loaded_session).file_header.magic_num = 0xDEAD := by
  decide

/-- C15 (amended): for a file that holds a header (32 bytes) whose magic number differs from
`FIFO_PLAYER_MAGIC_NUM` or whose version differs from `FIFO_PLAYER_VERSION`, `Load` returns with
the frame list, the element list and the raw data of the output session as they were before the
call, and with the header of the output session overwritten by the header of the file. -/
theorem load_bad_header_keeps_arrays (d : Defs) (stream : List Nat) (out : FPFile)
    (hsize : d.sizeof_FPFileHeader = 32) (hlen : 32 ≤ stream.length)
    (hbad : (decode_header (stream.take 32)).magic_num ≠ d.FIFO_PLAYER_MAGIC_NUM ∨
      (decode_header (stream.take 32)).version ≠ d.FIFO_PLAYER_VERSION) :
    Load d stream out = { out with file_header := decode_header (stream.take 32) } := by
  unfold Load
  rw [fread_header d stream _ hsize hlen]
  dsimp only
  rw [if_neg (by simp)]
  by_cases hm : (decode_header (stream.take 32)).magic_num ≠ d.FIFO_PLAYER_MAGIC_NUM
  · rw [if_pos hm]
  · rw [if_neg hm]
    rcases hbad with h | h
    · exact absurd h hm
    · rw [if_pos h]

/-- Witness for C15 (amended): the file with the magic number 0xDEAD. -/
theorem load_bad_header_keeps_arrays_witness :
    (decode_header (bad_magic_stream.take 32)).magic_num ≠
      gp.sample_defs.FIFO_PLAYER_MAGIC_NUM ∧
    Load gp.sample_defs bad_magic_stream loaded_session =
      { loaded_session with file_header := decode_header (bad_magic_stream.take 32) } :=
  ⟨by decide,
   load_bad_header_keeps_arrays gp.sample_defs bad_magic_stream loaded_session (by decide)
     (by decide) (Or.inl (by decide))⟩

/-- C16 (counterexample): the file has a valid header that declares 3 frames and holds 2 frame
records; `Load` into an empty session leaves a frame list of 3 entries, the first two taken from
the file. -/
theorem load_short_frames_populates_frames :
    (decode_header (short_frames_stream.take 32)).magic_num =
      gp.sample_defs.FIFO_PLAYER_MAGIC_NUM ∧
    (decode_header (short_frames_stream.take 32)).version =
      gp.sample_defs.FIFO_PLAYER_VERSION ∧
    (decode_header (short_frames_stream.take 32)).num_frames = 3 ∧
    (short_frames_stream.drop 32).length = 2 * gp.sample_defs.sizeof_FPFrameInfo ∧
    empty_session.frame_info = [] ∧
    (Load gp.sample_defs short_frames_stream empty_session).frame_info.length = 3 ∧
    (Load gp.sample_defs short_frames_stream empty_session).frame_info =
      [{ base_element := 0, num_elements := 1 }, { base_element := 1, num_elements := 1 },
       { base_element := 0, num_elements := 0 }] := by
  decide

/-- C16 (amended): for a file with a valid header whose frame-info section holds fewer bytes than
the declared frame count needs, `Load` returns with the element list and the raw data of the
output session as they were before the call, the header overwritten by the header of the file,
and the frame list resized to the declared frame count. -/
theorem load_short_frames_keeps_elements (d : Defs) (stream : List Nat) (out : FPFile)
    (hsize : d.sizeof_FPFileHeader = 32) (hlen : 32 ≤ stream.length)
    (hmagic : (decode_header (stream.take 32)).magic_num = d.FIFO_PLAYER_MAGIC_NUM)
    (hversion : (decode_header (stream.take 32)).version = d.FIFO_PLAYER_VERSION)
    (hshort : (stream.drop 32).length <
      (decode_header (stream.take 32)).num_frames * d.sizeof_FPFrameInfo) :
    (Load d stream out).element_info = out.element_info ∧
    (Load d stream out).raw_data = out.raw_data ∧
    (Load d stream out).file_header = decode_header (stream.take 32) ∧
    (Load d stream out).frame_info.length = (decode_header (stream.take 32)).num_frames := by
  have hr := fread_short
    (frames_memory (resize out.frame_info (decode_header (stream.take 32)).num_frames zero_frame))
    _ _ hshort
  unfold Load
  rw [fread_header d stream _ hsize hlen]
  dsimp only
  rw [if_neg (by simp), if_neg (by simp [hmagic]), if_neg (by simp [hversion]), if_pos (by rw [hr]; decide)]
  exact ⟨rfl, rfl, rfl, by
    show (frames_of_memory _ _).length = _
    rw [length_frames_of_memory, length_resize]⟩

/-- Witness for C16 (amended): the file that declares 3 frames and holds 2. -/
theorem load_short_frames_keeps_elements_witness :
    (short_frames_stream.drop 32).length <
      (decode_header (short_frames_stream.take 32)).num_frames *
        gp.sample_defs.sizeof_FPFrameInfo ∧
    ((Load gp.sample_defs short_frames_stream loaded_session).element_info =
      loaded_session.element_info ∧
    (Load gp.sample_defs short_frames_stream loaded_session).raw_data =
      loaded_session.raw_data ∧
    (Load gp.sample_defs short_frames_stream loaded_session).file_header =
      decode_header (short_frames_stream.take 32) ∧
    (Load gp.sample_defs short_frames_stream loaded_session).frame_info.length =
      (decode_header (short_frames_stream.take 32)).num_frames) :=
  ⟨by decide,
   load_short_frames_keeps_elements gp.sample_defs short_frames_stream loaded_session
     (by decide) (by decide) (by decide) (by decide) (by decide)⟩

end fifo_player

namespace gp

/-! ### C21 -/

theorem Fifo_Pop8_displaylists (env : Env) (s : State) (hmode : s.Fifo_Pop = ReadMode.displaylists) :
    Fifo_Pop8 env s = __displaylist_pop_8 env s := by
  unfold Fifo_Pop8; rw [hmode]

theorem Fifo_Pop16_displaylists (env : Env) (s : State)
    (hmode : s.Fifo_Pop = ReadMode.displaylists) :
    Fifo_Pop16 env s = __displaylist_pop_16 env s := by
  unfold Fifo_Pop16; rw [hmode]

theorem Fifo_Pop24_displaylists (env : Env) (s : State)
    (hmode : s.Fifo_Pop = ReadMode.displaylists) :
    Fifo_Pop24 env s = __displaylist_pop_24 env s := by
  unfold Fifo_Pop24; rw [hmode]

theorem Fifo_Pop32_displaylists (env : Env) (s : State)
    (hmode : s.Fifo_Pop = ReadMode.displaylists) :
    Fifo_Pop32 env s = __displaylist_pop_32 env s := by
  unfold Fifo_Pop32; rw [hmode]

theorem dl_byte_shift (env : Env) (s : State) (j k : Nat) :
    dl_byte env { s with g_dl_read_offset := (s.g_dl_read_offset + j) % 2 ^ 32 } k =
      dl_byte env s (j + k) := by
  unfold dl_byte
  dsimp only
  congr 3
  omega

theorem dl_byte_lt (env : Env) (s : State) (k : Nat) : dl_byte env s k < 256 :=
  Nat.mod_lt _ (by decide)

/-- C21: in display-list mode the 8-bit pop returns the byte
`Mem_RAM[(g_dl_read_addr + g_dl_read_offset) ^ 3]` (u32 address arithmetic) and advances the
nested offset by 1; the 16-, 24- and 32-bit pops return the big-endian number of the bytes that
2, 3 and 4 successive 8-bit pops return and leave the state those pops leave, which is the old
state with the nested offset advanced by 2, 3 and 4 (a u32, so modulo 2^32): the primary read
cursor and everything else are unchanged. -/
theorem display_list_pops_big_endian (env : Env) (s : State)
    (hmode : s.Fifo_Pop = ReadMode.displaylists) :
    Fifo_Pop8 env s =
      (env.Mem_RAM (((s.g_dl_read_addr + s.g_dl_read_offset) % 2 ^ 32) ^^^ 3) % 256,
       { s with g_dl_read_offset := (s.g_dl_read_offset + 1) % 2 ^ 32 }) ∧
    Fifo_Pop16 env s = (big_endian (pops8 env 2 s).1, (pops8 env 2 s).2) ∧
    Fifo_Pop24 env s = (big_endian (pops8 env 3 s).1, (pops8 env 3 s).2) ∧
    Fifo_Pop32 env s = (big_endian (pops8 env 4 s).1, (pops8 env 4 s).2) ∧
    (Fifo_Pop16 env s).2 = { s with g_dl_read_offset := (s.g_dl_read_offset + 2) % 2 ^ 32 } ∧
    (Fifo_Pop24 env s).2 = { s with g_dl_read_offset := (s.g_dl_read_offset + 3) % 2 ^ 32 } ∧
    (Fifo_Pop32 env s).2 = { s with g_dl_read_offset := (s.g_dl_read_offset + 4) % 2 ^ 32 } := by
  have e1 : ∀ st : State, st.Fifo_Pop = ReadMode.displaylists →
      Fifo_Pop8 env st = (dl_byte env st 0,
        { st with g_dl_read_offset := (st.g_dl_read_offset + 1) % 2 ^ 32 }) :=
    fun st h => Fifo_Pop8_displaylists env st h
  have o2 : ((s.g_dl_read_offset + 1) % 2 ^ 32 + 1) % 2 ^ 32 =
      (s.g_dl_read_offset + 2) % 2 ^ 32 := by omega
  have o3 : ((s.g_dl_read_offset + 2) % 2 ^ 32 + 1) % 2 ^ 32 =
      (s.g_dl_read_offset + 3) % 2 ^ 32 := by omega
  have o4 : ((s.g_dl_read_offset + 3) % 2 ^ 32 + 1) % 2 ^ 32 =
      (s.g_dl_read_offset + 4) % 2 ^ 32 := by omega
  have p1 : pops8 env 1 s = ([dl_byte env s 0],
      { s with g_dl_read_offset := (s.g_dl_read_offset + 1) % 2 ^ 32 }) := by
    simp only [pops8, e1 s hmode]
  have p2 : pops8 env 2 s = ([dl_byte env s 0, dl_byte env s 1],
      { s with g_dl_read_offset := (s.g_dl_read_offset + 2) % 2 ^ 32 }) := by
    simp only [pops8, e1 s hmode, e1 _ (show ({ s with
      g_dl_read_offset := (s.g_dl_read_offset + 1) % 2 ^ 32 } : State).Fifo_Pop =
        ReadMode.displaylists from hmode), dl_byte_shift, o2]
  have p3 : pops8 env 3 s = ([dl_byte env s 0, dl_byte env s 1, dl_byte env s 2],
      { s with g_dl_read_offset := (s.g_dl_read_offset + 3) % 2 ^ 32 }) := by
    simp only [pops8, e1 s hmode, e1 _ (show ({ s with
      g_dl_read_offset := (s.g_dl_read_offset + 1) % 2 ^ 32 } : State).Fifo_Pop =
        ReadMode.displaylists from hmode), e1 _ (show ({ s with
      g_dl_read_offset := (s.g_dl_read_offset + 2) % 2 ^ 32 } : State).Fifo_Pop =
        ReadMode.displaylists from hmode), dl_byte_shift, o2, o3]
  have p4 : pops8 env 4 s =
      ([dl_byte env s 0, dl_byte env s 1, dl_byte env s 2, dl_byte env s 3],
      { s with g_dl_read_offset := (s.g_dl_read_offset + 4) % 2 ^ 32 }) := by
    simp only [pops8, e1 s hmode, e1 _ (show ({ s with
      g_dl_read_offset := (s.g_dl_read_offset + 1) % 2 ^ 32 } : State).Fifo_Pop =
        ReadMode.displaylists from hmode), e1 _ (show ({ s with
      g_dl_read_offset := (s.g_dl_read_offset + 2) % 2 ^ 32 } : State).Fifo_Pop =
        ReadMode.displaylists from hmode), e1 _ (show ({ s with
      g_dl_read_offset := (s.g_dl_read_offset + 3) % 2 ^ 32 } : State).Fifo_Pop =
        ReadMode.displaylists from hmode), dl_byte_shift, o2, o3, o4]
  have q16 : Fifo_Pop16 env s = (dl_byte env s 0 * 256 + dl_byte env s 1,
      { s with g_dl_read_offset := (s.g_dl_read_offset + 2) % 2 ^ 32 }) := by
    rw [Fifo_Pop16_displaylists env s hmode]
    show ((dl_byte env s 0 <<< 8) ||| dl_byte env s 1, _) = _
    rw [be16_eq _ _ (dl_byte_lt _ _ _)]
  have q24 : Fifo_Pop24 env s =
      (dl_byte env s 0 * 65536 + dl_byte env s 1 * 256 + dl_byte env s 2,
      { s with g_dl_read_offset := (s.g_dl_read_offset + 3) % 2 ^ 32 }) := by
    rw [Fifo_Pop24_displaylists env s hmode]
    show ((dl_byte env s 0 <<< 16) ||| (dl_byte env _ 0 <<< 8) ||| dl_byte env _ 0, _) = _
    simp only [dl_byte_shift, o2, o3]
    rw [be24_eq _ _ _ (dl_byte_lt _ _ _) (dl_byte_lt _ _ _)]
  have q32 : Fifo_Pop32 env s =
      (dl_byte env s 0 * 16777216 + dl_byte env s 1 * 65536 + dl_byte env s 2 * 256 +
        dl_byte env s 3,
      { s with g_dl_read_offset := (s.g_dl_read_offset + 4) % 2 ^ 32 }) := by
    rw [Fifo_Pop32_displaylists env s hmode]
    show ((dl_byte env s 0 <<< 24) ||| (dl_byte env s 1 <<< 16) ||| (dl_byte env s 2 <<< 8)
      ||| dl_byte env s 3, _) = _
    rw [be32_eq _ _ _ _ (dl_byte_lt _ _ _) (dl_byte_lt _ _ _) (dl_byte_lt _ _ _)]
  refine ⟨?_, ?_, ?_, ?_, ?_, ?_, ?_⟩
  · rw [e1 s hmode]
    unfold dl_byte
    rw [Nat.add_zero, Nat.mod_mod]
  · rw [q16, p2]; simp [big_endian]
  · rw [q24, p3]; simp [big_endian]; ring
  · rw [q32, p4]; simp [big_endian]; ring
  · rw [q16]
  · rw [q24]
  · rw [q32]

/-- Witness for C21: display-list mode at address 0x1000 over a memory whose byte at `a` is
`a mod 256`; the 32-bit pop reads the bytes 03 02 01 00. -/
theorem display_list_pops_big_endian_witness :
    display_list_state.Fifo_Pop = ReadMode.displaylists ∧
    (Fifo_Pop32 (Env.sample counting_memory 0) display_list_state).1 = 0x03020100 ∧
    (Fifo_Pop8 (Env.sample counting_memory 0) display_list_state =
      ((Env.sample counting_memory 0).Mem_RAM
        (((display_list_state.g_dl_read_addr + display_list_state.g_dl_read_offset) % 2 ^ 32)
          ^^^ 3) % 256,
       { display_list_state with
         g_dl_read_offset := (display_list_state.g_dl_read_offset + 1) % 2 ^ 32 }) ∧
    Fifo_Pop16 (Env.sample counting_memory 0) display_list_state =
      (big_endian (pops8 (Env.sample counting_memory 0) 2 display_list_state).1,
       (pops8 (Env.sample counting_memory 0) 2 display_list_state).2) ∧
    Fifo_Pop24 (Env.sample counting_memory 0) display_list_state =
      (big_endian (pops8 (Env.sample counting_memory 0) 3 display_list_state).1,
       (pops8 (Env.sample counting_memory 0) 3 display_list_state).2) ∧
    Fifo_Pop32 (Env.sample counting_memory 0) display_list_state =
      (big_endian (pops8 (Env.sample counting_memory 0) 4 display_list_state).1,
       (pops8 (Env.sample counting_memory 0) 4 display_list_state).2) ∧
    (Fifo_Pop16 (Env.sample counting_memory 0) display_list_state).2 =
      { display_list_state with
        g_dl_read_offset := (display_list_state.g_dl_read_offset + 2) % 2 ^ 32 } ∧
    (Fifo_Pop24 (Env.sample counting_memory 0) display_list_state).2 =
      { display_list_state with
        g_dl_read_offset := (display_list_state.g_dl_read_offset + 3) % 2 ^ 32 } ∧
    (Fifo_Pop32 (Env.sample counting_memory 0) display_list_state).2 =
      { display_list_state with
        g_dl_read_offset := (display_list_state.g_dl_read_offset + 4) % 2 ^ 32 }) :=
  ⟨by decide, by decide,
   display_list_pops_big_endian (Env.sample counting_memory 0) display_list_state (by decide)⟩

end gp

namespace gp

/-! ### C22 -/

theorem getD_replicate_zero (n : Nat) : ∀ i, (List.replicate n 0).getD i 0 = 0 := by
  induction n with
  | zero => intro i; rfl
  | succ n ih =>
    intro i
    cases i with
    | zero => rfl
    | succ j => exact ih j

/-- C22: `Fifo_Reset` with the write cursor beyond `FIFO_TAIL_END` leaves the write cursor 0, the
read cursor at the start of the buffer, all `FIFO_SIZE` bytes of the buffer 0, the reset flag 0
and everything else as it was; with the write cursor at most `FIFO_TAIL_END` it changes nothing. -/
theorem fifo_reset_effect (env : Env) (s : State) :
    (s.g_fifo_write_ptr > env.FIFO_TAIL_END →
      (Fifo_Reset env s).g_fifo_write_ptr = 0 ∧ (Fifo_Reset env s).g_fifo_read_ptr = 0 ∧
      (Fifo_Reset env s).g_fifo_buffer.length = env.FIFO_SIZE ∧
      (∀ i, buffer_at (Fifo_Reset env s) i = 0) ∧ (Fifo_Reset env s).g_reset_fifo = 0 ∧
      Fifo_Reset env s =
        { s with g_fifo_write_ptr := 0, g_fifo_read_ptr := 0,
                 g_fifo_buffer := (Fifo_Reset env s).g_fifo_buffer, g_reset_fifo := 0 }) ∧
    (s.g_fifo_write_ptr ≤ env.FIFO_TAIL_END → Fifo_Reset env s = s) := by
  constructor
  · intro h
    have e : Fifo_Reset env s =
        { s with g_fifo_write_ptr := 0, g_fifo_read_ptr := 0,
                 g_fifo_buffer := List.replicate env.FIFO_SIZE 0, g_reset_fifo := 0 } := by
      unfold Fifo_Reset; rw [if_pos h]
    rw [e]
    refine ⟨rfl, rfl, List.length_replicate _ _, ?_, rfl, rfl⟩
    intro i
    show (List.replicate env.FIFO_SIZE 0).getD i 0 % 256 = 0
    rw [getD_replicate_zero]
  · intro h
    unfold Fifo_Reset
    rw [if_neg (by omega)]

/-- Witness for C22: six bytes pushed (write cursor 6, tail mark 4), and three bytes pushed (write
cursor 3). -/
theorem fifo_reset_effect_witness :
    full_tail_state.g_fifo_write_ptr > (Env.sample zero_memory 0).FIFO_TAIL_END ∧
    incomplete_state.g_fifo_write_ptr ≤ (Env.sample zero_memory 0).FIFO_TAIL_END ∧
    ((Fifo_Reset (Env.sample zero_memory 0) full_tail_state).g_fifo_write_ptr = 0 ∧
      (Fifo_Reset (Env.sample zero_memory 0) full_tail_state).g_fifo_read_ptr = 0 ∧
      (Fifo_Reset (Env.sample zero_memory 0) full_tail_state).g_fifo_buffer.length =
        (Env.sample zero_memory 0).FIFO_SIZE ∧
      (∀ i, buffer_at (Fifo_Reset (Env.sample zero_memory 0) full_tail_state) i = 0) ∧
      (Fifo_Reset (Env.sample zero_memory 0) full_tail_state).g_reset_fifo = 0 ∧
      Fifo_Reset (Env.sample zero_memory 0) full_tail_state =
        { full_tail_state with
          g_fifo_write_ptr := 0, g_fifo_read_ptr := 0,
          g_fifo_buffer := (Fifo_Reset (Env.sample zero_memory 0) full_tail_state).g_fifo_buffer,
          g_reset_fifo := 0 }) ∧
    Fifo_Reset (Env.sample zero_memory 0) incomplete_state = incomplete_state :=
  ⟨by decide, by decide,
   (fifo_reset_effect (Env.sample zero_memory 0) full_tail_state).1 (by decide),
   (fifo_reset_effect (Env.sample zero_memory 0) incomplete_state).2 (by decide)⟩

/-! ### C25 -/

/-- C25: `Fifo_NextCommandReady` leaves the read cursor, the write cursor and the buffer contents
exactly as they were; the state it leaves differs from the old one at most in `g_cur_cmd`,
`g_cur_vat` and the cached required length. -/
theorem next_command_ready_consumes_nothing (env : Env) (s : State) :
    (Fifo_NextCommandReady env s).2.g_fifo_read_ptr = s.g_fifo_read_ptr ∧
    (Fifo_NextCommandReady env s).2.g_fifo_write_ptr = s.g_fifo_write_ptr ∧
    (Fifo_NextCommandReady env s).2.g_fifo_buffer = s.g_fifo_buffer ∧
    ∃ c v l, (Fifo_NextCommandReady env s).2 =
      { s with g_cur_cmd := c, g_cur_vat := v, last_required_size := l } := by
  obtain ⟨c, v, l, h⟩ := Fifo_NextCommandReady_frame env s
  rw [h]
  exact ⟨rfl, rfl, rfl, c, v, l, rfl⟩

/-! ### C26 -/

theorem Fifo_Pop8_last (env : Env) (s : State) :
    (Fifo_Pop8 env s).2.last_required_size = s.last_required_size := by
  unfold Fifo_Pop8; cases s.Fifo_Pop <;> rfl

theorem Fifo_Pop16_last (env : Env) (s : State) :
    (Fifo_Pop16 env s).2.last_required_size = s.last_required_size := by
  unfold Fifo_Pop16; cases s.Fifo_Pop <;> rfl

theorem Fifo_Pop32_last (env : Env) (s : State) :
    (Fifo_Pop32 env s).2.last_required_size = s.last_required_size := by
  unfold Fifo_Pop32; cases s.Fifo_Pop <;> rfl

theorem pop_regs_last (env : Env) (n : Nat) :
    ∀ s : State, (pop_regs env n s).2.last_required_size = s.last_required_size := by
  induction n with
  | zero => intro s; rfl
  | succ n ih =>
    intro s
    simp only [pop_regs]
    rw [ih, Fifo_Pop32_last]

theorem GPOPCODE_LOAD_CP_REG_last (env : Env) (s : State) :
    (GPOPCODE_LOAD_CP_REG env s).last_required_size = s.last_required_size := by
  simp only [GPOPCODE_LOAD_CP_REG, emit, Fifo_Pop32_last, Fifo_Pop8_last]

theorem GPOPCODE_LOAD_XF_REG_last (env : Env) (s : State) :
    (GPOPCODE_LOAD_XF_REG env s).last_required_size = s.last_required_size := by
  simp only [GPOPCODE_LOAD_XF_REG, emit, pop_regs_last]
  split <;> simp only [Fifo_Pop32_last]

theorem GPOPCODE_LOAD_IDX_last (env : Env) (reg : IdxReg) (s : State) :
    (GPOPCODE_LOAD_IDX env reg s).last_required_size = s.last_required_size := by
  simp only [GPOPCODE_LOAD_IDX, emit, Fifo_Pop16_last]

theorem GPOPCODE_LOAD_BP_REG_last (env : Env) (s : State) :
    (GPOPCODE_LOAD_BP_REG env s).last_required_size = s.last_required_size := by
  simp only [GPOPCODE_LOAD_BP_REG, emit, Fifo_Pop32_last]

theorem GPOPCODE_DRAW_last (env : Env) (kind : Primitive) (s : State) :
    (GPOPCODE_DRAW env kind s).last_required_size = s.last_required_size := by
  simp only [GPOPCODE_DRAW, VertexLoader_DecodePrimitive, emit]
  split <;> simp only [Fifo_Pop16_last]

theorem exec_last (env : Env) (fuel : Nat) :
    ∀ (job : Job) (s s1 : State), exec env fuel job s = some s1 → s1.last_required_size = s.last_required_size := by
  induction fuel with
  | zero => intro job s s1 h; simp [exec] at h
  | succ fuel ih =>
    intro job s s1 h
    cases job with
    | op f =>
      cases f <;> simp only [exec, Option.some.injEq] at h <;>
        first
        | (subst h
           first
           | rfl
           | exact GPOPCODE_LOAD_CP_REG_last env s
           | exact GPOPCODE_LOAD_XF_REG_last env s
           | exact GPOPCODE_LOAD_IDX_last env _ s
           | exact GPOPCODE_LOAD_BP_REG_last env s
           | exact GPOPCODE_DRAW_last env _ s)
        | skip
      -- CALL_DISPLAYLIST
      split at h
      · exact absurd h (by simp)
      · rename_i s5 h5
        simp only [Option.some.injEq] at h
        subst h
        have := ih _ _ _ h5
        simp only [_set_fifo_read_normal, emit, _set_fifo_read_displaylists] at this ⊢
        rw [this, Fifo_Pop32_last, Fifo_Pop32_last]
    | dl_loop size =>
      simp only [exec] at h
      split at h
      · split at h
        · exact absurd h (by simp)
        · rename_i s3 h3
          have h4 := ih _ _ _ h
          have h5 := ih _ _ _ h3
          rw [h4, h5]
          exact Fifo_Pop8_last env s
      · simp only [Option.some.injEq] at h
        subst h; rfl


/-- C26: whenever `Fifo_NextCommandReady` returns ready, the cached required length is -1 when it
returns; a `Fifo_DecodeCommand` call made in that state (read cursor not past the write cursor)
dispatches the command with the cache at -1 and, when the handler returns, leaves it at -1 for
the next poll. -/
theorem ready_leaves_cache_unknown (env : Env) (s : State)
    (hready : (Fifo_NextCommandReady env s).1 = true) :
    (Fifo_NextCommandReady env s).2.last_required_size = -1 ∧
    (dispatch_state env s).last_required_size = -1 ∧
    ∀ fuel s1, s.g_fifo_read_ptr ≤ s.g_fifo_write_ptr →
      s.g_fifo_write_ptr - s.g_fifo_read_ptr < 2 ^ 31 →
      Fifo_DecodeCommand env fuel s = some s1 → s1.last_required_size = -1 := by
  have haux := Fifo_NextCommandReady_ready_aux env s hready
  refine ⟨by rw [haux], rfl, ?_⟩
  intro fuel s1 hle hsmall hdec
  have hne := Fifo_NextCommandReady_ne env s hready
  have hassert : assert_read_not_past_write s = s := by
    unfold assert_read_not_past_write; rw [if_pos hle]
  have havail : ¬ (to_s32 ((s.g_fifo_write_ptr : Int) - (s.g_fifo_read_ptr : Int)) < 1 ∧
      s.g_reset_fifo = 0) := by
    have h1 : ((s.g_fifo_write_ptr : Int) - (s.g_fifo_read_ptr : Int)) =
        ((s.g_fifo_write_ptr - s.g_fifo_read_ptr : Nat) : Int) := by omega
    rw [h1, to_s32_of_small _ hsmall]
    omega
  rw [Fifo_DecodeCommand_unfold, if_neg havail, hassert] at hdec
  dsimp only at hdec
  rw [if_pos hready, haux] at hdec
  have h2 := exec_last env fuel _ _ _ hdec
  rw [h2, Fifo_Pop8_last]
  split <;> rfl

/-- Witness for C26: a fresh FIFO holding one NOP byte. -/
theorem ready_leaves_cache_unknown_witness :
    (Fifo_NextCommandReady (Env.sample zero_memory 0) nop_state).1 = true ∧
    ((Fifo_NextCommandReady (Env.sample zero_memory 0) nop_state).2.last_required_size = -1 ∧
     (dispatch_state (Env.sample zero_memory 0) nop_state).last_required_size = -1 ∧
     ∀ fuel s1, nop_state.g_fifo_read_ptr ≤ nop_state.g_fifo_write_ptr →
       nop_state.g_fifo_write_ptr - nop_state.g_fifo_read_ptr < 2 ^ 31 →
       Fifo_DecodeCommand (Env.sample zero_memory 0) fuel nop_state = some s1 →
       s1.last_required_size = -1) :=
  ⟨by decide, ready_leaves_cache_unknown (Env.sample zero_memory 0) nop_state (by decide)⟩

end gp

namespace gp

/-! ### C24 -/

/-- The oracle does not look at the event log. -/
theorem Fifo_NextCommandReady_emit (env : Env) (s : State) (e : Event) :
    Fifo_NextCommandReady env (emit s e) =
      ((Fifo_NextCommandReady env s).1, emit (Fifo_NextCommandReady env s).2 e) := by
  unfold Fifo_NextCommandReady
  have hb : bytes_in_fifo env (emit s e) = bytes_in_fifo env s := rfl
  have hg : ∀ k, FIFO_GET8 (emit s e) k = FIFO_GET8 s k := fun _ => rfl
  show (if s.g_fifo_read_ptr = s.g_fifo_write_ptr then _ else _) = _
  by_cases h1 : s.g_fifo_read_ptr = s.g_fifo_write_ptr
  · rw [if_pos h1, if_pos h1]
  · rw [if_neg h1, if_neg h1]
    dsimp only
    rw [hb]
    show (if s.last_required_size ≠ -1 ∧
      s.last_required_size > to_s32 (bytes_in_fifo env s : Int) then _ else _) = _
    by_cases h2 : (s.last_required_size ≠ -1 ∧
        s.last_required_size > to_s32 (bytes_in_fifo env s : Int))
    · rw [if_pos h2, if_pos h2]
    · rw [if_neg h2, if_neg h2]
      rw [hg]
      have hg32 : ∀ c v, FIFO_GET32 { emit s e with g_cur_cmd := c, g_cur_vat := v } 1 =
          FIFO_GET32 { s with g_cur_cmd := c, g_cur_vat := v } 1 := fun _ _ => rfl
      have hg16 : ∀ c v, FIFO_GET16 { emit s e with g_cur_cmd := c, g_cur_vat := v } 1 =
          FIFO_GET16 { s with g_cur_cmd := c, g_cur_vat := v } 1 := fun _ _ => rfl
      simp only [hg32, hg16]
      split <;> (try split_ifs) <;> rfl

/-- C24 (the code at the failing input): the read cursor has passed the write cursor (18 against
17, the state after the nested display-list call) and the flag `g_reset_fifo` is raised. The count
`Fifo_DecodeCommand` computes is -1, no byte is available, yet the call goes on, its assertion
about the read cursor fails, the oracle reports ready for the byte at the read cursor, the NOP
handler is dispatched and the read cursor moves to 19. -/
theorem decode_dispatches_without_bytes :
    decode_bytes_in_fifo overrun_reset_state = -1 ∧
    overrun_reset_state.g_fifo_read_ptr = 18 ∧ overrun_reset_state.g_fifo_write_ptr = 17 ∧
    (Fifo_DecodeCommand (Env.sample nested_call_memory 0) 1 overrun_reset_state).map
      (fun s1 => s1.g_fifo_read_ptr) = some 19 ∧
    (Fifo_DecodeCommand (Env.sample nested_call_memory 0) 1 overrun_reset_state).map
      (fun s1 => s1.events) =
      some (overrun_reset_state.events ++ [Event.assert_read_passed_write, Event.NOP]) := by
  decide

/-- The consumer step in any state, the read cursor past the write cursor included: when no byte
is available and the reset flag is clear or the read cursor is at the write cursor, or when
`Fifo_NextCommandReady` returns not-ready, `Fifo_DecodeCommand` returns
(whatever the fuel) without dispatching a handler: the read cursor, the write cursor, the buffer
contents, the read mode, the recording session, the reset flag and the display-list cursor are
unchanged, and the event log gains nothing but the assertion about the read cursor. -/
theorem decode_without_ready_command (env : Env) (s : State)
    (h : (decode_bytes_in_fifo s < 1 ∧
            (s.g_reset_fifo = 0 ∨ s.g_fifo_read_ptr = s.g_fifo_write_ptr)) ∨
         (Fifo_NextCommandReady env s).1 = false) :
    ∃ s1, (∀ fuel, Fifo_DecodeCommand env fuel s = some s1) ∧
      s1.g_fifo_read_ptr = s.g_fifo_read_ptr ∧ s1.g_fifo_write_ptr = s.g_fifo_write_ptr ∧
      s1.g_fifo_buffer = s.g_fifo_buffer ∧ s1.Fifo_Pop = s.Fifo_Pop ∧
      s1.recorder = s.recorder ∧ s1.g_reset_fifo = s.g_reset_fifo ∧
      s1.g_dl_read_addr = s.g_dl_read_addr ∧ s1.g_dl_read_offset = s.g_dl_read_offset ∧
      (s1.events = s.events ∨ s1.events = s.events ++ [Event.assert_read_passed_write]) := by
  by_cases havail : to_s32 ((s.g_fifo_write_ptr : Int) - (s.g_fifo_read_ptr : Int)) < 1 ∧
      s.g_reset_fifo = 0
  · refine ⟨s, ?_, rfl, rfl, rfl, rfl, rfl, rfl, rfl, rfl, Or.inl rfl⟩
    intro fuel
    rw [Fifo_DecodeCommand_unfold, if_pos havail]
  · have hnot : (Fifo_NextCommandReady env s).1 = false := by
      rcases h with ⟨hlt, hr | hr⟩ | h
      · exact absurd ⟨hlt, hr⟩ havail
      · unfold Fifo_NextCommandReady
        rw [if_pos hr]
      · exact h
    have hnot0 : (Fifo_NextCommandReady env (assert_read_not_past_write s)).1 = false := by
      unfold assert_read_not_past_write
      split
      · exact hnot
      · rw [Fifo_NextCommandReady_emit]; exact hnot
    obtain ⟨c, v, l, hframe⟩ := Fifo_NextCommandReady_frame env (assert_read_not_past_write s)
    refine ⟨(Fifo_NextCommandReady env (assert_read_not_past_write s)).2, ?_, ?_⟩
    · intro fuel
      rw [Fifo_DecodeCommand_unfold, if_neg havail]
      dsimp only
      rw [if_neg (by rw [hnot0]; decide)]
    · rw [hframe]
      unfold assert_read_not_past_write
      split
      · exact ⟨rfl, rfl, rfl, rfl, rfl, rfl, rfl, rfl, Or.inl rfl⟩
      · exact ⟨rfl, rfl, rfl, rfl, rfl, rfl, rfl, rfl, Or.inr rfl⟩

/-- Example for `decode_without_ready_command`: a fresh FIFO holding the first three bytes of a
six-byte command. -/
theorem decode_without_ready_command_example :
    (Fifo_NextCommandReady (Env.sample zero_memory 0) incomplete_state).1 = false ∧
    ∃ s1, (∀ fuel, Fifo_DecodeCommand (Env.sample zero_memory 0) fuel incomplete_state =
        some s1) ∧
      s1.g_fifo_read_ptr = incomplete_state.g_fifo_read_ptr ∧
      s1.g_fifo_write_ptr = incomplete_state.g_fifo_write_ptr ∧
      s1.g_fifo_buffer = incomplete_state.g_fifo_buffer ∧
      s1.Fifo_Pop = incomplete_state.Fifo_Pop ∧
      s1.recorder = incomplete_state.recorder ∧
      s1.g_reset_fifo = incomplete_state.g_reset_fifo ∧
      s1.g_dl_read_addr = incomplete_state.g_dl_read_addr ∧
      s1.g_dl_read_offset = incomplete_state.g_dl_read_offset ∧
      (s1.events = incomplete_state.events ∨
        s1.events = incomplete_state.events ++ [Event.assert_read_passed_write]) :=
  ⟨by decide,
   decode_without_ready_command (Env.sample zero_memory 0) incomplete_state
     (Or.inr (by decide))⟩

/-- The consumer step when the read cursor has not passed the write cursor (fewer than 2^31 bytes
pending): if no byte is available or `Fifo_NextCommandReady` returns not-ready,
`Fifo_DecodeCommand` returns (whatever the fuel and the reset flag) without dispatching a handler
and leaves the read cursor, the write cursor, the buffer contents, the read mode, the recording
session, the reset flag, the display-list cursor and the event log unchanged. -/
theorem decode_without_command_in_order (env : Env) (s : State)
    (hle : s.g_fifo_read_ptr ≤ s.g_fifo_write_ptr)
    (hsmall : s.g_fifo_write_ptr - s.g_fifo_read_ptr < 2 ^ 31)
    (h : decode_bytes_in_fifo s < 1 ∨ (Fifo_NextCommandReady env s).1 = false) :
    ∃ s1, (∀ fuel, Fifo_DecodeCommand env fuel s = some s1) ∧
      s1.g_fifo_read_ptr = s.g_fifo_read_ptr ∧ s1.g_fifo_write_ptr = s.g_fifo_write_ptr ∧
      s1.g_fifo_buffer = s.g_fifo_buffer ∧ s1.Fifo_Pop = s.Fifo_Pop ∧
      s1.recorder = s.recorder ∧ s1.g_reset_fifo = s.g_reset_fifo ∧
      s1.g_dl_read_addr = s.g_dl_read_addr ∧ s1.g_dl_read_offset = s.g_dl_read_offset ∧
      s1.events = s.events := by
  have hassert : assert_read_not_past_write s = s := by
    unfold assert_read_not_past_write
    rw [if_pos hle]
  have hcount : decode_bytes_in_fifo s = ((s.g_fifo_write_ptr - s.g_fifo_read_ptr : Nat) : Int) := by
    unfold decode_bytes_in_fifo
    rw [← to_s32_of_small _ hsmall]
    congr 1
    omega
  by_cases havail : to_s32 ((s.g_fifo_write_ptr : Int) - (s.g_fifo_read_ptr : Int)) < 1 ∧
      s.g_reset_fifo = 0
  · refine ⟨s, ?_, rfl, rfl, rfl, rfl, rfl, rfl, rfl, rfl, rfl⟩
    intro fuel
    rw [Fifo_DecodeCommand_unfold, if_pos havail]
  · have hnot : (Fifo_NextCommandReady env s).1 = false := by
      rcases h with h | h
      · have hr : s.g_fifo_read_ptr = s.g_fifo_write_ptr := by
          rw [hcount] at h
          omega
        unfold Fifo_NextCommandReady
        rw [if_pos hr]
      · exact h
    obtain ⟨c, v, l, hframe⟩ := Fifo_NextCommandReady_frame env s
    refine ⟨(Fifo_NextCommandReady env s).2, ?_, ?_⟩
    · intro fuel
      rw [Fifo_DecodeCommand_unfold, if_neg havail, hassert]
      dsimp only
      rw [if_neg (by rw [hnot]; decide)]
    · rw [hframe]
      exact ⟨rfl, rfl, rfl, rfl, rfl, rfl, rfl, rfl, rfl⟩

/-! ### C23 -/

/-- C23 (the code at the failing input): from `Fifo_Init`, 17 bytes are pushed (9 + 8, within
the 64-byte FIFO) and `Fifo_DecodeCommand` is called once, with no reset; the display list at
0x1000 holds a nested CALL_DISPLAYLIST, after which the outer loop reads from the FIFO. In the
reached state 18 bytes have been consumed, the count `Fifo_DecodeCommand` computes is 17 - 18 = -1
and the `uintptr_t` count of `Fifo_NextCommandReady` has wrapped to 2^64 - 1. -/
theorem bytes_in_fifo_negative_after_overrun :
    pushed (Env.sample nested_call_memory 0)
        [0x40, 0, 0, 0x10, 0, 0, 0, 0, 1, 0x40, 0, 0, 0, 0, 0, 0, 1] ≠ none ∧
    Fifo_DecodeCommand (Env.sample nested_call_memory 0) 600
      (state_after (Env.sample nested_call_memory 0)
        [0x40, 0, 0, 0x10, 0, 0, 0, 0, 1, 0x40, 0, 0, 0, 0, 0, 0, 1]) = some overrun_state ∧
    overrun_state.g_fifo_write_ptr = 17 ∧ overrun_state.g_fifo_read_ptr = 18 ∧
    decode_bytes_in_fifo overrun_state = -1 ∧
    bytes_in_fifo (Env.sample nested_call_memory 0) overrun_state = 2 ^ 64 - 1 := by
  decide

end gp

namespace fifo_player

/-! ### C27 -/

/-- C27: `Write` of a block of `size` bytes (`size` an `int`, the raw log below 2^32 bytes)
appends exactly one element, of kind REGISTER_WRITE, with `offset` = the length of the raw log
before the call and `size` = `size`, both fitting their 32-bit fields; it appends exactly the
bytes of the block to the raw log; the earlier elements, the earlier raw bytes, the frame list
and the rest of the recorder are unchanged. -/
theorem write_appends_one_element (r : Recorder) (bytes : List Nat)
    (hsize : bytes.length < 2 ^ 31) (hraw : r.raw_data.length < 2 ^ 32) :
    (∃ e, (Write r bytes).element_info = r.element_info ++ [e] ∧
      e.type = ElementType.REGISTER_WRITE ∧ e.offset = r.raw_data.length ∧
      e.size = bytes.length ∧ e.offset < 2 ^ 32 ∧ e.size < 2 ^ 32) ∧
    (Write r bytes).raw_data = r.raw_data ++ bytes ∧
    (Write r bytes).frame_info = r.frame_info ∧
    (Write r bytes).file_header = r.file_header ∧
    (Write r bytes).current_frame_info = r.current_frame_info ∧
    (Write r bytes).is_recording = r.is_recording ∧
    (∀ i, i < r.element_info.length →
      (Write r bytes).element_info[i]? = r.element_info[i]?) ∧
    (∀ i, i < r.raw_data.length → (Write r bytes).raw_data[i]? = r.raw_data[i]?) := by
  refine ⟨⟨_, rfl, rfl, rfl, rfl, hraw, by show bytes.length < 2 ^ 32; omega⟩, rfl, rfl, rfl,
    rfl, rfl, ?_, ?_⟩
  · intro i hi
    show (r.element_info ++ [_])[i]? = _
    exact List.getElem?_append_left hi
  · intro i hi
    show (r.raw_data ++ bytes)[i]? = _
    exact List.getElem?_append_left hi

/-- Witness for C27: a second command written to a session that holds one. -/
theorem write_appends_one_element_witness :
    [0x61, 1, 2, 3, 4].length < 2 ^ 31 ∧ one_command_session.raw_data.length < 2 ^ 32 ∧
    ((∃ e, (Write one_command_session [0x61, 1, 2, 3, 4]).element_info =
        one_command_session.element_info ++ [e] ∧
      e.type = ElementType.REGISTER_WRITE ∧ e.offset = one_command_session.raw_data.length ∧
      e.size = [0x61, 1, 2, 3, 4].length ∧ e.offset < 2 ^ 32 ∧ e.size < 2 ^ 32) ∧
    (Write one_command_session [0x61, 1, 2, 3, 4]).raw_data =
      one_command_session.raw_data ++ [0x61, 1, 2, 3, 4] ∧
    (Write one_command_session [0x61, 1, 2, 3, 4]).frame_info =
      one_command_session.frame_info ∧
    (Write one_command_session [0x61, 1, 2, 3, 4]).file_header =
      one_command_session.file_header ∧
    (Write one_command_session [0x61, 1, 2, 3, 4]).current_frame_info =
      one_command_session.current_frame_info ∧
    (Write one_command_session [0x61, 1, 2, 3, 4]).is_recording =
      one_command_session.is_recording ∧
    (∀ i, i < one_command_session.element_info.length →
      (Write one_command_session [0x61, 1, 2, 3, 4]).element_info[i]? =
        one_command_session.element_info[i]?) ∧
    (∀ i, i < one_command_session.raw_data.length →
      (Write one_command_session [0x61, 1, 2, 3, 4]).raw_data[i]? =
        one_command_session.raw_data[i]?)) :=
  ⟨by decide, by decide,
   write_appends_one_element one_command_session [0x61, 1, 2, 3, 4] (by decide) (by decide)⟩

end fifo_player

namespace fifo_player

/-! ### C28 -/

/-- The function `EndRecording` returns on a recording session that holds at least one element. -/
theorem EndRecording_returns (d : Defs) (r : Recorder) (hrec : Recording d r)
    (hpos : 0 < r.element_info.length) (hlt : r.element_info.length < 2 ^ 32) :
    ∃ r2, EndRecording d r = some r2 := by
  obtain ⟨init, cur, h1, h2, h3, h4, _⟩ := recording_invariant d r hrec hlt
  have hff := FrameFinished_spec r init cur h1 h4 h3 hlt
  have hrec1 : Recording d _ := Recording.frame_finished hrec hff
  obtain ⟨init1, cur1, g1, g2, _, _, _⟩ := recording_invariant d _ hrec1 hlt
  have g1' : init ++ [{ cur with
      num_elements := r.element_info.length - cur.base_element }] ++
      [{ base_element := r.element_info.length, num_elements := 0 }] = init1 ++ [cur1] := g1
  have hex : ∃ f ∈ (init1 ++ [cur1]).reverse, f.base_element ≠ r.element_info.length := by
    have hp := (tiles_partition init1 0 cur1 g2).1
    cases hl : init1 ++ [cur1] with
    | nil => simp at hl
    | cons f fs =>
      rw [hl] at hp
      refine ⟨f, by simp, ?_⟩
      have hf : f.base_element = 0 := hp
      omega
  obtain ⟨rem, p, kept, _, _, _, e4⟩ := trim_frames_spec _ _ hex
  unfold EndRecording
  rw [hff]
  dsimp only
  rw [g1', e4]
  exact ⟨_, rfl⟩

/-- C28: `EndRecording` returns on every recording session that holds at least one element, and
whenever it returns (the file below 4 GiB, so that every field fits its 32 bits) the header has
num_frames = number of frames, num_elements = number of elements, num_raw_data_bytes = length of
the raw log, frame_info_offset = sizeof(FPFileHeader), element_info_offset = frame_info_offset +
num_frames * sizeof(FPFrameInfo) and raw_data_offset = element_info_offset + num_elements *
sizeof(FPElementInfo): the sections follow the header without gap in the order frames, elements,
raw bytes. -/
theorem end_recording_header (d : Defs) (r : Recorder) :
    (Recording d r → 0 < r.element_info.length → r.element_info.length < 2 ^ 32 →
      ∃ r2, EndRecording d r = some r2) ∧
    ∀ r2, EndRecording d r = some r2 →
      d.sizeof_FPFileHeader + r2.frame_info.length * d.sizeof_FPFrameInfo +
        r2.element_info.length * d.sizeof_FPElementInfo + r2.raw_data.length < 2 ^ 32 →
      r2.file_header.num_frames = r2.frame_info.length ∧
      r2.file_header.num_elements = r2.element_info.length ∧
      r2.file_header.num_raw_data_bytes = r2.raw_data.length ∧
      r2.file_header.frame_info_offset = d.sizeof_FPFileHeader ∧
      r2.file_header.element_info_offset =
        r2.file_header.frame_info_offset + r2.file_header.num_frames * d.sizeof_FPFrameInfo ∧
      r2.file_header.raw_data_offset =
        r2.file_header.element_info_offset +
          r2.file_header.num_elements * d.sizeof_FPElementInfo ∧
      r2.file_header.raw_data_offset + r2.file_header.num_raw_data_bytes < 2 ^ 32 ∧
      r2.file_header.magic_num = r.file_header.magic_num ∧
      r2.file_header.version = r.file_header.version := by
  refine ⟨EndRecording_returns d r, ?_⟩
  intro r2 h hfit
  unfold EndRecording at h
  split at h
  · cases h
  · rename_i r1 hff
    split at h
    · cases h
    · have hr2 := Option.some.inj h
      subst hr2
      have hhead : r1.file_header = r.file_header := by
        unfold FrameFinished at hff
        split at hff
        · cases hff
        · have := Option.some.inj hff
          subst this
          rfl
      refine ⟨rfl, rfl, rfl, rfl, rfl, rfl, ?_, ?_, ?_⟩
      · exact hfit
      · show r1.file_header.magic_num = _
        rw [hhead]
      · show r1.file_header.version = _
        rw [hhead]

/-- Witness for C28: the session with one recorded command. -/
theorem end_recording_header_witness :
    (∃ r2, EndRecording gp.sample_defs one_command_session = some r2) ∧
    EndRecording gp.sample_defs one_command_session = some ended_session ∧
    (ended_session.file_header.num_frames = ended_session.frame_info.length ∧
      ended_session.file_header.num_elements = ended_session.element_info.length ∧
      ended_session.file_header.num_raw_data_bytes = ended_session.raw_data.length ∧
      ended_session.file_header.frame_info_offset = gp.sample_defs.sizeof_FPFileHeader ∧
      ended_session.file_header.element_info_offset =
        ended_session.file_header.frame_info_offset +
          ended_session.file_header.num_frames * gp.sample_defs.sizeof_FPFrameInfo ∧
      ended_session.file_header.raw_data_offset =
        ended_session.file_header.element_info_offset +
          ended_session.file_header.num_elements * gp.sample_defs.sizeof_FPElementInfo ∧
      ended_session.file_header.raw_data_offset +
        ended_session.file_header.num_raw_data_bytes < 2 ^ 32 ∧
      ended_session.file_header.magic_num = one_command_session.file_header.magic_num ∧
      ended_session.file_header.version = one_command_session.file_header.version) :=
  ⟨(end_recording_header gp.sample_defs one_command_session).1
     (Recording.write _ (Recording.start _)) (by decide) (by decide),
   by decide,
   (end_recording_header gp.sample_defs one_command_session).2 ended_session (by decide)
     (by decide)⟩

end fifo_player

namespace fifo_player

/-! ### C29 -/

theorem take_drop_eq_range_map {α : Type} (l : List α) (z : α) (a n : Nat)
    (h : a + n ≤ l.length) :
    (l.drop a).take n = (List.range n).map (fun j => l.getD (a + j) z) := by
  apply List.ext_getElem
  · simp only [List.length_take, List.length_drop, List.length_map, List.length_range]
    omega
  · intro i h1 h2
    simp only [List.length_map, List.length_range] at h2
    simp only [List.getElem_take, List.getElem_drop, List.getElem_map, List.getElem_range]
    rw [List.getD_eq_getElem _ _ (by omega)]

theorem all_some_map_of_forall {α β : Type} (g : α → Option β) (g1 : α → β) (l : List α)
    (h : ∀ a ∈ l, g a = some (g1 a)) : all_some (l.map g) = some (l.map g1) := by
  induction l with
  | nil => rfl
  | cons a l ih =>
    simp only [List.map_cons, all_some, h a (List.mem_cons_self _ _),
      ih (fun x hx => h x (List.mem_cons_of_mem _ hx))]

theorem flatten_map_flatten {α β : Type} (g : α → List β) (ls : List (List α)) :
    (ls.flatten.map g).flatten = (ls.map (fun l => (l.map g).flatten)).flatten := by
  induction ls with
  | nil => rfl
  | cons l ls ih =>
    simp only [List.flatten_cons, List.map_append, List.flatten_append, List.map_cons, ih]

/-- C29: for a session whose frame ranges lie inside the element list and whose element ranges
lie inside the raw data, `PlayFile` returns and the bytes it hands to `FifoPush8`, one call per
byte, are exactly the sequence of the specification: frames in index order, the elements
`base_element .. base_element + num_elements - 1` of each frame in order, the raw bytes
`offset .. offset + size - 1` of each element in order. -/
theorem play_file_pushes_specified_bytes (f : FPFile)
    (hframes : ∀ fr ∈ f.frame_info, fr.base_element + fr.num_elements ≤ f.element_info.length)
    (helems : ∀ e ∈ f.element_info, e.offset + e.size ≤ f.raw_data.length) :
    PlayFile f = some (play_specification f) := by
  have h1 : all_some (f.frame_info.map (frame_elements f.element_info)) =
      some (f.frame_info.map
        (fun fr => (f.element_info.drop fr.base_element).take fr.num_elements)) := by
    apply all_some_map_of_forall
    intro fr hfr
    unfold frame_elements
    rw [if_pos (hframes fr hfr)]
  have hmem : ∀ e ∈ (f.frame_info.map
      (fun fr => (f.element_info.drop fr.base_element).take fr.num_elements)).flatten,
      e ∈ f.element_info := by
    intro e he
    obtain ⟨l, hl, hel⟩ := List.mem_flatten.1 he
    obtain ⟨fr, _, hfr⟩ := List.mem_map.1 hl
    rw [← hfr] at hel
    exact List.mem_of_mem_drop (List.mem_of_mem_take hel)
  have h2 : all_some ((f.frame_info.map
      (fun fr => (f.element_info.drop fr.base_element).take fr.num_elements)).flatten.map
        (element_bytes f.raw_data)) =
      some ((f.frame_info.map
        (fun fr => (f.element_info.drop fr.base_element).take fr.num_elements)).flatten.map
          (fun e => (f.raw_data.drop e.offset).take e.size)) := by
    apply all_some_map_of_forall
    intro e he
    unfold element_bytes
    rw [if_pos (helems e (hmem e he))]
  unfold PlayFile
  rw [h1]
  dsimp only
  rw [h2]
  dsimp only
  rw [flatten_map_flatten, List.map_map]
  unfold play_specification
  congr 2
  apply List.map_congr_left
  intro fr hfr
  show (((f.element_info.drop fr.base_element).take fr.num_elements).map
    (fun e => (f.raw_data.drop e.offset).take e.size)).flatten = _
  rw [take_drop_eq_range_map f.element_info zero_element _ _ (hframes fr hfr), List.map_map]
  congr 1
  apply List.map_congr_left
  intro j hj
  have hj1 : j < fr.num_elements := List.mem_range.1 hj
  have hin : f.element_info.getD (fr.base_element + j) zero_element ∈ f.element_info := by
    have hb := hframes fr hfr
    rw [List.getD_eq_getElem _ _ (by omega)]
    exact List.getElem_mem _
  exact take_drop_eq_range_map f.raw_data 0 _ _ (helems _ hin)

/-- Witness for C29: two frames over three elements and six raw bytes. -/
theorem play_file_pushes_specified_bytes_witness :
    play_specification two_frame_session = [0x00, 0x61, 1, 2, 3, 4] ∧
    PlayFile two_frame_session = some (play_specification two_frame_session) :=
  ⟨by decide,
   play_file_pushes_specified_bytes two_frame_session (by decide) (by decide)⟩

end fifo_player

namespace fifo_player

/-! ### C30 -/

theorem trim_frames_length (n : Nat) (l : List FPFrameInfo) :
    ∀ l1, trim_frames n l = some l1 → l1.length ≤ l.length := by
  induction l with
  | nil => intro l1 h; cases h
  | cons f fs ih =>
    intro l1 h
    unfold trim_frames at h
    split at h
    · have := ih l1 h
      simp only [List.length_cons]
      omega
    · have := Option.some.inj h
      subst this
      exact Nat.le_refl _

/-- The trimming loop stops at once on the list it returns. -/
theorem trim_frames_idem (n : Nat) : ∀ (l rev : List FPFrameInfo),
    trim_frames n l = some rev → trim_frames n rev = some rev
  | [], rev, h => by
    unfold trim_frames at h
    cases h
  | f :: rest, rev, h => by
    unfold trim_frames at h
    split at h
    · exact trim_frames_idem n rest rev h
    · rename_i hf
      have := Option.some.inj h
      subst this
      unfold trim_frames
      rw [if_neg hf]

/-- The function `FrameFinished`, whenever it returns: the frame list keeps its frames in number,
gains the frame opened at the element count, and only the frame list and `current_frame_info`
change; a store through a `current_frame_info` at or beyond the end of the frame list leaves the
frames as they are. -/
theorem FrameFinished_some (r r1 : Recorder) (h : FrameFinished r = some r1) :
    ∃ stored : List FPFrameInfo, stored.length = r.frame_info.length ∧
      (∀ i, r.current_frame_info = some i → r.frame_info.length ≤ i → stored = r.frame_info) ∧
      r1 = { r with
        frame_info := stored ++ [{ base_element := r.element_info.length, num_elements := 0 }],
        current_frame_info := some r.frame_info.length } := by
  unfold FrameFinished at h
  split at h
  · cases h
  · rename_i i hi
    cases hget : r.frame_info.get? i with
    | none =>
      rw [hget] at h
      exact ⟨r.frame_info, rfl, fun _ _ _ => rfl, (Option.some.inj h).symm⟩
    | some cur =>
      rw [hget] at h
      refine ⟨_, ?_, ?_, (Option.some.inj h).symm⟩
      · simp
      · intro j hj hle
        rw [hi] at hj
        have hji := Option.some.inj hj
        subst hji
        rw [List.get?_eq_none.2 hle] at hget
        cases hget

/-- Whenever `EndRecording` returns, `current_frame_info` refers to the frame that
`FrameFinished` appended and the trimming loop removed, at or beyond the end of the frame list;
the trimming loop stops at once on the frames that are left. -/
theorem EndRecording_leaves_stale_frame (d : Defs) (r r2 : Recorder)
    (h : EndRecording d r = some r2) :
    r2.current_frame_info = some r.frame_info.length ∧
    r2.frame_info.length ≤ r.frame_info.length ∧
    trim_frames r2.element_info.length r2.frame_info.reverse = some r2.frame_info.reverse := by
  unfold EndRecording at h
  split at h
  · cases h
  · rename_i r1 hff
    split at h
    · cases h
    · rename_i rev htrim
      have hr2 := Option.some.inj h
      subst hr2
      obtain ⟨stored, hlen, _, hr1⟩ := FrameFinished_some r r1 hff
      subst hr1
      refine ⟨rfl, ?_, ?_⟩
      · show rev.reverse.length ≤ _
        rw [List.length_reverse]
        dsimp only at htrim
        rw [List.reverse_append, List.reverse_singleton, List.singleton_append] at htrim
        unfold trim_frames at htrim
        rw [if_pos rfl] at htrim
        have := trim_frames_length _ _ _ htrim
        rw [List.length_reverse, hlen] at this
        exact this
      · show trim_frames r.element_info.length rev.reverse.reverse = some rev.reverse.reverse
        rw [List.reverse_reverse]
        exact trim_frames_idem _ _ _ htrim

/-- A second `EndRecording` right after the first: `FrameFinished` stores through the stale
`current_frame_info` into the spare capacity, appends a frame at the element count, the trimming
loop removes that frame and stops, and the header fields receive the values they hold. -/
theorem EndRecording_twice (d : Defs) (r r1 : Recorder) (h : EndRecording d r = some r1) :
    ∃ r2, EndRecording d r1 = some r2 ∧ r2.frame_info = r1.frame_info ∧
      r2.element_info = r1.element_info ∧ r2.raw_data = r1.raw_data ∧
      r2.file_header = r1.file_header ∧ r2.is_recording = r1.is_recording := by
  obtain ⟨hc, hl, htrim⟩ := EndRecording_leaves_stale_frame d r r1 h
  have hhead : r1.file_header.num_frames = r1.frame_info.length ∧
      r1.file_header.num_elements = r1.element_info.length ∧
      r1.file_header.num_raw_data_bytes = r1.raw_data.length ∧
      r1.file_header.frame_info_offset = d.sizeof_FPFileHeader ∧
      r1.file_header.element_info_offset =
        d.sizeof_FPFileHeader + r1.frame_info.length * d.sizeof_FPFrameInfo ∧
      r1.file_header.raw_data_offset =
        d.sizeof_FPFileHeader + r1.frame_info.length * d.sizeof_FPFrameInfo +
          r1.element_info.length * d.sizeof_FPElementInfo ∧
      r1.is_recording = false := by
    unfold EndRecording at h
    split at h
    · cases h
    · split at h
      · cases h
      · have hr1 := Option.some.inj h
        subst hr1
        exact ⟨rfl, rfl, rfl, rfl, rfl, rfl, rfl⟩
  obtain ⟨e1, e2, e3, e4, e5, e6, e7⟩ := hhead
  have hff : FrameFinished r1 = some { r1 with
      frame_info := r1.frame_info ++ [{ base_element := r1.element_info.length, num_elements := 0 }],
      current_frame_info := some r1.frame_info.length } := by
    unfold FrameFinished
    rw [hc]
    dsimp only
    rw [List.get?_eq_none.2 hl]
  have htrim2 : trim_frames r1.element_info.length
      (r1.frame_info ++
        [({ base_element := r1.element_info.length, num_elements := 0 } : FPFrameInfo)]).reverse =
      some r1.frame_info.reverse := by
    rw [List.reverse_append, List.reverse_singleton, List.singleton_append]
    unfold trim_frames
    rw [if_pos rfl]
    exact htrim
  unfold EndRecording
  rw [hff]
  dsimp only
  rw [htrim2]
  dsimp only
  refine ⟨_, rfl, List.reverse_reverse _, rfl, rfl, ?_, e7.symm⟩
  dsimp only
  rw [List.reverse_reverse]
  cases hh : r1.file_header with
  | mk m v nf ne nr fo eo ro =>
    rw [hh] at e1 e2 e3 e4 e5 e6
    dsimp only at e1 e2 e3 e4 e5 e6
    subst e1 e2 e3 e4
    rw [e5, e6]

/-- C30: `EndRecording` returns on every recording session that holds at least one element, and
whenever a first `EndRecording` has returned, a second `EndRecording` right after it returns and
leaves the frame list, the element list, the raw log and the header exactly as the first call
left them. -/
theorem second_end_recording_changes_nothing (d : Defs) (r : Recorder) :
    (Recording d r → 0 < r.element_info.length → r.element_info.length < 2 ^ 32 →
      ∃ r1, EndRecording d r = some r1) ∧
    ∀ r1, EndRecording d r = some r1 →
      ∃ r2, EndRecording d r1 = some r2 ∧ r2.frame_info = r1.frame_info ∧
        r2.element_info = r1.element_info ∧ r2.raw_data = r1.raw_data ∧
        r2.file_header = r1.file_header := by
  refine ⟨EndRecording_returns d r, ?_⟩
  intro r1 h
  obtain ⟨r2, h2, g1, g2, g3, g4, _⟩ := EndRecording_twice d r r1 h
  exact ⟨r2, h2, g1, g2, g3, g4⟩

/-- Witness for C30: the session with one recorded command; the second `EndRecording` returns the
state the first one left. -/
theorem second_end_recording_changes_nothing_witness :
    (∃ r1, EndRecording gp.sample_defs one_command_session = some r1) ∧
    EndRecording gp.sample_defs one_command_session = some ended_session ∧
    ∃ r2, EndRecording gp.sample_defs ended_session = some r2 ∧
      r2.frame_info = ended_session.frame_info ∧
      r2.element_info = ended_session.element_info ∧ r2.raw_data = ended_session.raw_data ∧
      r2.file_header = ended_session.file_header :=
  ⟨(second_end_recording_changes_nothing gp.sample_defs one_command_session).1
     (Recording.write _ (Recording.start _)) (by decide) (by decide),
   by decide,
   (second_end_recording_changes_nothing gp.sample_defs one_command_session).2 ended_session
     (by decide)⟩

end fifo_player

namespace gp

/-! ### C31 -/

end gp

namespace gp

/-! ### C32 -/

/-- The oracle on a class-1 command, with the cached length unknown or 6 (the value the oracle
caches for it). -/
theorem ready_class_one (env : Env) (s : State)
    (havail : s.g_fifo_read_ptr < s.g_fifo_write_ptr)
    (hsmall : s.g_fifo_write_ptr - s.g_fifo_read_ptr < 2 ^ 31)
    (hcache : s.last_required_size = -1 ∨ s.last_required_size = 6)
    (hclass : GP_OPMASK (FIFO_GET8 s 0) = 1) :
    ((Fifo_NextCommandReady env s).1 = true ↔ 6 ≤ s.g_fifo_write_ptr - s.g_fifo_read_ptr) ∧
    ((Fifo_NextCommandReady env s).1 = false →
      (Fifo_NextCommandReady env s).2.last_required_size = 6) := by
  have hne : s.g_fifo_read_ptr ≠ s.g_fifo_write_ptr := by omega
  have hb := bytes_in_fifo_of_le env s (Nat.le_of_lt havail)
  have hs32 := to_s32_of_small _ hsmall
  unfold Fifo_NextCommandReady
  rw [if_neg hne, hb]
  dsimp only
  by_cases hgate : s.last_required_size ≠ -1 ∧
      s.last_required_size > to_s32 ((s.g_fifo_write_ptr - s.g_fifo_read_ptr : Nat) : Int)
  · rw [if_pos hgate]
    rw [hs32] at hgate
    obtain ⟨h1, h2⟩ := hgate
    rcases hcache with h | h
    · exact absurd h h1
    · rw [h] at h2
      exact ⟨⟨fun hf => (by cases hf), fun h6 => (by omega)⟩, fun _ => h⟩
  · rw [if_neg hgate]
    simp only [hclass]
    by_cases h6 : 6 ≤ s.g_fifo_write_ptr - s.g_fifo_read_ptr
    · rw [if_pos (by simpa using h6)]
      exact ⟨⟨fun _ => h6, fun _ => rfl⟩, fun hf => (by cases hf)⟩
    · rw [if_neg (by simpa using h6)]
      exact ⟨⟨fun hf => (by cases hf), fun h => absurd h h6⟩, fun _ => rfl⟩

/-- C32 (counterexample): the opcode 0x10 has class 2. From `Fifo_Init`, after pushing the five
bytes 10 00 00 00 01 the oracle returns not-ready with 9 cached (not 6), and after one more byte
it still returns not-ready. -/
theorem scenario_opcode_0x10_needs_nine :
    GP_OPMASK 0x10 = 2 ∧
    pushed (Env.sample zero_memory 0) [0x10, 0x00, 0x00, 0x00, 0x01] =
      some scenario_five_state ∧
    (Fifo_NextCommandReady (Env.sample zero_memory 0) scenario_five_state).1 = false ∧
    (Fifo_NextCommandReady (Env.sample zero_memory 0)
      scenario_five_state).2.last_required_size = 9 ∧
    (FifoPush8 (Env.sample zero_memory 0)
      (Fifo_NextCommandReady (Env.sample zero_memory 0) scenario_five_state).2 0).map
      (fun s6 => (s6.g_fifo_write_ptr - s6.g_fifo_read_ptr,
        (Fifo_NextCommandReady (Env.sample zero_memory 0) s6).1)) = some (6, false) := by
  decide

/-- C32 (amended): from the `Fifo_Init` state (FIFO of at least 6 bytes), after pushing the five
bytes 08 00 00 00 01, a class-1 opcode, `Fifo_NextCommandReady` returns not-ready with the cached
required length equal to 6, and after pushing one more byte it returns ready. -/
theorem scenario_class_one_needs_six (env : Env) (b : Nat) (hsize : 6 ≤ env.FIFO_SIZE) :
    ∃ s5 s6, pushed env [0x08, 0x00, 0x00, 0x00, 0x01] = some s5 ∧
      s5.g_fifo_write_ptr - s5.g_fifo_read_ptr = 5 ∧
      (Fifo_NextCommandReady env s5).1 = false ∧
      (Fifo_NextCommandReady env s5).2.last_required_size = 6 ∧
      FifoPush8 env (Fifo_NextCommandReady env s5).2 b = some s6 ∧
      s6.g_fifo_write_ptr - s6.g_fifo_read_ptr = 6 ∧
      (Fifo_NextCommandReady env s6).1 = true := by
  obtain ⟨s5, h1, hbuf, hw, hr, _, hl, _⟩ := push_bytes_spec env [0x08, 0x00, 0x00, 0x00, 0x01]
    (Fifo_Init env (State.startup env)) [] env.FIFO_SIZE rfl rfl
    (by simp only [List.length_cons, List.length_nil]; omega) (by simp) (by decide)
  have hw5 : s5.g_fifo_write_ptr = 5 := hw
  have hr5 : s5.g_fifo_read_ptr = 0 := hr
  have hl5 : s5.last_required_size = -1 := hl
  have hop5 : FIFO_GET8 s5 0 = 0x08 := by
    unfold FIFO_GET8 buffer_at
    rw [hr5, hbuf]
    rfl
  have ho5 := ready_class_one env s5 (by omega) (by omega) (Or.inl hl5) (by rw [hop5]; decide)
  have hnot : (Fifo_NextCommandReady env s5).1 = false := by
    cases hf : (Fifo_NextCommandReady env s5).1 with
    | false => rfl
    | true => have := ho5.1.1 hf; omega
  obtain ⟨c, v, l, hframe⟩ := Fifo_NextCommandReady_frame env s5
  have hlast : (Fifo_NextCommandReady env s5).2.last_required_size = 6 := ho5.2 hnot
  have hfw : (Fifo_NextCommandReady env s5).2.g_fifo_write_ptr = 5 := by rw [hframe]; exact hw5
  have hfr : (Fifo_NextCommandReady env s5).2.g_fifo_read_ptr = 0 := by rw [hframe]; exact hr5
  have hfb : (Fifo_NextCommandReady env s5).2.g_fifo_buffer = s5.g_fifo_buffer := by
    rw [hframe]
  obtain ⟨s6, hpush, h6w, h6r, h6b, h6l⟩ : ∃ s6,
      FifoPush8 env (Fifo_NextCommandReady env s5).2 b = some s6 ∧
      s6.g_fifo_write_ptr = 6 ∧ s6.g_fifo_read_ptr = 0 ∧
      s6.g_fifo_buffer = s5.g_fifo_buffer.set 5 (b % 256) ∧ s6.last_required_size = 6 := by
    unfold FifoPush8
    rw [if_pos (by rw [hfw]; omega)]
    refine ⟨_, rfl, ?_, hfr, ?_, hlast⟩
    · show (Fifo_NextCommandReady env s5).2.g_fifo_write_ptr + 1 = 6
      omega
    · show (Fifo_NextCommandReady env s5).2.g_fifo_buffer.set
        (Fifo_NextCommandReady env s5).2.g_fifo_write_ptr (b % 256) = _
      rw [hfb, hfw]
  have hop6 : FIFO_GET8 s6 0 = 0x08 := by
    unfold FIFO_GET8 buffer_at
    rw [h6r, h6b, hbuf]
    rfl
  have ho6 := ready_class_one env s6 (by omega) (by omega) (Or.inr h6l) (by rw [hop6]; decide)
  exact ⟨s5, s6, h1, by omega, hnot, hlast, hpush, by omega, ho6.1.2 (by omega)⟩

/-- Witness for C32 (amended): the 64-byte FIFO, sixth byte 0. -/
theorem scenario_class_one_needs_six_witness :
    6 ≤ (Env.sample zero_memory 0).FIFO_SIZE ∧
    ∃ s5 s6, pushed (Env.sample zero_memory 0) [0x08, 0x00, 0x00, 0x00, 0x01] = some s5 ∧
      s5.g_fifo_write_ptr - s5.g_fifo_read_ptr = 5 ∧
      (Fifo_NextCommandReady (Env.sample zero_memory 0) s5).1 = false ∧
      (Fifo_NextCommandReady (Env.sample zero_memory 0) s5).2.last_required_size = 6 ∧
      FifoPush8 (Env.sample zero_memory 0)
        (Fifo_NextCommandReady (Env.sample zero_memory 0) s5).2 0 = some s6 ∧
      s6.g_fifo_write_ptr - s6.g_fifo_read_ptr = 6 ∧
      (Fifo_NextCommandReady (Env.sample zero_memory 0) s6).1 = true :=
  ⟨by decide, scenario_class_one_needs_six (Env.sample zero_memory 0) 0 (by decide)⟩

/-! ### C33 -/

/-- The oracle on the 5-byte classes 4-7 and 0xC: one and the same condition on the cursors and
the cached length. -/
theorem ready_five_byte_class (env : Env) (s : State)
    (hclass : GP_OPMASK (FIFO_GET8 s 0) = 4 ∨ GP_OPMASK (FIFO_GET8 s 0) = 5 ∨
      GP_OPMASK (FIFO_GET8 s 0) = 6 ∨ GP_OPMASK (FIFO_GET8 s 0) = 7 ∨
      GP_OPMASK (FIFO_GET8 s 0) = 0xC) :
    ((Fifo_NextCommandReady env s).1 = true ↔
      (s.g_fifo_read_ptr ≠ s.g_fifo_write_ptr ∧
       ¬ (s.last_required_size ≠ -1 ∧
          s.last_required_size > to_s32 (bytes_in_fifo env s : Int)) ∧
       5 ≤ bytes_in_fifo env s)) ∧
    ((Fifo_NextCommandReady env s).1 = true →
      (Fifo_NextCommandReady env s).2.last_required_size = -1) := by
  unfold Fifo_NextCommandReady
  dsimp only
  by_cases h1 : s.g_fifo_read_ptr = s.g_fifo_write_ptr
  · rw [if_pos h1]
    exact ⟨⟨fun hf => (by cases hf), fun h => absurd h1 h.1⟩, fun hf => (by cases hf)⟩
  · rw [if_neg h1]
    by_cases h2 : (s.last_required_size ≠ -1 ∧
        s.last_required_size > to_s32 (bytes_in_fifo env s : Int))
    · rw [if_pos h2]
      exact ⟨⟨fun hf => (by cases hf), fun h => absurd h2 h.2.1⟩, fun hf => (by cases hf)⟩
    · rw [if_neg h2]
      by_cases h5 : 5 ≤ bytes_in_fifo env s
      · rcases hclass with hc | hc | hc | hc | hc <;> simp only [hc] <;>
          rw [if_pos (by simpa using h5)] <;>
          exact ⟨⟨fun _ => ⟨h1, h2, h5⟩, fun _ => rfl⟩, fun _ => rfl⟩
      · rcases hclass with hc | hc | hc | hc | hc <;> simp only [hc] <;>
          rw [if_neg (by simpa using h5)] <;>
          exact ⟨⟨fun hf => (by cases hf), fun h => absurd h.2.2 h5⟩, fun hf => (by cases hf)⟩

/-- C33 (counterexample): there are no two states with the same cursors and the same cached
length, one with a class-0xC opcode at the read cursor and at least 5 bytes available for which
`Fifo_NextCommandReady` returns not-ready, the other with an opcode of class 4-7 for which it
returns ready. -/
theorem no_state_separates_bp_from_idx :
    ¬ ∃ (env : Env) (s1 s2 : State),
      s1.g_fifo_read_ptr = s2.g_fifo_read_ptr ∧ s1.g_fifo_write_ptr = s2.g_fifo_write_ptr ∧
      s1.last_required_size = s2.last_required_size ∧
      GP_OPMASK (FIFO_GET8 s1 0) = 0xC ∧
      (GP_OPMASK (FIFO_GET8 s2 0) = 4 ∨ GP_OPMASK (FIFO_GET8 s2 0) = 5 ∨
        GP_OPMASK (FIFO_GET8 s2 0) = 6 ∨ GP_OPMASK (FIFO_GET8 s2 0) = 7) ∧
      5 ≤ bytes_in_fifo env s1 ∧
      (Fifo_NextCommandReady env s1).1 = false ∧ (Fifo_NextCommandReady env s2).1 = true := by
  rintro ⟨env, s1, s2, hr, hw, hl, hc1, hc2, _, hf, ht⟩
  have hb : bytes_in_fifo env s1 = bytes_in_fifo env s2 := by
    unfold bytes_in_fifo; rw [hr, hw]
  have e1 := (ready_five_byte_class env s1 (Or.inr (Or.inr (Or.inr (Or.inr hc1))))).1
  have e2 := (ready_five_byte_class env s2 (by
    rcases hc2 with h | h | h | h
    · exact Or.inl h
    · exact Or.inr (Or.inl h)
    · exact Or.inr (Or.inr (Or.inl h))
    · exact Or.inr (Or.inr (Or.inr (Or.inl h))))).1
  have h2 := e2.1 ht
  rw [← hr, ← hw, ← hl, ← hb] at h2
  have := e1.2 h2
  rw [hf] at this
  cases this

/-- C33 (amended): for every state in which the opcode at the read cursor has class 0xC and at
least 5 bytes are available, `Fifo_NextCommandReady` returns what it returns for the 5-byte
classes 4-7 with the same cursors and the same cached length; it returns ready, leaving the cache
unknown, whenever the cached length is unknown or does not exceed the bytes available. -/
theorem bp_ready_like_idx (env : Env) (s1 s2 : State)
    (hr : s1.g_fifo_read_ptr = s2.g_fifo_read_ptr)
    (hw : s1.g_fifo_write_ptr = s2.g_fifo_write_ptr)
    (hl : s1.last_required_size = s2.last_required_size)
    (hc1 : GP_OPMASK (FIFO_GET8 s1 0) = 0xC)
    (hc2 : GP_OPMASK (FIFO_GET8 s2 0) = 4 ∨ GP_OPMASK (FIFO_GET8 s2 0) = 5 ∨
      GP_OPMASK (FIFO_GET8 s2 0) = 6 ∨ GP_OPMASK (FIFO_GET8 s2 0) = 7)
    (havail : s1.g_fifo_read_ptr < s1.g_fifo_write_ptr)
    (h5 : 5 ≤ bytes_in_fifo env s1) :
    (Fifo_NextCommandReady env s1).1 = (Fifo_NextCommandReady env s2).1 ∧
    ((s1.last_required_size = -1 ∨
        s1.last_required_size ≤ to_s32 (bytes_in_fifo env s1 : Int)) →
      (Fifo_NextCommandReady env s1).1 = true ∧
      (Fifo_NextCommandReady env s1).2.last_required_size = -1) := by
  have hb : bytes_in_fifo env s1 = bytes_in_fifo env s2 := by
    unfold bytes_in_fifo; rw [hr, hw]
  have e1 := ready_five_byte_class env s1 (Or.inr (Or.inr (Or.inr (Or.inr hc1))))
  have e2 := (ready_five_byte_class env s2 (by
    rcases hc2 with h | h | h | h
    · exact Or.inl h
    · exact Or.inr (Or.inl h)
    · exact Or.inr (Or.inr (Or.inl h))
    · exact Or.inr (Or.inr (Or.inr (Or.inl h))))).1
  rw [← hr, ← hw, ← hl, ← hb] at e2
  constructor
  · cases h1 : (Fifo_NextCommandReady env s1).1 with
    | true =>
      exact (e2.2 (e1.1.1 h1)).symm
    | false =>
      cases h2 : (Fifo_NextCommandReady env s2).1 with
      | false => rfl
      | true =>
        have := e1.1.2 (e2.1 h2)
        rw [h1] at this
        cases this
  · intro hcache
    have ht : (Fifo_NextCommandReady env s1).1 = true := by
      refine e1.1.2 ⟨by omega, ?_, h5⟩
      rintro ⟨n1, n2⟩
      rcases hcache with h | h
      · exact n1 h
      · omega
    exact ⟨ht, e1.2 ht⟩

/-- Witness for C33 (amended): a complete LOAD_BP_REG command and a complete LOAD_IDX_A command,
each alone in a fresh FIFO. -/
theorem bp_ready_like_idx_witness :
    GP_OPMASK (FIFO_GET8 bp_command_state 0) = 0xC ∧
    GP_OPMASK (FIFO_GET8 idx_command_state 0) = 4 ∧
    5 ≤ bytes_in_fifo (Env.sample zero_memory 0) bp_command_state ∧
    ((Fifo_NextCommandReady (Env.sample zero_memory 0) bp_command_state).1 =
        (Fifo_NextCommandReady (Env.sample zero_memory 0) idx_command_state).1 ∧
     ((bp_command_state.last_required_size = -1 ∨
         bp_command_state.last_required_size ≤
           to_s32 (bytes_in_fifo (Env.sample zero_memory 0) bp_command_state : Int)) →
       (Fifo_NextCommandReady (Env.sample zero_memory 0) bp_command_state).1 = true ∧
       (Fifo_NextCommandReady (Env.sample zero_memory 0)
         bp_command_state).2.last_required_size = -1)) :=
  ⟨by decide, by decide, by decide,
   bp_ready_like_idx (Env.sample zero_memory 0) bp_command_state idx_command_state (by decide)
     (by decide) (by decide) (by decide) (Or.inl (by decide)) (by decide) (by decide)⟩

end gp

namespace gp

/-! ### C34 -/

/-- C34 (the code at the failing input): a class-2 command of 17 words (count field 0x10, 73
bytes) is complete in the FIFO and recording is on. With 72 of its bytes the oracle returns
not-ready and caches 73; with all 73 it returns ready; `Fifo_GetCommandLength` returns 9 for it;
`Fifo_DecodeCommand` records an element of 9 bytes while the read cursor advances by 73. -/
theorem recorded_length_differs_from_oracle :
    xf_17_words.length = 73 ∧
    pushed (Env.wide zero_memory 0) xf_17_words =
      some (loaded_fifo (Env.wide zero_memory 0) xf_17_words) ∧
    (Fifo_NextCommandReady (Env.wide zero_memory 0)
      (loaded_fifo (Env.wide zero_memory 0) (xf_17_words.take 72))).1 = false ∧
    (Fifo_NextCommandReady (Env.wide zero_memory 0)
      (loaded_fifo (Env.wide zero_memory 0) (xf_17_words.take 72))).2.last_required_size = 73 ∧
    (Fifo_NextCommandReady (Env.wide zero_memory 0) xf_17_words_state).1 = true ∧
    Fifo_GetCommandLength (Env.wide zero_memory 0)
      (Fifo_NextCommandReady (Env.wide zero_memory 0) xf_17_words_state).2
      xf_17_words_state.g_fifo_read_ptr = 9 ∧
    (Fifo_DecodeCommand (Env.wide zero_memory 0) 2 xf_17_words_state).map
      (fun s1 => (s1.g_fifo_read_ptr, s1.recorder.element_info, s1.recorder.raw_data.length)) =
      some (73, [{ type := fifo_player.ElementType.REGISTER_WRITE, offset := 0, size := 9 }],
        9) := by
  decide

/-! ### C36 -/

/-- C36 (the code at the failing input): a class-2 command of 65 words (count field 0x40, 265
bytes) is complete in the FIFO. The oracle returns ready; the word count the handler derives is
65; `Fifo_DecodeCommand` returns with the assertion `length <= 64` failed and 65 words popped for
`regs[0] .. regs[64]`. -/
theorem xf_load_ready_with_65_words :
    xf_65_words.length = 265 ∧
    pushed (Env.wide zero_memory 0) xf_65_words = some xf_65_words_state ∧
    (Fifo_NextCommandReady (Env.wide zero_memory 0) xf_65_words_state).1 = true ∧
    GP_OPMASK (FIFO_GET8 xf_65_words_state 0) = 2 ∧
    ((FIFO_GET32 xf_65_words_state 1 >>> 16) + 1) % 2 ^ 16 = 65 ∧
    (Fifo_DecodeCommand (Env.wide zero_memory 0) 2 xf_65_words_state).map
      (fun s1 => (s1.g_fifo_read_ptr, s1.events)) =
      some (265, [Event.assert_xf_length 65, Event.XF_Load 65 0 (List.replicate 65 0)]) := by
  decide

/-! ### C37 -/

/-- C37 (the code at the failing input): the display list at 0x1000 (10 bytes) holds a
CALL_DISPLAYLIST of a one-NOP list at address 0, then a NOP. When the inner call returns inside
the outer list, the read mode is the primary-buffer one and address and offset are those of the
inner list (0 and 1, not 0x1000 and 9). One `Fifo_DecodeCommand` call on the FIFO holding the
command that starts the outer list and one more command therefore pops the second command from
the FIFO as if it were part of the outer list: the primary read cursor ends at 18, not at 9, and
the NOP at offset 9 of the outer list is never decoded. -/
theorem outer_display_list_continues_in_fifo :
    GP_OPMASK (display_list_byte (Env.sample nested_list_memory 0) 0x1000 0) = 8 ∧
    (exec (Env.sample nested_list_memory 0) 5 (Job.op GPFunc.CALL_DISPLAYLIST)
      inside_outer_list_state).map
      (fun s1 => (s1.Fifo_Pop, s1.g_dl_read_addr, s1.g_dl_read_offset, s1.g_fifo_read_ptr)) =
      some (ReadMode.normal, 0, 1, 9) ∧
    nested_list_state.g_fifo_read_ptr = 0 ∧ nested_list_state.g_fifo_write_ptr = 18 ∧
    (Fifo_DecodeCommand (Env.sample nested_list_memory 0) 40 nested_list_state).map
      (fun s1 => (s1.g_fifo_read_ptr, s1.Fifo_Pop, s1.g_dl_read_addr, s1.events)) =
      some (18, ReadMode.normal, 0x2000,
        [Event.CALL_DISPLAYLIST 0x1000 10, Event.CALL_DISPLAYLIST 0 1, Event.NOP,
         Event.CALL_DISPLAYLIST_finished, Event.CALL_DISPLAYLIST 0x2000 10] ++
        List.replicate 10 Event.NOP ++
        [Event.CALL_DISPLAYLIST_finished, Event.CALL_DISPLAYLIST_finished]) := by
  decide

end gp

namespace fifo_player

/-! ### C35 -/

theorem trim_frames_all (n : Nat) (l : List FPFrameInfo) (h : ∀ f ∈ l, f.base_element = n) :
    trim_frames n l = none := by
  induction l with
  | nil => rfl
  | cons f fs ih =>
    unfold trim_frames
    rw [if_pos (h f (List.mem_cons_self _ _))]
    exact ih (fun x hx => h x (List.mem_cons_of_mem _ hx))

theorem tiles_base_le (fs : List FPFrameInfo) :
    ∀ a b, tiles a fs b → ∀ f ∈ fs, f.base_element ≤ b := by
  induction fs with
  | nil => intro a b _ f hf; cases hf
  | cons g gs ih =>
    rintro a b ⟨h1, h2⟩ f hf
    rcases List.mem_cons.1 hf with h | h
    · rw [h]
      have := tiles_le _ _ _ h2
      omega
    · exact ih _ _ h2 f h

/-- On every recording session without elements the trimming loop of `EndRecording` removes all
frames and evaluates `frame_info.back()` on the empty list. -/
theorem EndRecording_empty_session (d : Defs) (r : Recorder) (hrec : Recording d r)
    (h0 : r.element_info.length = 0) : EndRecording d r = none := by
  have hlt : r.element_info.length < 2 ^ 32 := by rw [h0]; decide
  obtain ⟨init, cur, h1, h2, h3, h4, _⟩ := recording_invariant d r hrec hlt
  have hff := FrameFinished_spec r init cur h1 h4 h3 hlt
  have hrec1 : Recording d _ := Recording.frame_finished hrec hff
  obtain ⟨init1, cur1, g1, g2, g3, _, _⟩ := recording_invariant d _ hrec1 hlt
  have g1' : init ++ [{ cur with
      num_elements := r.element_info.length - cur.base_element }] ++
      [{ base_element := r.element_info.length, num_elements := 0 }] = init1 ++ [cur1] := g1
  have g3' : cur1.base_element ≤ r.element_info.length := g3
  have hall : ∀ f ∈ (init1 ++ [cur1]).reverse, f.base_element = r.element_info.length := by
    intro f hf
    rcases List.mem_append.1 (List.mem_reverse.1 hf) with h | h
    · have := tiles_base_le init1 0 cur1.base_element g2 f h
      omega
    · rw [List.mem_singleton.1 h]
      omega
  unfold EndRecording
  rw [hff]
  dsimp only
  rw [g1', trim_frames_all _ _ hall]

/-- C35 (the code at the failing input): `StartRecording` followed by `EndRecording`.
`FrameFinished` leaves two frames with `base_element` 0; the element count is 0, so the loop
removes both and then evaluates `frame_info.back()` on the empty frame list, before
`!frame_info.empty()`: the call has no defined outcome. The same after one or two
`FrameFinished` calls. -/
theorem end_recording_reads_back_of_empty_list :
    (FrameFinished (StartRecording gp.sample_defs Recorder.startup)).map
      (fun r1 => r1.frame_info) =
      some [{ base_element := 0, num_elements := 0 }, { base_element := 0, num_elements := 0 }] ∧
    trim_frames 0
      [{ base_element := 0, num_elements := 0 }, { base_element := 0, num_elements := 0 }] =
      none ∧
    EndRecording gp.sample_defs (StartRecording gp.sample_defs Recorder.startup) = none ∧
    ((FrameFinished (StartRecording gp.sample_defs Recorder.startup)).bind
      (EndRecording gp.sample_defs)) = none ∧
    (((FrameFinished (StartRecording gp.sample_defs Recorder.startup)).bind
      FrameFinished).bind (EndRecording gp.sample_defs)) = none := by
  decide

/-! ### C39 -/

/-- C39 (the code at the failing input): a session with one frame, no element and three raw
bytes, the header counts equal to the lengths of the arrays. `Save` writes the header, the frame
record and the three raw bytes (43 bytes). `Load` of these bytes into an empty session returns
after `fread` of the 0 bytes of the element section has returned 0: the raw data are not loaded,
the session differs from the one saved. A session whose three arrays are non-empty
(`loaded_session`) is loaded back unchanged. -/
theorem load_after_save_drops_raw_data :
    no_element_session.file_header.num_frames = no_element_session.frame_info.length ∧
    no_element_session.file_header.num_elements = no_element_session.element_info.length ∧
    no_element_session.file_header.num_raw_data_bytes = no_element_session.raw_data.length ∧
    (Save gp.sample_defs no_element_session).length = 43 ∧
    (Load gp.sample_defs (Save gp.sample_defs no_element_session) empty_session).raw_data =
      [] ∧
    Load gp.sample_defs (Save gp.sample_defs no_element_session) empty_session ≠
      no_element_session ∧
    Load gp.sample_defs (Save gp.sample_defs loaded_session) empty_session = loaded_session := by
  decide

end fifo_player

namespace input_common

/-! ### C40 -/

/-- C40 (the code at the failing input): channel 1, the key mapped to ANALOG_UP, state PRESSED.
The call returns true and controller 0, whose main stick was centred (0x80), has ANALOG_Y = 0xE0
afterwards: the stick values are stored in `g_controller_state[0]` whatever the channel. With
the port of the channel disabled the call returns false and returns the controllers as they
were. -/
theorem set_controller_status_writes_controller_zero :
    (SetControllerStatus sample_config store_status neutral_controllers 1 100
      GCButtonState.PRESSED).1 = true ∧
    (neutral_controllers 0).ANALOG_Y = 0x80 ∧
    ((SetControllerStatus sample_config store_status neutral_controllers 1 100
      GCButtonState.PRESSED).2 0).ANALOG_Y = 0xE0 ∧
    ((SetControllerStatus sample_config store_status neutral_controllers 1 100
      GCButtonState.PRESSED).2 1).ANALOG_Y = 0x80 ∧
    ((SetControllerStatus sample_config store_status neutral_controllers 1 100
      GCButtonState.PRESSED).2 1).status Control.ANALOG_UP = GCButtonState.PRESSED ∧
    (∀ (cfg : Config) (f : GCController → Control → GCButtonState → GCController)
      (ctl : Nat → GCController) (channel : Nat) (key : Int) (state : GCButtonState),
      ((cfg.controller_ports channel).enable = false ∨
        (cfg.controller_ports channel).keys.enable = false) →
      SetControllerStatus cfg f ctl channel key state = (false, ctl)) := by
  refine ⟨by decide, by decide, by decide, by decide, by decide, ?_⟩
  intro cfg f ctl channel key state h
  unfold SetControllerStatus
  rw [if_pos h]

end input_common

namespace gp

/-! ### Register-command handlers in display-list mode -/

theorem dl_advanced_by_refl (s : State) (h : s.g_dl_read_offset < 2 ^ 32) :
    dl_advanced_by s s 0 :=
  ⟨by rw [Nat.add_zero, Nat.mod_eq_of_lt h], rfl, rfl, rfl⟩

theorem dl_advanced_by_trans {s s1 s2 : State} {n m : Nat}
    (h1 : dl_advanced_by s s1 n) (h2 : dl_advanced_by s1 s2 m) :
    dl_advanced_by s s2 (n + m) := by
  obtain ⟨a1, a2, a3, a4⟩ := h1
  obtain ⟨b1, b2, b3, b4⟩ := h2
  refine ⟨?_, ?_, ?_, ?_⟩
  · rw [b1, a1]; omega
  · rw [b2, a2]
  · rw [b3, a3]
  · rw [b4, a4]

theorem dl_advanced_by_emit {s s1 : State} {n : Nat} (h : dl_advanced_by s s1 n) (e : Event) :
    dl_advanced_by s (emit s1 e) n := h

theorem dl_advanced_by_mode {s s1 : State} {n : Nat} (h : dl_advanced_by s s1 n)
    (hm : s.Fifo_Pop = ReadMode.displaylists) : s1.Fifo_Pop = ReadMode.displaylists := by
  rw [h.2.2.1, hm]

theorem dl_advanced_by_Pop8 (env : Env) (s : State) (h : s.Fifo_Pop = ReadMode.displaylists) :
    dl_advanced_by s (Fifo_Pop8 env s).2 1 := by
  rw [Fifo_Pop8_displaylists env s h]; exact ⟨rfl, rfl, rfl, rfl⟩

theorem dl_advanced_by_Pop16 (env : Env) (s : State) (h : s.Fifo_Pop = ReadMode.displaylists) :
    dl_advanced_by s (Fifo_Pop16 env s).2 2 := by
  rw [Fifo_Pop16_displaylists env s h]; exact ⟨rfl, rfl, rfl, rfl⟩

theorem dl_advanced_by_Pop32 (env : Env) (s : State) (h : s.Fifo_Pop = ReadMode.displaylists) :
    dl_advanced_by s (Fifo_Pop32 env s).2 4 := by
  rw [Fifo_Pop32_displaylists env s h]; exact ⟨rfl, rfl, rfl, rfl⟩

theorem dl_advanced_by_pop_regs (env : Env) (n : Nat) :
    ∀ s : State, s.Fifo_Pop = ReadMode.displaylists → s.g_dl_read_offset < 2 ^ 32 →
      dl_advanced_by s (pop_regs env n s).2 (4 * n) := by
  induction n with
  | zero => intro s _ hlt; exact dl_advanced_by_refl s hlt
  | succ n ih =>
    intro s h _
    simp only [pop_regs]
    have h1 := dl_advanced_by_Pop32 env s h
    have hlt1 : (Fifo_Pop32 env s).2.g_dl_read_offset < 2 ^ 32 := by
      rw [h1.1]; exact Nat.mod_lt _ (by decide)
    have h2 := ih _ (dl_advanced_by_mode h1 h) hlt1
    have := dl_advanced_by_trans h1 h2
    rw [show 4 * (n + 1) = 4 + 4 * n by omega]
    exact this

theorem dl_advanced_by_LOAD_CP_REG (env : Env) (s : State)
    (h : s.Fifo_Pop = ReadMode.displaylists) :
    dl_advanced_by s (GPOPCODE_LOAD_CP_REG env s) 5 := by
  have h1 := dl_advanced_by_Pop8 env s h
  have h2 := dl_advanced_by_Pop32 env _ (dl_advanced_by_mode h1 h)
  exact dl_advanced_by_emit (dl_advanced_by_trans h1 h2) _

theorem dl_advanced_by_LOAD_IDX (env : Env) (reg : IdxReg) (s : State)
    (h : s.Fifo_Pop = ReadMode.displaylists) :
    dl_advanced_by s (GPOPCODE_LOAD_IDX env reg s) 4 := by
  have h1 := dl_advanced_by_Pop16 env s h
  have h2 := dl_advanced_by_Pop16 env _ (dl_advanced_by_mode h1 h)
  exact dl_advanced_by_emit (dl_advanced_by_trans h1 h2) _

theorem dl_advanced_by_LOAD_BP_REG (env : Env) (s : State)
    (h : s.Fifo_Pop = ReadMode.displaylists) :
    dl_advanced_by s (GPOPCODE_LOAD_BP_REG env s) 4 :=
  dl_advanced_by_emit (dl_advanced_by_Pop32 env s h) _

theorem dl_advanced_by_LOAD_XF_REG (env : Env) (s : State)
    (h : s.Fifo_Pop = ReadMode.displaylists) :
    dl_advanced_by s (GPOPCODE_LOAD_XF_REG env s)
      (4 + 4 * ((((Fifo_Pop32 env s).1 >>> 16) + 1) % 2 ^ 16)) := by
  have h1 := dl_advanced_by_Pop32 env s h
  have hlt1 : (Fifo_Pop32 env s).2.g_dl_read_offset < 2 ^ 32 := by
    rw [h1.1]; exact Nat.mod_lt _ (by decide)
  unfold GPOPCODE_LOAD_XF_REG
  dsimp only
  split
  · have h2 := dl_advanced_by_pop_regs env ((((Fifo_Pop32 env s).1 >>> 16) + 1) % 2 ^ 16) _
      (dl_advanced_by_mode h1 h) hlt1
    exact dl_advanced_by_emit (dl_advanced_by_trans h1 h2) _
  · have h1' : dl_advanced_by s (emit (Fifo_Pop32 env s).2
        (Event.assert_xf_length ((((Fifo_Pop32 env s).1 >>> 16) + 1) % 2 ^ 16))) 4 :=
      dl_advanced_by_emit h1 _
    have h2 := dl_advanced_by_pop_regs env ((((Fifo_Pop32 env s).1 >>> 16) + 1) % 2 ^ 16) _
      (dl_advanced_by_mode h1' h) hlt1
    exact dl_advanced_by_emit (dl_advanced_by_trans h1' h2) _

theorem dl_byte_eq_list_byte (env : Env) (s : State) (k : Nat) :
    dl_byte env s k = display_list_byte env s.g_dl_read_addr (s.g_dl_read_offset + k) := by
  unfold dl_byte display_list_byte
  congr 3
  omega

end gp

namespace gp

theorem exec_dl_loop_unfold (env : Env) (fuel size : Nat) (s : State) :
    exec env (fuel + 1) (Job.dl_loop size) s =
      if s.g_dl_read_offset < size then
        match exec env fuel (Job.op (g_exec_op (GP_OPMASK (Fifo_Pop8 env s).1)))
          { (Fifo_Pop8 env s).2 with
            g_cur_cmd := (Fifo_Pop8 env s).1, g_cur_vat := (Fifo_Pop8 env s).1 &&& 0x7 } with
        | none => none
        | some s3 => exec env fuel (Job.dl_loop size) s3
      else some s := by
  rfl

/-- One pass of the CALL_DISPLAYLIST loop over a register command: the loop goes on in a state
whose nested offset is `len` bytes further, `len` the opcode and what its handler pops. -/
theorem dl_iteration (env : Env) (size fuel : Nat) (s : State) (len : Nat)
    (hmode : s.Fifo_Pop = ReadMode.displaylists) (hlt : s.g_dl_read_offset < size)
    (hlen : popped_length env s.g_dl_read_addr s.g_dl_read_offset = some len)
    (hnowrap : s.g_dl_read_offset + len < 2 ^ 32) :
    ∃ s3, exec env (fuel + 2) (Job.dl_loop size) s =
        exec env (fuel + 1) (Job.dl_loop size) s3 ∧
      s3.g_dl_read_offset = s.g_dl_read_offset + len ∧
      s3.Fifo_Pop = ReadMode.displaylists ∧
      s3.g_dl_read_addr = s.g_dl_read_addr ∧ s3.g_fifo_read_ptr = s.g_fifo_read_ptr := by
  have hpop1 : (Fifo_Pop8 env s).1 =
      display_list_byte env s.g_dl_read_addr s.g_dl_read_offset := by
    rw [Fifo_Pop8_displaylists env s hmode]
    exact dl_byte_eq env s
  have hadv1 := dl_advanced_by_Pop8 env s hmode
  -- the state the handler is called in
  have hadv2 : dl_advanced_by s
      { (Fifo_Pop8 env s).2 with
        g_cur_cmd := (Fifo_Pop8 env s).1, g_cur_vat := (Fifo_Pop8 env s).1 &&& 0x7 } 1 := hadv1
  have hmode2 := dl_advanced_by_mode hadv2 hmode
  have hbytes : ∀ k, dl_byte env
      { (Fifo_Pop8 env s).2 with
        g_cur_cmd := (Fifo_Pop8 env s).1, g_cur_vat := (Fifo_Pop8 env s).1 &&& 0x7 } k =
      display_list_byte env s.g_dl_read_addr (s.g_dl_read_offset + (1 + k)) := by
    intro k
    rw [dl_byte_eq_list_byte]
    show display_list_byte env (Fifo_Pop8 env s).2.g_dl_read_addr
      ((Fifo_Pop8 env s).2.g_dl_read_offset + k) = _
    rw [hadv1.1, hadv1.2.1]
    unfold display_list_byte
    congr 3
    omega
  have key : ∃ H, exec env (fuel + 1) (Job.op (g_exec_op (GP_OPMASK (Fifo_Pop8 env s).1)))
      { (Fifo_Pop8 env s).2 with
        g_cur_cmd := (Fifo_Pop8 env s).1, g_cur_vat := (Fifo_Pop8 env s).1 &&& 0x7 } = some H ∧
      dl_advanced_by s H len := by
    unfold popped_length at hlen
    rw [← hpop1] at hlen
    split at hlen
    · rename_i hclass
      rw [hclass]
      have hl := Option.some.inj hlen
      subst hl
      exact ⟨_, rfl, dl_advanced_by_emit hadv2 _⟩
    · rename_i hclass
      rw [hclass]
      have hl := Option.some.inj hlen
      subst hl
      exact ⟨_, rfl, dl_advanced_by_emit hadv2 _⟩
    · rename_i hclass
      rw [hclass]
      have hl := Option.some.inj hlen
      subst hl
      exact ⟨_, rfl, dl_advanced_by_trans hadv2 (dl_advanced_by_LOAD_CP_REG env _ hmode2)⟩
    · rename_i hclass
      rw [hclass]
      have hl := Option.some.inj hlen
      subst hl
      refine ⟨_, rfl, ?_⟩
      have h3 := dl_advanced_by_trans hadv2 (dl_advanced_by_LOAD_XF_REG env _ hmode2)
      rw [Fifo_Pop32_displaylists env _ hmode2] at h3
      have hv : (__displaylist_pop_32 env
          { (Fifo_Pop8 env s).2 with
            g_cur_cmd := (Fifo_Pop8 env s).1, g_cur_vat := (Fifo_Pop8 env s).1 &&& 0x7 }).1 =
          (display_list_byte env s.g_dl_read_addr (s.g_dl_read_offset + 1) <<< 24) |||
          (display_list_byte env s.g_dl_read_addr (s.g_dl_read_offset + 2) <<< 16) |||
          (display_list_byte env s.g_dl_read_addr (s.g_dl_read_offset + 3) <<< 8) |||
          display_list_byte env s.g_dl_read_addr (s.g_dl_read_offset + 4) := by
        unfold __displaylist_pop_32
        dsimp only
        rw [hbytes 0, hbytes 1, hbytes 2, hbytes 3]
      rw [hv] at h3
      have e : ∀ x, 1 + (4 + 4 * x) = 5 + 4 * x := fun x => by omega
      rw [e] at h3
      exact h3
    · rename_i hclass
      rw [hclass]
      have hl := Option.some.inj hlen
      subst hl
      exact ⟨_, rfl, dl_advanced_by_trans hadv2 (dl_advanced_by_LOAD_IDX env _ _ hmode2)⟩
    · rename_i hclass
      rw [hclass]
      have hl := Option.some.inj hlen
      subst hl
      exact ⟨_, rfl, dl_advanced_by_trans hadv2 (dl_advanced_by_LOAD_IDX env _ _ hmode2)⟩
    · rename_i hclass
      rw [hclass]
      have hl := Option.some.inj hlen
      subst hl
      exact ⟨_, rfl, dl_advanced_by_trans hadv2 (dl_advanced_by_LOAD_IDX env _ _ hmode2)⟩
    · rename_i hclass
      rw [hclass]
      have hl := Option.some.inj hlen
      subst hl
      exact ⟨_, rfl, dl_advanced_by_trans hadv2 (dl_advanced_by_LOAD_IDX env _ _ hmode2)⟩
    · rename_i hclass
      rw [hclass]
      have hl := Option.some.inj hlen
      subst hl
      exact ⟨_, rfl, dl_advanced_by_trans hadv2 (dl_advanced_by_LOAD_BP_REG env _ hmode2)⟩
    · cases hlen
  obtain ⟨H, hH, hadv⟩ := key
  refine ⟨H, ?_, ?_, dl_advanced_by_mode hadv hmode, hadv.2.1, hadv.2.2.2⟩
  · rw [exec_dl_loop_unfold, if_pos hlt, hH]
  · rw [hadv.1]
    exact Nat.mod_eq_of_lt hnowrap

end gp

namespace gp

theorem exec_dl_loop_exit (env : Env) (fuel size : Nat) (s : State)
    (h : size ≤ s.g_dl_read_offset) : exec env (fuel + 1) (Job.dl_loop size) s = some s := by
  rw [exec_dl_loop_unfold, if_neg (by omega)]

theorem popped_length_of_command (env : Env) (addr o : Nat) (c : List Nat)
    (hc : is_list_command c)
    (hbytes : ∀ i, i < c.length → display_list_byte env addr (o + i) = c.getD i 0) :
    popped_length env addr o = some c.length := by
  have hpos : 0 < c.length := by
    rcases hc with ⟨_, h⟩ | ⟨_, h⟩ | ⟨_, h⟩ | ⟨_, h⟩ | ⟨_, _, h⟩ <;> omega
  have h0 : display_list_byte env addr o = c.getD 0 0 := hbytes 0 hpos
  unfold popped_length
  rw [h0]
  rcases hc with ⟨h | h, hl⟩ | ⟨h, hl⟩ | ⟨h | h | h | h, hl⟩ | ⟨h, hl⟩ | ⟨h, hle, hl⟩
  · simp only [h, hl]
  · simp only [h, hl]
  · simp only [h, hl]
  · simp only [h, hl]
  · simp only [h, hl]
  · simp only [h, hl]
  · simp only [h, hl]
  · simp only [h, hl]
  · rw [hbytes 1 (by omega), hbytes 2 (by omega), hbytes 3 (by omega), hbytes 4 (by omega)]
    simp only [h]
    have hx : ((((c.getD 1 0 <<< 24) ||| (c.getD 2 0 <<< 16) ||| (c.getD 3 0 <<< 8) |||
        c.getD 4 0) >>> 16) + 1) % 2 ^ 16 =
        xf_count (c.getD 1 0) (c.getD 2 0) (c.getD 3 0) (c.getD 4 0) := by
      unfold xf_count at hle ⊢
      exact Nat.mod_eq_of_lt (by omega)
    rw [hx, hl]

/-- The CALL_DISPLAYLIST loop over a display list made of complete register commands: it ends
with the nested offset at the end of the list. -/
theorem dl_loop_commands (env : Env) (size : Nat) (hsize : size < 2 ^ 31) :
    ∀ (cmds : List (List Nat)) (fuel : Nat) (s : State),
      s.Fifo_Pop = ReadMode.displaylists →
      s.g_dl_read_offset + cmds.flatten.length = size →
      (∀ c ∈ cmds, is_list_command c) →
      (∀ i, i < cmds.flatten.length →
        display_list_byte env s.g_dl_read_addr (s.g_dl_read_offset + i) =
          cmds.flatten.getD i 0) →
      cmds.length + 1 ≤ fuel →
      ∃ s1, exec env fuel (Job.dl_loop size) s = some s1 ∧
        s1.g_dl_read_offset = size ∧ s1.Fifo_Pop = ReadMode.displaylists ∧
        s1.g_fifo_read_ptr = s.g_fifo_read_ptr ∧ s1.g_dl_read_addr = s.g_dl_read_addr := by
  intro cmds
  induction cmds with
  | nil =>
    intro fuel s hmode hoff _ _ hfuel
    obtain ⟨f, rfl⟩ : ∃ f, fuel = f + 1 := ⟨fuel - 1, by
      simp only [List.length_nil] at hfuel; omega⟩
    simp only [List.flatten_nil, List.length_nil, Nat.add_zero] at hoff
    exact ⟨s, exec_dl_loop_exit env f size s (by omega), hoff, hmode, rfl, rfl⟩
  | cons c cs ih =>
    intro fuel s hmode hoff hcmds hbytes hfuel
    obtain ⟨f, rfl⟩ : ∃ f, fuel = f + 2 := ⟨fuel - 2, by
      simp only [List.length_cons] at hfuel; omega⟩
    have hc := hcmds c (List.mem_cons_self _ _)
    have hflat : (c :: cs).flatten = c ++ cs.flatten := rfl
    rw [hflat] at hoff hbytes
    rw [List.length_append] at hoff hbytes
    have hpos : 0 < c.length := by
      rcases hc with ⟨_, h⟩ | ⟨_, h⟩ | ⟨_, h⟩ | ⟨_, h⟩ | ⟨_, _, h⟩ <;> omega
    have hlen := popped_length_of_command env s.g_dl_read_addr s.g_dl_read_offset c hc
      (fun i hi => by
        rw [hbytes i (by omega), List.getD_append _ _ _ _ hi])
    obtain ⟨s3, e3, o3, m3, a3, r3⟩ := dl_iteration env size f s c.length hmode (by omega) hlen
      (by omega)
    obtain ⟨s1, e1, o1, m1, r1, a1⟩ := ih (f + 1) s3 m3 (by omega)
      (fun x hx => hcmds x (List.mem_cons_of_mem _ hx))
      (fun i hi => by
        rw [a3, o3, Nat.add_assoc, hbytes (c.length + i) (by omega),
          List.getD_append_right _ _ _ _ (Nat.le_add_right _ _), Nat.add_sub_cancel_left])
      (by simp only [List.length_cons] at hfuel; omega)
    exact ⟨s1, e3.trans e1, o1, m1, r1.trans r3, a1.trans a3⟩

/-- A run of `k` NOP bytes inside a display list: the loop goes on behind them. -/
theorem dl_loop_nop_run (env : Env) (size fuel : Nat) (hsize : size < 2 ^ 32) :
    ∀ (k : Nat) (s : State),
      s.Fifo_Pop = ReadMode.displaylists → s.g_dl_read_offset + k ≤ size →
      (∀ i, s.g_dl_read_offset ≤ i → i < s.g_dl_read_offset + k →
        popped_length env s.g_dl_read_addr i = some 1) →
      ∃ s1, exec env (k + (fuel + 1)) (Job.dl_loop size) s =
          exec env (fuel + 1) (Job.dl_loop size) s1 ∧
        s1.g_dl_read_offset = s.g_dl_read_offset + k ∧
        s1.Fifo_Pop = ReadMode.displaylists ∧
        s1.g_dl_read_addr = s.g_dl_read_addr ∧ s1.g_fifo_read_ptr = s.g_fifo_read_ptr := by
  intro k
  induction k with
  | zero =>
    intro s hmode _ _
    exact ⟨s, by rw [Nat.zero_add], rfl, hmode, rfl, rfl⟩
  | succ k ih =>
    intro s hmode hfit hnop
    have e0 : k + 1 + (fuel + 1) = (k + fuel) + 2 := by omega
    have e1 : (k + fuel) + 1 = k + (fuel + 1) := by omega
    obtain ⟨s3, h3, o3, m3, a3, r3⟩ := dl_iteration env size (k + fuel) s 1 hmode (by omega)
      (hnop _ (Nat.le_refl _) (by omega)) (by omega)
    obtain ⟨s1, h1, o1, m1, a1, r1⟩ := ih s3 m3 (by omega)
      (fun i hi1 hi2 => by
        rw [a3]
        exact hnop i (by omega) (by omega))
    refine ⟨s1, ?_, by omega, m1, a1.trans a3, r1.trans r3⟩
    rw [e0, h3, e1, h1]

end gp

namespace gp

/-! ### C38 -/

theorem xor_three_twice (x : Nat) : (x ^^^ 3) ^^^ 3 = x := by
  rw [Nat.xor_assoc, Nat.xor_self, Nat.xor_zero]

/-- The bytes 5 .. 262147 of the display list of `long_xf_memory` are NOPs. -/
theorem long_xf_payload_nops (i : Nat) (h5 : 5 ≤ i) (hi : i < 262148) :
    popped_length (Env.sample long_xf_memory 0) 0x1000 i = some 1 := by
  have hb : display_list_byte (Env.sample long_xf_memory 0) 0x1000 i = 0 := by
    unfold display_list_byte
    show long_xf_memory (((0x1000 + i) % 2 ^ 32) ^^^ 3) % 256 = 0
    unfold long_xf_memory
    have hx : (0x1000 + i) % 2 ^ 32 = 0x1000 + i := Nat.mod_eq_of_lt (by omega)
    rw [xor_three_twice, hx]
    rw [if_neg (by omega), if_neg (by omega), if_neg (by omega), if_neg (by omega)]
  unfold popped_length
  rw [hb]
  rfl

/-- C38 (counterexample): the display list at 0x1000 is one class-2 command of 65536 words
(count field 0xFFFF), 262149 bytes, whose last payload byte is 0x08. The handler keeps the word
count in a u16 (0) and pops 5 bytes; the loop decodes the payload as commands, 262143 NOPs and a
LOAD_CP_REG that starts at the last byte of the list: the loop returns with the nested offset at
262154, five bytes beyond the end of the list. -/
theorem display_list_loop_overruns_long_xf :
    GP_OPMASK (display_list_byte (Env.sample long_xf_memory 0) 0x1000 0) = 2 ∧
    xf_count (display_list_byte (Env.sample long_xf_memory 0) 0x1000 1)
      (display_list_byte (Env.sample long_xf_memory 0) 0x1000 2)
      (display_list_byte (Env.sample long_xf_memory 0) 0x1000 3)
      (display_list_byte (Env.sample long_xf_memory 0) 0x1000 4) = 65536 ∧
    5 + 4 * 65536 = 262149 ∧
    long_xf_list_state.Fifo_Pop = ReadMode.displaylists ∧
    long_xf_list_state.g_dl_read_addr = 0x1000 ∧ long_xf_list_state.g_dl_read_offset = 0 ∧
    ∃ fuel s1, exec (Env.sample long_xf_memory 0) fuel (Job.dl_loop 262149)
        long_xf_list_state = some s1 ∧
      s1.g_dl_read_offset = 262154 := by
  refine ⟨by decide, by decide, by decide, rfl, rfl, rfl, ?_⟩
  obtain ⟨sA, hA, oA, mA, aA, _⟩ := dl_iteration (Env.sample long_xf_memory 0) 262149 262144
    long_xf_list_state 5 rfl (by decide) (by decide) (by decide)
  have oA5 : sA.g_dl_read_offset = 5 := oA
  have aA' : sA.g_dl_read_addr = 0x1000 := aA
  obtain ⟨sB, hB, oB, mB, aB, _⟩ := dl_loop_nop_run (Env.sample long_xf_memory 0) 262149 1
    (by decide) 262143 sA mA (by omega)
    (fun i hi1 hi2 => by
      rw [aA']
      exact long_xf_payload_nops i (by omega) (by omega))
  have oB' : sB.g_dl_read_offset = 262148 := by omega
  have aB' : sB.g_dl_read_addr = 0x1000 := aB.trans aA'
  obtain ⟨sC, hC, oC, _, _, _⟩ := dl_iteration (Env.sample long_xf_memory 0) 262149 0 sB 6 mB
    (by omega) (by rw [aB', oB']; decide) (by omega)
  have hD := exec_dl_loop_exit (Env.sample long_xf_memory 0) 0 262149 sC (by omega)
  exact ⟨262144 + 2, sC, hA.trans (hB.trans (hC.trans hD)), by omega⟩

/-- C38 (amended): for every display list of declared length n < 2^31 made only of complete
sub-commands of classes 0, 1, 2, 4-7, 9 and 0xC whose class-2 commands carry at most 64 words,
the CALL_DISPLAYLIST loop returns (fuel: one unit per sub-command and one more), and on exit the
nested offset equals n exactly, the read mode is still the display-list one and the primary read
cursor has not moved. -/
theorem display_list_loop_ends_at_length (env : Env) (cmds : List (List Nat)) (fuel : Nat)
    (s : State)
    (hmode : s.Fifo_Pop = ReadMode.displaylists)
    (hoff : s.g_dl_read_offset = 0)
    (hn : cmds.flatten.length < 2 ^ 31)
    (hcmds : ∀ c ∈ cmds, is_list_command c)
    (hmem : ∀ i, i < cmds.flatten.length →
      display_list_byte env s.g_dl_read_addr i = cmds.flatten.getD i 0)
    (hfuel : cmds.length + 1 ≤ fuel) :
    ∃ s1, exec env fuel (Job.dl_loop cmds.flatten.length) s = some s1 ∧
      s1.g_dl_read_offset = cmds.flatten.length ∧ s1.Fifo_Pop = ReadMode.displaylists ∧
      s1.g_fifo_read_ptr = s.g_fifo_read_ptr ∧ s1.g_dl_read_addr = s.g_dl_read_addr :=
  dl_loop_commands env cmds.flatten.length hn cmds fuel s hmode (by rw [hoff, Nat.zero_add])
    hcmds (fun i hi => by rw [hoff, Nat.zero_add]; exact hmem i hi) hfuel

/-- Witness for C38 (amended): a display list of 7 bytes, a NOP and a LOAD_CP_REG command. -/
theorem display_list_loop_ends_at_length_witness :
    nop_cp_list.flatten.length = 7 ∧
    (∀ c ∈ nop_cp_list, is_list_command c) ∧
    ∃ s1, exec (Env.sample nop_cp_memory 0) 3 (Job.dl_loop nop_cp_list.flatten.length)
        nop_cp_list_state = some s1 ∧
      s1.g_dl_read_offset = nop_cp_list.flatten.length ∧
      s1.Fifo_Pop = ReadMode.displaylists ∧
      s1.g_fifo_read_ptr = nop_cp_list_state.g_fifo_read_ptr ∧
      s1.g_dl_read_addr = nop_cp_list_state.g_dl_read_addr :=
  ⟨by decide, by decide,
   display_list_loop_ends_at_length (Env.sample nop_cp_memory 0) nop_cp_list 3
     nop_cp_list_state (by decide) (by decide) (by decide) (by decide) (by decide) (by decide)⟩

end gp
